import Mathlib

/-! ReShade add-on layer: block allocator, private data, D3D12 command translation

A shallow embedding of parts of `source/addon.hpp`,
`source/d3d12/d3d12_impl_command_list.cpp`,
`source/d3d12/d3d12_impl_command_queue.cpp` and `source/d3d11/d3d11_device.hpp`,
followed by theorems about them.

Conventions
* Addresses, handles and machine words are natural numbers; `0` is `nullptr`.
  `size_t` arithmetic that can wrap is reduced modulo `2 ^ 64` explicitly.
* Memory that the code leaves unassigned is tracked with `Option` (`none` is an
  indeterminate value).
* Values the code obtains from outside (the address `aligned_alloc` returns, the
  conversion table of `d3d12_impl_type_convert.hpp`, the enumerators of
  `api::resource_usage`, the members of the device, the answers of
  `allocate_transient` and of native calls) are parameters.
-/

namespace reshade

/-! ## `temp_mem` (addon.hpp, lines 12-36) -/

/-- The storage designated by the pointer `p` of a `temp_mem<T, STACK_ELEMENTS>`.
The constructor does not initialise it, so every element starts as `indet`. -/
structure temp_mem (T : Type) where
  p : List T

/-- The constructor `temp_mem(size_t elements)`: heap storage of `elements` items when that exceeds
`STACK_ELEMENTS`, the inline array `stack[STACK_ELEMENTS]` otherwise. -/
def temp_mem.create {T : Type} (STACK_ELEMENTS : Nat) (indet : T) (elements : Nat) : temp_mem T :=
  if elements > STACK_ELEMENTS then ⟨List.replicate elements indet⟩
  else ⟨List.replicate STACK_ELEMENTS indet⟩

/-- The subscript `operator[]` used as an lvalue: `m[element] = v`. -/
def temp_mem.assign {T : Type} (m : temp_mem T) (element : Nat) (v : T) : temp_mem T :=
  ⟨m.p.set element v⟩

/-! ## `command_list_impl::barrier` (d3d12_impl_command_list.cpp, lines 51-91) -/

/-- The enumerators of `api::resource_usage` that `barrier` compares against. The
enumeration is declared in a header that is not part of the sources at hand, so
the numeric values are parameters. -/
structure resource_usage_values where
  undefined : Nat
  unordered_access : Nat
  general : Nat

inductive D3D12_RESOURCE_BARRIER_TYPE where
  | TRANSITION
  | ALIASING
  | UAV
  deriving DecidableEq

def D3D12_RESOURCE_BARRIER_FLAG_NONE : Nat := 0

def D3D12_RESOURCE_BARRIER_ALL_SUBRESOURCES : Nat := 0xffffffff

/-- The anonymous union of `D3D12_RESOURCE_BARRIER`; `indeterminate` is the union
before any member has been written. -/
inductive barrier_union where
  | indeterminate
  | Transition (pResource Subresource StateBefore StateAfter : Nat)
  | Aliasing (pResourceBefore pResourceAfter : Nat)
  | UAV (pResource : Nat)
  deriving DecidableEq

structure D3D12_RESOURCE_BARRIER where
  Type_ : Option D3D12_RESOURCE_BARRIER_TYPE
  Flags : Option Nat
  u : barrier_union
  deriving DecidableEq

/-- An element of freshly created `temp_mem<D3D12_RESOURCE_BARRIER>` storage. -/
def D3D12_RESOURCE_BARRIER.indeterminate : D3D12_RESOURCE_BARRIER :=
  ⟨none, none, barrier_union.indeterminate⟩

/-- An element of `D3D12_RENDER_PASS_RENDER_TARGET_DESC` storage. A field that has not
been assigned is `none`. The member `BeginningAccess.Clear.ClearValue` is kept as the
pair of its `Format` and its `Color`; a colour is its four components. Floating
point numbers are only passed on, never computed with, and are kept as the natural
number that encodes them. -/
structure D3D12_RENDER_PASS_RENDER_TARGET_DESC where
  cpuDescriptor : Option Nat
  BeginningAccess_Type : Option Nat
  BeginningAccess_Clear : Option (Nat × (Nat × Nat × Nat × Nat))
  EndingAccess_Type : Option Nat
  deriving DecidableEq

/-- The local `D3D12_RENDER_PASS_DEPTH_STENCIL_DESC depth_stencil_desc`; the two clear
values are kept as the pairs (`Format`, `Depth`) and (`Format`, `Stencil`). -/
structure D3D12_RENDER_PASS_DEPTH_STENCIL_DESC where
  cpuDescriptor : Option Nat
  DepthBeginningAccess_Type : Option Nat
  StencilBeginningAccess_Type : Option Nat
  DepthEndingAccess_Type : Option Nat
  StencilEndingAccess_Type : Option Nat
  DepthBeginningAccess_Clear : Option (Nat × Nat)
  StencilBeginningAccess_Clear : Option (Nat × Nat)
  deriving DecidableEq

/-- The data handed to `Set...Root32BitConstants`: either the caller's pointer
`values`, or the array `{ 1.0f / width, 1.0f / height }` built by `generate_mipmaps`,
kept as the two integers it is computed from. -/
inductive root_constants where
  | pointer (values : Nat)
  | inverse_dimensions (width height : Nat)
  deriving DecidableEq

/-- An element of the local array `views` of `bind_stream_output_buffers`; a field
that has not been assigned is `none`. -/
structure D3D12_STREAM_OUTPUT_BUFFER_VIEW where
  BufferLocation : Option Nat
  SizeInBytes : Option Nat
  BufferFilledSizeLocation : Option Nat
  deriving DecidableEq

/-- The local `D3D12_RECT src_rect` of `resolve_texture_region`. -/
structure D3D12_RECT where
  left : Int
  top : Int
  right : Int
  bottom : Int
  deriving DecidableEq

/-- Calls made on the native `ID3D12GraphicsCommandList` (`_orig`). Array arguments
are the elements the call reads, in order. The array of `OMSetBlendFactor` holds
floats of the form `k / 255.0f` and is kept as the four integers `k`; the data of
`BeginEvent` is kept as its bytes. -/
inductive native_call where
  | ResourceBarrier (NumBarriers : Nat) (pBarriers : List D3D12_RESOURCE_BARRIER)
  | BeginRenderPass (NumRenderTargets : Nat)
      (pRenderTargets : List D3D12_RENDER_PASS_RENDER_TARGET_DESC)
      (pDepthStencil : Option D3D12_RENDER_PASS_DEPTH_STENCIL_DESC) (Flags : Nat)
  | ClearRenderTargetView (RenderTargetView : Nat) (ColorRGBA : Nat × Nat × Nat × Nat)
      (NumRects pRects : Nat)
  | ClearDepthStencilView (DepthStencilView ClearFlags Depth Stencil NumRects pRects : Nat)
  | OMSetRenderTargets (NumRenderTargetDescriptors : Nat)
      (pRenderTargetDescriptors : List (Option Nat))
      (RTsSingleHandleToDescriptorRange : Bool) (pDepthStencilDescriptor : Option Nat)
  | SetComputeRootSignature (pRootSignature : Nat)
  | SetGraphicsRootSignature (pRootSignature : Nat)
  | SetComputeRoot32BitConstants (RootParameterIndex Num32BitValuesToSet : Nat)
      (pSrcData : root_constants) (DestOffsetIn32BitValues : Nat)
  | SetGraphicsRoot32BitConstants (RootParameterIndex Num32BitValuesToSet : Nat)
      (pSrcData : root_constants) (DestOffsetIn32BitValues : Nat)
  | SetComputeRootDescriptorTable (RootParameterIndex BaseDescriptor : Nat)
  | SetGraphicsRootDescriptorTable (RootParameterIndex BaseDescriptor : Nat)
  | SetDescriptorHeaps (NumDescriptorHeaps : Nat) (ppDescriptorHeaps : List Nat)
  | SetPipelineState (pPipelineState : Nat)
  | Dispatch (ThreadGroupCountX ThreadGroupCountY ThreadGroupCountZ : Nat)
  | ClearUnorderedAccessViewUint (ViewGPUHandleInCurrentHeap ViewCPUHandle pResource : Nat)
      (Values NumRects pRects : Nat)
  | ClearUnorderedAccessViewFloat (ViewGPUHandleInCurrentHeap ViewCPUHandle pResource : Nat)
      (Values NumRects pRects : Nat)
  | EndQuery (pQueryHeap Type_ Index : Nat)
  | ResolveQueryData (pQueryHeap Type_ StartIndex NumQueries pDestinationBuffer
      AlignedDestinationBufferOffset : Nat)
  | SOSetTargets (StartSlot NumViews : Nat) (pViews : List D3D12_STREAM_OUTPUT_BUFFER_VIEW)
  | ResolveSubresourceRegion (pDstResource DstSubresource DstX DstY pSrcResource
      SrcSubresource : Nat) (pSrcRect : Option D3D12_RECT) (Format ResolveMode : Nat)
  | ResolveSubresource (pDstResource DstSubresource pSrcResource SrcSubresource Format : Nat)
  | OMSetBlendFactor (BlendFactor : Nat × Nat × Nat × Nat)
  | OMSetStencilRef (StencilRef : Nat)
  | IASetPrimitiveTopology (PrimitiveTopology : Nat)
  | BeginEvent (Metadata : Nat) (pData : List (Option Nat)) (Size : Nat)
  deriving DecidableEq

/-- The part of `command_list_impl` that `barrier` touches: the `_has_commands`
flag and the calls recorded so far on `_orig`. -/
structure command_list_impl where
  _has_commands : Bool
  orig_calls : List native_call
  deriving DecidableEq

/-- One iteration of the `for` loop of `barrier`, for index `i`. -/
def barrier_iteration (E : resource_usage_values) (convert_resource_usage_to_states : Nat → Nat)
    (resources old_states new_states : Nat → Nat)
    (barriers : temp_mem D3D12_RESOURCE_BARRIER) (i : Nat) : temp_mem D3D12_RESOURCE_BARRIER :=
  if resources i = 0 then
    barriers
  else if old_states i = E.unordered_access ∧ new_states i = E.unordered_access then
    barriers.assign i
      ⟨some D3D12_RESOURCE_BARRIER_TYPE.UAV, some D3D12_RESOURCE_BARRIER_FLAG_NONE,
        barrier_union.UAV (resources i)⟩
  else if old_states i = E.undefined ∧ new_states i = E.general then
    barriers.assign i
      ⟨some D3D12_RESOURCE_BARRIER_TYPE.ALIASING, ((barriers.p.get? i).bind fun b => b.Flags),
        barrier_union.Aliasing 0 (resources i)⟩
  else
    barriers.assign i
      ⟨some D3D12_RESOURCE_BARRIER_TYPE.TRANSITION, some D3D12_RESOURCE_BARRIER_FLAG_NONE,
        barrier_union.Transition (resources i) D3D12_RESOURCE_BARRIER_ALL_SUBRESOURCES
          (convert_resource_usage_to_states (old_states i))
          (convert_resource_usage_to_states (new_states i))⟩

/-- The method `command_list_impl::barrier`. The three arrays are given as index
functions (`resources i` is `resources[i].handle`). The native call receives the
first `count` elements that `barriers.p` points to. -/
def barrier (E : resource_usage_values) (convert_resource_usage_to_states : Nat → Nat)
    (self : command_list_impl) (count : Nat) (resources old_states new_states : Nat → Nat) :
    command_list_impl :=
  if count = 0 then
    self
  else
    let barriers := (List.range count).foldl
      (barrier_iteration E convert_resource_usage_to_states resources old_states new_states)
      (temp_mem.create 16 D3D12_RESOURCE_BARRIER.indeterminate count)
    { _has_commands := true
      orig_calls := self.orig_calls ++ [native_call.ResourceBarrier count (barriers.p.take count)] }

/-! ## `api_object_impl` private data (addon.hpp, lines 215-248) -/

/-- The parameter `const uint8_t guid[16]`: sixteen bytes. -/
abbrev guid16 := Fin 16 → Fin 256

/-- The element type `struct private_data { uint64_t data; uint64_t guid[2]; }`. -/
structure private_data where
  data : Nat
  guid0 : Nat
  guid1 : Nat
  deriving DecidableEq

/-- The value `reinterpret_cast<const uint64_t *>(guid)[0]` (little-endian load). -/
def guid_word0 (guid : guid16) : Nat :=
  (guid 0).val + 256 * ((guid 1).val + 256 * ((guid 2).val + 256 * ((guid 3).val +
    256 * ((guid 4).val + 256 * ((guid 5).val + 256 * ((guid 6).val + 256 * (guid 7).val))))))

/-- The value `reinterpret_cast<const uint64_t *>(guid)[1]` (little-endian load). -/
def guid_word1 (guid : guid16) : Nat :=
  (guid 8).val + 256 * ((guid 9).val + 256 * ((guid 10).val + 256 * ((guid 11).val +
    256 * ((guid 12).val + 256 * ((guid 13).val + 256 * ((guid 14).val + 256 * (guid 15).val))))))

/-- Byte `i` of the sixteen bytes that the array `it->guid` occupies in memory. -/
def private_data.guid_byte (e : private_data) (i : Fin 16) : Nat :=
  if i.val < 8 then e.guid0 / 256 ^ i.val % 256 else e.guid1 / 256 ^ (i.val - 8) % 256

/-- The test `std::memcmp(it->guid, guid, 16) == 0`. -/
def memcmp_guid_eq0 (e : private_data) (guid : guid16) : Bool :=
  decide (∀ i : Fin 16, e.guid_byte i = (guid i).val)

/-- The method `get_private_data`; the result is the value written to `*data`. The
argument `_private_data` is the vector member, front first. -/
def get_private_data : List private_data → guid16 → Nat
  | [], _ => 0
  | it :: rest, guid => if memcmp_guid_eq0 it guid then it.data else get_private_data rest guid

/-- The search loop of `set_private_data`: `none` when no element matches, otherwise
the vector after `it->data = data` or `_private_data.erase(it)` at the first match. -/
def set_private_data_loop : List private_data → guid16 → Nat → Option (List private_data)
  | [], _, _ => none
  | it :: rest, guid, data =>
    if memcmp_guid_eq0 it guid then
      if data ≠ 0 then some ({ it with data := data } :: rest) else some rest
    else
      (set_private_data_loop rest guid data).map fun r => it :: r

/-- The method `set_private_data`. -/
def set_private_data (_private_data : List private_data) (guid : guid16) (data : Nat) :
    List private_data :=
  match set_private_data_loop _private_data guid data with
  | some v => v
  | none =>
    if data ≠ 0 then _private_data ++ [⟨data, guid_word0 guid, guid_word1 guid⟩]
    else _private_data

/-- A series of `set_private_data` calls on a freshly constructed object (whose
vector is empty), oldest call first. -/
def set_private_data_calls (calls : List (guid16 × Nat)) : List private_data :=
  calls.foldl (fun v c => set_private_data v c.1 c.2) []

/-! ## `block_allocator` (addon.hpp, lines 43-190)

The allocator keeps two intrusive singly linked lists, each behind a heap-allocated
head node: the list of blocks and the list of free sub-blocks. A `node` holds one
field, `next`. The memory is modelled by the function that gives, for the address
of a node, the pointer stored in its `next` field. The `static_assert` of the
constructor (`sizeof(Type) >= sizeof(node)`) makes nodes at different sub-block
addresses occupy different bytes, so one cell per address is adequate.

Calls are executed one after another, so `compare_exchange_weak` finds the value
that was just loaded and the retry loops of `push_atomic` and `pop_atomic` run their
body once (a spurious failure would repeat the same stores). -/

/-- The template arguments `Type` (through `sizeof` and `alignof`) and `BlockSize`. -/
structure block_params where
  sizeof_Type : Nat
  alignof_Type : Nat
  BlockSize : Nat
  deriving DecidableEq

/-- The constant `sizeof(node)`: one pointer. -/
def sizeof_node : Nat := 8

/-- The constant `k_memory_allocation_alignment = alignof(Type)`. -/
def k_memory_allocation_alignment (P : block_params) : Nat := P.alignof_Type

/-- The local `sub_block_size` of `allocate` and `contains`, computed in `size_t`. -/
def sub_block_size (P : block_params) : Nat :=
  (((P.sizeof_Type - 1) / k_memory_allocation_alignment P + 1) *
    k_memory_allocation_alignment P) % 2 ^ 64

/-- The size `(sub_block_size * BlockSize) + k_memory_allocation_alignment` requested
for a block, computed in `size_t`. -/
def block_bytes (P : block_params) : Nat :=
  ((sub_block_size P * P.BlockSize) % 2 ^ 64 + k_memory_allocation_alignment P) % 2 ^ 64

/-- The members of `block_allocator` together with the `next` fields in memory. -/
structure block_allocator where
  next : Nat → Nat
  m_freelist : Nat
  m_blocklist : Nat

/-- The constructor. `blocklist_node` and `freelist_node` are the addresses returned
by the two `allocate_aligned<node>()` calls; `memory` is the memory before. -/
def block_allocator.construct (memory : Nat → Nat) (blocklist_node freelist_node : Nat) :
    block_allocator :=
  { next := Function.update (Function.update memory blocklist_node 0) freelist_node 0
    m_freelist := freelist_node
    m_blocklist := blocklist_node }

/-- The function `push_atomic(head, element)`. -/
def push_atomic (memory : Nat → Nat) (head element : Nat) : Nat → Nat :=
  let next := memory head
  Function.update (Function.update memory element next) head element

/-- The function `pop_atomic(head)`: the memory afterwards and the returned node. -/
def pop_atomic (memory : Nat → Nat) (head : Nat) : (Nat → Nat) × Nat :=
  let next := memory head
  if next = 0 then
    (memory, 0)
  else
    let desired := memory next
    (Function.update memory head desired, next)

/-- The `for` loop of `allocate`, entered with loop variable `i`: it pushes the
sub-blocks `i, i - 1, ..., 1` of the block whose first sub-block is at `block`. -/
def push_sub_blocks (P : block_params) (m_freelist block : Nat) : Nat → (Nat → Nat) → (Nat → Nat)
  | 0, memory => memory
  | i + 1, memory =>
    push_sub_blocks P m_freelist block i
      (push_atomic memory m_freelist (block + (sub_block_size P * (i + 1)) % 2 ^ 64))

/-- The method `allocate`. `blockptr` is the address that `allocate_aligned` returns
if this call requests a block. The result is the allocator afterwards and the
returned pointer (`assert(element)` is compiled out in release builds, so a null
`element` is returned as is). -/
def allocate (P : block_params) (self : block_allocator) (blockptr : Nat) :
    block_allocator × Nat :=
  let r := pop_atomic self.next self.m_freelist
  if r.2 = 0 then
    let memory1 := push_atomic r.1 self.m_blocklist blockptr
    let block := blockptr + k_memory_allocation_alignment P
    let memory2 := push_sub_blocks P self.m_freelist block
      ((P.BlockSize + 2 ^ 64 - 1) % 2 ^ 64) memory1
    let r2 := pop_atomic memory2 self.m_freelist
    ({ self with next := r2.1 }, r2.2)
  else
    ({ self with next := r.1 }, r.2)

/-- The method `free`. -/
def free (self : block_allocator) (element : Nat) : block_allocator :=
  { self with next := push_atomic self.next self.m_freelist element }

/-- The `while (block)` loop of `contains`, entered with `block`. The loop follows
pointers in memory, so it is given `fuel` iterations; `none` means the fuel ran
out before the loop ended. -/
def contains_loop (P : block_params) (memory : Nat → Nat) (byte_ptr : Nat) :
    Nat → Nat → Option Bool
  | 0, _ => none
  | fuel + 1, block =>
    if block = 0 then
      some false
    else
      let block_start := block + k_memory_allocation_alignment P
      let block_end := block_start + (sub_block_size P * P.BlockSize) % 2 ^ 64
      if byte_ptr ≥ block_start ∧ byte_ptr < block_end ∧
          (byte_ptr - block_start) % sub_block_size P = 0 then
        some true
      else
        contains_loop P memory byte_ptr fuel (memory block)

/-- The method `contains`. -/
def contains (P : block_params) (self : block_allocator) (ptr : Nat) (fuel : Nat) : Option Bool :=
  contains_loop P self.next ptr fuel (self.next self.m_blocklist)

/-! ### Sequential runs of `allocate` and `free` -/

/-- A call on the allocator. `allocate` carries the address that the system
allocator would return to this call. -/
inductive alloc_call where
  | allocate (blockptr : Nat)
  | free (element : Nat)
  deriving DecidableEq

/-- An allocator during a run, with the bookkeeping the statements refer to:
`blocks` are the addresses obtained for blocks (newest first), `returned` are all
values returned by `allocate` (newest first), and `live` are the non-null values
returned by `allocate` and not passed to `free` since. -/
structure alloc_run where
  self : block_allocator
  blocks : List Nat
  returned : List Nat
  live : List Nat

/-- A freshly constructed allocator. -/
def alloc_run.fresh (memory : Nat → Nat) (blocklist_node freelist_node : Nat) : alloc_run :=
  { self := block_allocator.construct memory blocklist_node freelist_node
    blocks := []
    returned := []
    live := [] }

/-- Executes one call. A block is requested exactly when the first `pop_atomic` of
`allocate` finds the free list empty. -/
def alloc_run.step (P : block_params) (s : alloc_run) : alloc_call → alloc_run
  | alloc_call.allocate blockptr =>
    let r := allocate P s.self blockptr
    { self := r.1
      blocks := if s.self.next s.self.m_freelist = 0 then blockptr :: s.blocks else s.blocks
      returned := r.2 :: s.returned
      live := if r.2 = 0 then s.live else r.2 :: s.live }
  | alloc_call.free element =>
    { self := free s.self element
      blocks := s.blocks
      returned := s.returned
      live := s.live.erase element }

/-- Executes a series of calls, first call first. -/
def alloc_run.run (P : block_params) (s : alloc_run) (calls : List alloc_call) : alloc_run :=
  calls.foldl (alloc_run.step P) s

/-- The template arguments are usable: `Type` is an object type that passes the
`static_assert`, the alignment is positive, a block has at least one sub-block,
and the size of a block does not wrap around in `size_t`. -/
def block_params.valid (P : block_params) : Prop :=
  sizeof_node ≤ P.sizeof_Type ∧ 1 ≤ P.alignof_Type ∧ 1 ≤ P.BlockSize ∧
    ((P.sizeof_Type - 1) / P.alignof_Type + 1) * P.alignof_Type * P.BlockSize + P.alignof_Type
      < 2 ^ 64

instance (P : block_params) : Decidable P.valid := by
  unfold block_params.valid; infer_instance

/-- The bytes `[blockptr, blockptr + block_bytes)` are a fresh allocation: non-null,
away from the two head nodes and from every block obtained before. -/
def alloc_run.fresh_block (P : block_params) (s : alloc_run) (blockptr : Nat) : Prop :=
  blockptr ≠ 0 ∧
  (s.self.m_blocklist < blockptr ∨ blockptr + block_bytes P ≤ s.self.m_blocklist) ∧
  (s.self.m_freelist < blockptr ∨ blockptr + block_bytes P ≤ s.self.m_freelist) ∧
  ∀ b ∈ s.blocks, blockptr + block_bytes P ≤ b ∨ b + block_bytes P ≤ blockptr

instance (P : block_params) (s : alloc_run) (blockptr : Nat) :
    Decidable (s.fresh_block P blockptr) := by
  unfold alloc_run.fresh_block; infer_instance

/-- The call respects the contract: the system allocator hands out fresh memory to
an `allocate` that requests a block, and `free` is given a live sub-block. -/
def alloc_run.legal_call (P : block_params) (s : alloc_run) : alloc_call → Prop
  | alloc_call.allocate blockptr => s.self.next s.self.m_freelist = 0 → s.fresh_block P blockptr
  | alloc_call.free element => element ∈ s.live

instance (P : block_params) (s : alloc_run) (c : alloc_call) : Decidable (s.legal_call P c) := by
  cases c <;> unfold alloc_run.legal_call <;> infer_instance

/-- Every call of the series respects the contract in the state it is made in. -/
def alloc_run.legal (P : block_params) : alloc_run → List alloc_call → Prop
  | _, [] => True
  | s, c :: calls => s.legal_call P c ∧ alloc_run.legal P (s.step P c) calls

instance alloc_run.decidable_legal (P : block_params) :
    (s : alloc_run) → (calls : List alloc_call) → Decidable (alloc_run.legal P s calls)
  | _, [] => isTrue trivial
  | s, c :: calls =>
    have := alloc_run.decidable_legal P (s.step P c) calls
    by unfold alloc_run.legal; infer_instance

/-- The two head nodes are distinct, non-null allocations. -/
def heads_ok (blocklist_node freelist_node : Nat) : Prop :=
  blocklist_node ≠ 0 ∧ freelist_node ≠ 0 ∧ blocklist_node ≠ freelist_node

instance (b f : Nat) : Decidable (heads_ok b f) := by
  unfold heads_ok; infer_instance

end reshade

namespace reshade

/-! ## Binding and mip-map commands of `command_list_impl`
(d3d12_impl_command_list.cpp, lines 93-161, 250-435 and 677-810)

Handles, pointers and enumeration values are natural numbers, `0` is `nullptr`.
32-bit and 64-bit unsigned arithmetic is reduced modulo `2 ^ 32` and `2 ^ 64`. -/

/-- The enumerators of `api::shader_stage`, `api::descriptor_type` and
`api::render_pass_load_op` that the commands test against. They are declared in a
header that is not part of the sources at hand, so their values are parameters. -/
structure api_values where
  shader_stage_all_compute : Nat
  shader_stage_all_graphics : Nat
  descriptor_type_sampler : Nat
  descriptor_type_constant_buffer : Nat
  descriptor_type_shader_resource_view : Nat
  descriptor_type_unordered_access_view : Nat
  render_pass_load_op_clear : Nat

def D3D12_DESCRIPTOR_HEAP_TYPE_CBV_SRV_UAV : Nat := 0

def D3D12_RESOURCE_STATE_UNORDERED_ACCESS : Nat := 0x8

def D3D12_RESOURCE_STATE_NON_PIXEL_SHADER_RESOURCE : Nat := 0x40

def D3D12_RESOURCE_STATE_PIXEL_SHADER_RESOURCE : Nat := 0x80

def D3D12_CLEAR_FLAG_DEPTH : Nat := 0x1

def D3D12_CLEAR_FLAG_STENCIL : Nat := 0x2

def D3D12_RENDER_PASS_FLAG_NONE : Nat := 0

def UINT64_MAX : Nat := 2 ^ 64 - 1

/-- The fields of `D3D12_RESOURCE_DESC` that the commands read. -/
structure D3D12_RESOURCE_DESC where
  Width : Nat
  Height : Nat
  MipLevels : Nat
  Format : Nat

/-- What the commands read from the device and from native objects: members of
`device_impl`, its helper functions and the conversion functions of
`d3d12_impl_type_convert.hpp` (none of which is part of the sources at hand), and
the getters of the native objects. -/
structure device_impl where
  _mipmap_pipeline : Nat
  _mipmap_signature : Nat
  _gpu_view_heap : Nat
  _gpu_sampler_heap : Nat
  _descriptor_handle_size : Nat → Nat
  get_resource_from_view : Nat → Nat
  get_resource_view_desc_format : Nat → Nat
  get_descriptor_heap : Nat → Nat
  convert_to_original_gpu_descriptor_handle : Nat → Nat
  convert_descriptor_type_to_heap_type : Nat → Nat
  convert_render_pass_load_op : Nat → Nat
  convert_render_pass_store_op : Nat → Nat
  convert_format : Nat → Nat
  format_to_default_typed : Nat → Nat
  heap_GetDesc_Type : Nat → Nat
  GetGPUVirtualAddress : Nat → Nat
  resource_GetDesc : Nat → D3D12_RESOURCE_DESC

/-- Modelled from the spec: the helper `device_impl::offset_descriptor_handle` is not
part of the sources at hand. A descriptor range is a contiguous span of descriptor
slots, so the handle that lies `offset` slots after `handle` is `handle` plus
`offset` times the handle size of the heap type. -/
def device_impl.offset_descriptor_handle (D : device_impl) (handle offset type : Nat) : Nat :=
  handle + offset * D._descriptor_handle_size type

/-- Calls made on the native `ID3D12Device` (`get_device()->_orig`) that write
descriptors. `CreateUnorderedAccessView` carries its `pDesc` as the pair
(`Format`, `MipSlice`), or `none` for `nullptr`; `CopyDescriptors` carries the
elements of its four arrays. -/
inductive device_call where
  | CreateShaderResourceView (pResource Format MostDetailedMip DestDescriptor : Nat)
  | CreateUnorderedAccessView (pResource : Nat) (pDesc : Option (Nat × Nat)) (DestDescriptor : Nat)
  | CreateConstantBufferView (BufferLocation SizeInBytes DestDescriptor : Nat)
  | CopyDescriptors (pDestDescriptorRangeStarts pDestDescriptorRangeSizes
      pSrcDescriptorRangeStarts pSrcDescriptorRangeSizes : List Nat)
      (DescriptorHeapsType : Nat)
  deriving DecidableEq

/-- The state the commands work on: the members `_has_commands`,
`_current_root_signature[2]` and `_current_descriptor_heaps[2]` of `command_list_impl`
(index 0 first), the calls recorded on `_orig`, the descriptor writes recorded on the
device, and the `allocate_transient` requests made, as pairs (heap, count). -/
structure translator where
  _has_commands : Bool
  orig_calls : List native_call
  _current_root_signature : Nat × Nat
  _current_descriptor_heaps : Nat × Nat
  device_calls : List device_call
  transient_requests : List (Nat × Nat)
  deriving DecidableEq

/-- Modelled from the spec: a recording context right after its reset (the reset is
not part of the sources at hand): nothing recorded, nothing cached as bound. -/
def translator.fresh : translator :=
  { _has_commands := false
    orig_calls := []
    _current_root_signature := (0, 0)
    _current_descriptor_heaps := (0, 0)
    device_calls := []
    transient_requests := [] }

/-- Records one call on `_orig`. -/
def translator.call (t : translator) (c : native_call) : translator :=
  { t with orig_calls := t.orig_calls ++ [c] }

/-- Records one call on the device. -/
def translator.device (t : translator) (c : device_call) : translator :=
  { t with device_calls := t.device_calls ++ [c] }

/-- Records a request `heap.allocate_transient(count, ...)`. -/
def translator.request (t : translator) (heap count : Nat) : translator :=
  { t with transient_requests := t.transient_requests ++ [(heap, count)] }

/-- The block `if (_current_root_signature[1] != root_signature) { ... }` that
`push_constants`, `push_descriptors` and `bind_descriptor_sets` share. -/
def translator.set_compute_root_signature (t : translator) (root_signature : Nat) : translator :=
  if t._current_root_signature.2 ≠ root_signature then
    ({ t with _current_root_signature := (t._current_root_signature.1, root_signature) }).call
      (native_call.SetComputeRootSignature root_signature)
  else t

/-- The block `if (_current_root_signature[0] != root_signature) { ... }` that
`push_constants`, `push_descriptors` and `bind_descriptor_sets` share. -/
def translator.set_graphics_root_signature (t : translator) (root_signature : Nat) : translator :=
  if t._current_root_signature.1 ≠ root_signature then
    ({ t with _current_root_signature := (root_signature, t._current_root_signature.2) }).call
      (native_call.SetGraphicsRootSignature root_signature)
  else t

/-- The method `push_constants`; `layout` is `layout.handle`. -/
def push_constants (E : api_values) (t : translator) (stages layout layout_param first count
    values : Nat) : translator :=
  let root_signature := layout
  let t1 :=
    if stages &&& E.shader_stage_all_compute ≠ 0 then
      (t.set_compute_root_signature root_signature).call
        (native_call.SetComputeRoot32BitConstants layout_param count
          (root_constants.pointer values) first)
    else t
  if stages &&& E.shader_stage_all_graphics ≠ 0 then
    (t1.set_graphics_root_signature root_signature).call
      (native_call.SetGraphicsRoot32BitConstants layout_param count
        (root_constants.pointer values) first)
  else t1

/-- The element type `api::buffer_range`. -/
structure buffer_range where
  buffer : Nat
  offset : Nat
  size : Nat

/-- The argument `api::descriptor_set_update`. The array `descriptors` is read as
`buffer_range` elements for constant buffers and as 64-bit handles otherwise. -/
structure descriptor_set_update where
  binding : Nat
  count : Nat
  type : Nat
  descriptors_ranges : Nat → buffer_range
  descriptors_handles : Nat → Nat

/-- One iteration of the constant-buffer loop of `push_descriptors`: the state is the
translator and the running `base_handle`. -/
def push_descriptors_cbv_iteration (D : device_impl) (update : descriptor_set_update)
    (acc : translator × Nat) (k : Nat) : translator × Nat :=
  let buffer_range := update.descriptors_ranges k
  let buffer_resource := buffer_range.buffer
  let BufferLocation := (D.GetGPUVirtualAddress buffer_resource + buffer_range.offset) % 2 ^ 64
  let SizeInBytes :=
    if buffer_range.size = UINT64_MAX then (D.resource_GetDesc buffer_resource).Width % 2 ^ 32
    else buffer_range.size % 2 ^ 32
  (acc.1.device (device_call.CreateConstantBufferView BufferLocation SizeInBytes acc.2),
    D.offset_descriptor_handle acc.2 1 D3D12_DESCRIPTOR_HEAP_TYPE_CBV_SRV_UAV)

/-- The `if` / `else if` / `else` block of `push_descriptors` that writes the
descriptors of `update` starting at `base_handle` (64-bit build); the final `else`
holds only `assert(false)`. -/
def push_descriptors_write (E : api_values) (D : device_impl) (update : descriptor_set_update)
    (t : translator) (base_handle : Nat) : translator :=
  if update.type = E.descriptor_type_constant_buffer then
    ((List.range update.count).foldl (push_descriptors_cbv_iteration D update)
      (t, base_handle)).1
  else if update.type = E.descriptor_type_sampler ∨
      update.type = E.descriptor_type_shader_resource_view ∨
      update.type = E.descriptor_type_unordered_access_view then
    t.device (device_call.CopyDescriptors [base_handle] [update.count]
      ((List.range update.count).map update.descriptors_handles)
      (List.replicate update.count 1) (D.convert_descriptor_type_to_heap_type update.type))
  else
    t

/-- The method `push_descriptors`. `alloc` is the answer of the `allocate_transient`
call it makes: `none` when that call returns `false`, otherwise the pair
(`base_handle`, `base_handle_gpu`). -/
def push_descriptors (E : api_values) (D : device_impl) (alloc : Option (Nat × Nat))
    (t : translator) (stages layout layout_param : Nat) (update : descriptor_set_update) :
    translator :=
  let t0 := t.request
    (if update.type ≠ E.descriptor_type_sampler then D._gpu_view_heap else D._gpu_sampler_heap)
    ((update.binding + update.count) % 2 ^ 32)
  match alloc with
  | none => t0
  | some (base_handle0, base_handle_gpu) =>
    let heap_type := D.convert_descriptor_type_to_heap_type update.type
    let base_handle := D.offset_descriptor_handle base_handle0 update.binding heap_type
    let t1 := push_descriptors_write E D update t0 base_handle
    let t2 :=
      if t1._current_descriptor_heaps.1 ≠ D._gpu_sampler_heap ∨
          t1._current_descriptor_heaps.2 ≠ D._gpu_view_heap then
        { t1.call (native_call.SetDescriptorHeaps 2 [D._gpu_sampler_heap, D._gpu_view_heap]) with
          _current_descriptor_heaps := (D._gpu_sampler_heap, D._gpu_view_heap) }
      else t1
    let root_signature := layout
    let t3 :=
      if stages &&& E.shader_stage_all_compute ≠ 0 then
        (t2.set_compute_root_signature root_signature).call
          (native_call.SetComputeRootDescriptorTable layout_param base_handle_gpu)
      else t2
    if stages &&& E.shader_stage_all_graphics ≠ 0 then
      (t3.set_graphics_root_signature root_signature).call
        (native_call.SetGraphicsRootDescriptorTable layout_param base_handle_gpu)
    else t3

/-- The inner `for (k = 0; k < 2; ++k)` loop of `bind_descriptor_sets` for one heap,
on the local array `heaps`. -/
def bind_descriptor_sets_place (D : device_impl) (heaps : Nat × Nat) (heap : Nat) : Nat × Nat :=
  if heaps.1 = heap then heaps
  else if heaps.1 = 0 ∨ D.heap_GetDesc_Type heaps.1 = D.heap_GetDesc_Type heap then (heap, heaps.2)
  else if heaps.2 = heap then heaps
  else if heaps.2 = 0 ∨ D.heap_GetDesc_Type heaps.2 = D.heap_GetDesc_Type heap then (heaps.1, heap)
  else heaps

/-- One iteration of the outer loop of `bind_descriptor_sets`, for the set `sets[i]`. -/
def bind_descriptor_sets_heap (D : device_impl) (sets : Nat → Nat) (heaps : Nat × Nat) (i : Nat) :
    Nat × Nat :=
  let heap := D.get_descriptor_heap (sets i)
  if heap = 0 then heaps else bind_descriptor_sets_place D heaps heap

/-- The method `bind_descriptor_sets`; `sets i` is `sets[i]`. -/
def bind_descriptor_sets (E : api_values) (D : device_impl) (t : translator)
    (stages layout first count : Nat) (sets : Nat → Nat) : translator :=
  if count = 0 then t
  else
    let heaps := (List.range count).foldl (bind_descriptor_sets_heap D sets)
      t._current_descriptor_heaps
    let t1 :=
      if t._current_descriptor_heaps.1 ≠ heaps.1 ∨ t._current_descriptor_heaps.2 ≠ heaps.2 then
        { t.call (native_call.SetDescriptorHeaps (if heaps.2 ≠ 0 then 2 else 1)
            ([heaps.1, heaps.2].take (if heaps.2 ≠ 0 then 2 else 1))) with
          _current_descriptor_heaps := heaps }
      else t
    let root_signature := layout
    let t2 :=
      if stages &&& E.shader_stage_all_compute ≠ 0 then
        (List.range count).foldl
          (fun acc i => acc.call (native_call.SetComputeRootDescriptorTable ((first + i) % 2 ^ 32)
            (D.convert_to_original_gpu_descriptor_handle (sets i))))
          (t1.set_compute_root_signature root_signature)
      else t1
    if stages &&& E.shader_stage_all_graphics ≠ 0 then
      (List.range count).foldl
        (fun acc i => acc.call (native_call.SetGraphicsRootDescriptorTable ((first + i) % 2 ^ 32)
          (D.convert_to_original_gpu_descriptor_handle (sets i))))
        (t2.set_graphics_root_signature root_signature)
    else t2

/-- The two statements that end `clear_unordered_access_view_uint`,
`clear_unordered_access_view_float` and `generate_mipmaps`: the descriptor heaps that
are cached as bound are set again. -/
def translator.reset_descriptor_heaps (t : translator) (view_heap : Nat) : translator :=
  if t._current_descriptor_heaps.1 ≠ view_heap ∧ t._current_descriptor_heaps.2 ≠ view_heap ∧
      t._current_descriptor_heaps.1 ≠ 0 then
    t.call (native_call.SetDescriptorHeaps (if t._current_descriptor_heaps.2 ≠ 0 then 2 else 1)
      ([t._current_descriptor_heaps.1, t._current_descriptor_heaps.2].take
        (if t._current_descriptor_heaps.2 ≠ 0 then 2 else 1)))
  else t

/-- The statement `if (... != view_heap && ... != view_heap) SetDescriptorHeaps(1,
&view_heap)` of the same three methods. -/
def translator.set_view_heap (t : translator) (view_heap : Nat) : translator :=
  if t._current_descriptor_heaps.1 ≠ view_heap ∧ t._current_descriptor_heaps.2 ≠ view_heap then
    t.call (native_call.SetDescriptorHeaps 1 [view_heap])
  else t

/-- The method `clear_unordered_access_view_uint`; `uav` is `uav.handle` and `values`,
`rects` are the caller's pointers. -/
def clear_unordered_access_view_uint (D : device_impl) (alloc : Option (Nat × Nat))
    (t : translator) (uav values rect_count rects : Nat) : translator :=
  let t0 := ({ t with _has_commands := true }).request D._gpu_view_heap 1
  let resource := D.get_resource_from_view uav
  match alloc with
  | none => t0
  | some (table_base, table_base_gpu) =>
    let view_heap := D._gpu_view_heap
    (((t0.set_view_heap view_heap).device
        (device_call.CreateUnorderedAccessView resource none table_base)).call
        (native_call.ClearUnorderedAccessViewUint table_base_gpu uav resource values rect_count
          rects)).reset_descriptor_heaps view_heap

/-- The method `clear_unordered_access_view_float`. -/
def clear_unordered_access_view_float (D : device_impl) (alloc : Option (Nat × Nat))
    (t : translator) (uav values rect_count rects : Nat) : translator :=
  let t0 := ({ t with _has_commands := true }).request D._gpu_view_heap 1
  let resource := D.get_resource_from_view uav
  match alloc with
  | none => t0
  | some (table_base, table_base_gpu) =>
    let view_heap := D._gpu_view_heap
    (((t0.set_view_heap view_heap).device
        (device_call.CreateUnorderedAccessView resource none table_base)).call
        (native_call.ClearUnorderedAccessViewFloat table_base_gpu uav resource values rect_count
          rects)).reset_descriptor_heaps view_heap

/-- The width or height of mip level `level` as `generate_mipmaps` computes it:
`std::max(1u, static_cast<uint32_t>(extent) >> level)`. -/
def mip_extent (extent level : Nat) : Nat :=
  max 1 ((extent % 2 ^ 32) >>> level)

/-- The thread group count `std::max(1u, (extent + 7) / 8)` of `generate_mipmaps`, in
32-bit unsigned arithmetic. -/
def mip_thread_groups (extent : Nat) : Nat :=
  max 1 ((extent + 7) % 2 ^ 32 / 8)

/-- The format `convert_format(api::format_to_default_typed(convert_format(desc.Format)))`
of the views that `generate_mipmaps` creates. -/
def mip_view_format (D : device_impl) (desc : D3D12_RESOURCE_DESC) : Nat :=
  D.convert_format (D.format_to_default_typed (D.convert_format desc.Format))

/-- One iteration of the first loop of `generate_mipmaps`: a shader resource view of
mip level `level` is created at the running `base_handle`. -/
def generate_mipmaps_srv_iteration (D : device_impl) (resource : Nat) (desc : D3D12_RESOURCE_DESC)
    (acc : translator × Nat) (level : Nat) : translator × Nat :=
  (acc.1.device (device_call.CreateShaderResourceView resource (mip_view_format D desc) level acc.2),
    D.offset_descriptor_handle acc.2 1 D3D12_DESCRIPTOR_HEAP_TYPE_CBV_SRV_UAV)

/-- One iteration of the second loop of `generate_mipmaps`: an unordered access view of
mip level `level` is created at the running `base_handle`. -/
def generate_mipmaps_uav_iteration (D : device_impl) (resource : Nat) (desc : D3D12_RESOURCE_DESC)
    (acc : translator × Nat) (level : Nat) : translator × Nat :=
  (acc.1.device (device_call.CreateUnorderedAccessView resource
      (some (mip_view_format D desc, level)) acc.2),
    D.offset_descriptor_handle acc.2 1 D3D12_DESCRIPTOR_HEAP_TYPE_CBV_SRV_UAV)

/-- The local `transition` of `generate_mipmaps` as first submitted. -/
def mip_transition (resource : Nat) : D3D12_RESOURCE_BARRIER :=
  { Type_ := some D3D12_RESOURCE_BARRIER_TYPE.TRANSITION
    Flags := some 0
    u := barrier_union.Transition resource D3D12_RESOURCE_BARRIER_ALL_SUBRESOURCES
      (D3D12_RESOURCE_STATE_NON_PIXEL_SHADER_RESOURCE ||| D3D12_RESOURCE_STATE_PIXEL_SHADER_RESOURCE)
      D3D12_RESOURCE_STATE_UNORDERED_ACCESS }

/-- The statement `std::swap(transition.Transition.StateBefore,
transition.Transition.StateAfter)`. -/
def swap_transition_states (b : D3D12_RESOURCE_BARRIER) : D3D12_RESOURCE_BARRIER :=
  match b.u with
  | barrier_union.Transition r s before after =>
    { b with u := barrier_union.Transition r s after before }
  | _ => b

/-- The local `barrier` of the dispatch loop of `generate_mipmaps`. -/
def mip_uav_barrier (resource : Nat) : D3D12_RESOURCE_BARRIER :=
  { Type_ := some D3D12_RESOURCE_BARRIER_TYPE.UAV
    Flags := some 0
    u := barrier_union.UAV resource }

/-- One iteration of the dispatch loop of `generate_mipmaps`, for destination level
`level` of a resource with `desc.MipLevels` levels. -/
def generate_mipmaps_dispatch_iteration (D : device_impl) (resource : Nat)
    (desc : D3D12_RESOURCE_DESC) (base_handle_gpu : Nat) (t : translator) (level : Nat) :
    translator :=
  let width := mip_extent desc.Width level
  let height := mip_extent desc.Height level
  ((((t.call (native_call.SetComputeRoot32BitConstants 0 2
        (root_constants.inverse_dimensions width height) 0)).call
      (native_call.SetComputeRootDescriptorTable 1
        (D.offset_descriptor_handle base_handle_gpu ((level - 1) % 2 ^ 32)
          D3D12_DESCRIPTOR_HEAP_TYPE_CBV_SRV_UAV))).call
      (native_call.SetComputeRootDescriptorTable 2
        (D.offset_descriptor_handle base_handle_gpu ((desc.MipLevels + level - 1) % 2 ^ 32)
          D3D12_DESCRIPTOR_HEAP_TYPE_CBV_SRV_UAV))).call
      (native_call.Dispatch (mip_thread_groups width) (mip_thread_groups height) 1)).call
    (native_call.ResourceBarrier 1 [mip_uav_barrier resource])

/-- The method `generate_mipmaps`; `srv` is `srv.handle`, and `alloc` is the answer of
its `allocate_transient` call. -/
def generate_mipmaps (D : device_impl) (alloc : Option (Nat × Nat)) (t : translator)
    (srv : Nat) : translator :=
  if D._mipmap_pipeline = 0 then t
  else
    let resource := D.get_resource_from_view srv
    let desc := D.resource_GetDesc resource
    let t0 := ({ t with _has_commands := true }).request D._gpu_view_heap
      ((desc.MipLevels * 2) % 2 ^ 32)
    match alloc with
    | none => t0
    | some (base_handle, base_handle_gpu) =>
      let a1 := (List.range desc.MipLevels).foldl
        (generate_mipmaps_srv_iteration D resource desc) (t0, base_handle)
      let a2 := (List.range' 1 (desc.MipLevels - 1)).foldl
        (generate_mipmaps_uav_iteration D resource desc) a1
      let view_heap := D._gpu_view_heap
      let t1 := ((((a2.1.set_view_heap view_heap).call
        (native_call.SetComputeRootSignature D._mipmap_signature)).call
        (native_call.SetPipelineState D._mipmap_pipeline)).call
        (native_call.ResourceBarrier 1 [mip_transition resource]))
      let t2 := (List.range' 1 (desc.MipLevels - 1)).foldl
        (generate_mipmaps_dispatch_iteration D resource desc base_handle_gpu) t1
      ((t2.call (native_call.ResourceBarrier 1 [swap_transition_states (mip_transition resource)])
        ).reset_descriptor_heaps view_heap)

/-! ### `begin_render_pass` (lines 93-161) -/

/-- The fields of `api::render_pass_render_target_desc`; `view` is `view.handle`. -/
structure render_pass_render_target_desc where
  view : Nat
  load_op : Nat
  store_op : Nat
  clear_color : Nat × Nat × Nat × Nat

/-- The fields of `api::render_pass_depth_stencil_desc`; `view` is `view.handle`. -/
structure render_pass_depth_stencil_desc where
  view : Nat
  depth_load_op : Nat
  depth_store_op : Nat
  stencil_load_op : Nat
  stencil_store_op : Nat
  clear_depth : Nat
  clear_stencil : Nat

/-- An element of fresh `temp_mem<D3D12_RENDER_PASS_RENDER_TARGET_DESC>` storage. -/
def D3D12_RENDER_PASS_RENDER_TARGET_DESC.indeterminate : D3D12_RENDER_PASS_RENDER_TARGET_DESC :=
  ⟨none, none, none, none⟩

/-- One iteration of the loop of the render-pass branch of `begin_render_pass`. -/
def begin_render_pass_desc_iteration (E : api_values) (D : device_impl)
    (rts : Nat → render_pass_render_target_desc)
    (rt_desc : temp_mem D3D12_RENDER_PASS_RENDER_TARGET_DESC) (i : Nat) :
    temp_mem D3D12_RENDER_PASS_RENDER_TARGET_DESC :=
  rt_desc.assign i
    { cpuDescriptor := some (rts i).view
      BeginningAccess_Type := some (D.convert_render_pass_load_op (rts i).load_op)
      EndingAccess_Type := some (D.convert_render_pass_store_op (rts i).store_op)
      BeginningAccess_Clear :=
        if (rts i).load_op = E.render_pass_load_op_clear then
          some (D.convert_format (D.get_resource_view_desc_format (rts i).view),
            (rts i).clear_color)
        else (rt_desc.p.get? i).bind fun d => d.BeginningAccess_Clear }

/-- The local `depth_stencil_desc` of the render-pass branch after the block that
fills it from `ds`. -/
def begin_render_pass_depth_stencil_desc (E : api_values) (D : device_impl)
    (ds : render_pass_depth_stencil_desc) : D3D12_RENDER_PASS_DEPTH_STENCIL_DESC :=
  { cpuDescriptor := some ds.view
    DepthBeginningAccess_Type := some (D.convert_render_pass_load_op ds.depth_load_op)
    StencilBeginningAccess_Type := some (D.convert_render_pass_load_op ds.stencil_load_op)
    DepthEndingAccess_Type := some (D.convert_render_pass_store_op ds.depth_store_op)
    StencilEndingAccess_Type := some (D.convert_render_pass_store_op ds.stencil_store_op)
    DepthBeginningAccess_Clear :=
      if ds.depth_load_op = E.render_pass_load_op_clear then
        some (D.convert_format (D.get_resource_view_desc_format ds.view), ds.clear_depth)
      else none
    StencilBeginningAccess_Clear :=
      if ds.stencil_load_op = E.render_pass_load_op_clear then
        some (D.convert_format (D.get_resource_view_desc_format ds.view), ds.clear_stencil)
      else none }

/-- The condition `ds != nullptr && ds->view.handle != 0`, with the value of `*ds`. -/
def depth_stencil_given (ds : Option render_pass_depth_stencil_desc) :
    Option render_pass_depth_stencil_desc :=
  match ds with
  | some d => if d.view ≠ 0 then some d else none
  | none => none

/-- One iteration of the loop of the fallback branch of `begin_render_pass`: the
state is the translator and `rtv_handles`. -/
def begin_render_pass_fallback_iteration (E : api_values)
    (rts : Nat → render_pass_render_target_desc)
    (acc : translator × temp_mem (Option Nat)) (i : Nat) : translator × temp_mem (Option Nat) :=
  let rtv_handles := acc.2.assign i (some (rts i).view)
  if (rts i).load_op = E.render_pass_load_op_clear then
    (acc.1.call (native_call.ClearRenderTargetView (rts i).view (rts i).clear_color 0 0),
      rtv_handles)
  else (acc.1, rtv_handles)

/-- The value `clear_flags` of the fallback branch. -/
def begin_render_pass_clear_flags (E : api_values) (ds : render_pass_depth_stencil_desc) : Nat :=
  (if ds.depth_load_op = E.render_pass_load_op_clear then D3D12_CLEAR_FLAG_DEPTH else 0) |||
  (if ds.stencil_load_op = E.render_pass_load_op_clear then D3D12_CLEAR_FLAG_STENCIL else 0)

/-- The method `begin_render_pass`. `has_cmd_list4` tells whether the query for
`ID3D12GraphicsCommandList4` succeeds; `ds` is `none` for `nullptr`. -/
def begin_render_pass (E : api_values) (D : device_impl) (has_cmd_list4 : Bool) (t : translator)
    (count : Nat) (rts : Nat → render_pass_render_target_desc)
    (ds : Option render_pass_depth_stencil_desc) : translator :=
  let t0 := { t with _has_commands := true }
  if has_cmd_list4 then
    let rt_desc := (List.range count).foldl (begin_render_pass_desc_iteration E D rts)
      (temp_mem.create 8 D3D12_RENDER_PASS_RENDER_TARGET_DESC.indeterminate count)
    t0.call (native_call.BeginRenderPass count (rt_desc.p.take count)
      ((depth_stencil_given ds).map (begin_render_pass_depth_stencil_desc E D))
      D3D12_RENDER_PASS_FLAG_NONE)
  else
    let a := (List.range count).foldl (begin_render_pass_fallback_iteration E rts)
      (t0, temp_mem.create 8 none count)
    let t1 :=
      match depth_stencil_given ds with
      | some d =>
        if begin_render_pass_clear_flags E d ≠ 0 then
          a.1.call (native_call.ClearDepthStencilView d.view (begin_render_pass_clear_flags E d)
            d.clear_depth d.clear_stencil 0 0)
        else a.1
      | none => a.1
    t1.call (native_call.OMSetRenderTargets count (a.2.p.take count) false
      ((depth_stencil_given ds).map fun d => d.view))

/-! ## `command_queue_impl` (d3d12_impl_command_queue.cpp, lines 88-110 and 142-154) -/

/-- The method `api_object_impl::get_native` (addon.hpp, line 250), on the member
`_orig` of the object. -/
def get_native (_orig : Nat) : Nat := _orig

/-- What a queue does that can be observed: flushing its immediate command list, and
calls on the native queue, the fence and the event. `Signal` and
`SetEventOnCompletion` carry whether the call succeeded. -/
inductive queue_event where
  | flush (_immediate_cmd_list : Nat)
  | Signal (pFence Value : Nat) (succeeded : Bool)
  | SetEventOnCompletion (Value hEvent : Nat) (succeeded : Bool)
  | WaitForSingleObject (hHandle : Nat)
  | ExecuteCommandLists (NumCommandLists : Nat) (ppCommandLists : List (Option Nat))
  deriving DecidableEq

/-- The members of `command_queue_impl` that `wait_idle` and `execute_command_lists`
use, and the events so far. -/
structure command_queue_impl where
  _immediate_cmd_list : Nat
  _wait_idle_fence_event : Nat
  _wait_idle_fence_value : Nat
  _wait_idle_fence : Nat
  events : List queue_event
  deriving DecidableEq

/-- The constructor, as far as these members go: the counter starts at 0. -/
def command_queue_impl.construct (_immediate_cmd_list _wait_idle_fence_event
    _wait_idle_fence : Nat) : command_queue_impl :=
  ⟨_immediate_cmd_list, _wait_idle_fence_event, 0, _wait_idle_fence, []⟩

/-- Appends one event. -/
def command_queue_impl.record (q : command_queue_impl) (e : queue_event) : command_queue_impl :=
  { q with events := q.events ++ [e] }

/-- The method `flush_immediate_command_list`. -/
def flush_immediate_command_list (q : command_queue_impl) : command_queue_impl :=
  if q._immediate_cmd_list ≠ 0 then q.record (queue_event.flush q._immediate_cmd_list) else q

/-- The method `wait_idle`. `signal_succeeds` and `set_event_succeeds` tell whether
the calls `Signal` and `SetEventOnCompletion` it makes succeed. -/
def wait_idle (signal_succeeds set_event_succeeds : Bool) (q : command_queue_impl) :
    command_queue_impl :=
  let q1 := flush_immediate_command_list q
  let sync_value := (q1._wait_idle_fence_value + 1) % 2 ^ 64
  let q2 := q1.record (queue_event.Signal q1._wait_idle_fence sync_value signal_succeeds)
  if signal_succeeds then
    let q3 := { q2 with _wait_idle_fence_value := sync_value }
    let q4 := q3.record
      (queue_event.SetEventOnCompletion q3._wait_idle_fence_value q3._wait_idle_fence_event
        set_event_succeeds)
    if set_event_succeeds then
      q4.record (queue_event.WaitForSingleObject q4._wait_idle_fence_event)
    else q4
  else q2

/-- The method `execute_command_lists`; `command_lists i` is the member `_orig` of the
object `command_lists[i]` points to. -/
def execute_command_lists (q : command_queue_impl) (count : Nat) (command_lists : Nat → Nat) :
    command_queue_impl :=
  let command_lists_mem := (List.range count).foldl
    (fun (m : temp_mem (Option Nat)) i => m.assign i (some (get_native (command_lists 0))))
    (temp_mem.create 16 none count)
  q.record (queue_event.ExecuteCommandLists count (command_lists_mem.p.take count))

/-- The method `barrier` on the state of the binding commands. -/
def translator.barrier (E : resource_usage_values) (convert_resource_usage_to_states : Nat → Nat)
    (t : translator) (count : Nat) (resources old_states new_states : Nat → Nat) : translator :=
  let r := reshade.barrier E convert_resource_usage_to_states
    (command_list_impl.mk t._has_commands t.orig_calls) count resources old_states new_states
  { t with _has_commands := r._has_commands, orig_calls := r.orig_calls }

/-- A command given to the translator, with its arguments; a command that asks for
a transient descriptor range also carries the answer to that request, and
`begin_render_pass` the answer to its query for `ID3D12GraphicsCommandList4`. -/
inductive translator_op where
  | barrier (count : Nat) (resources old_states new_states : Nat → Nat)
  | push_constants (stages layout layout_param first count values : Nat)
  | push_descriptors (alloc : Option (Nat × Nat)) (stages layout layout_param : Nat)
      (update : descriptor_set_update)
  | bind_descriptor_sets (stages layout first count : Nat) (sets : Nat → Nat)
  | clear_unordered_access_view_uint (alloc : Option (Nat × Nat))
      (uav values rect_count rects : Nat)
  | clear_unordered_access_view_float (alloc : Option (Nat × Nat))
      (uav values rect_count rects : Nat)
  | generate_mipmaps (alloc : Option (Nat × Nat)) (srv : Nat)
  | begin_render_pass (has_cmd_list4 : Bool) (count : Nat)
      (rts : Nat → render_pass_render_target_desc) (ds : Option render_pass_depth_stencil_desc)

/-- The constants and the device that a run of commands refers to. -/
structure translator_env where
  usage : resource_usage_values
  convert_resource_usage_to_states : Nat → Nat
  api : api_values
  device : device_impl

/-- Executes one command. -/
def translator.step (V : translator_env) (t : translator) : translator_op → translator
  | translator_op.barrier count resources old_states new_states =>
    t.barrier V.usage V.convert_resource_usage_to_states count resources old_states new_states
  | translator_op.push_constants stages layout layout_param first count values =>
    push_constants V.api t stages layout layout_param first count values
  | translator_op.push_descriptors alloc stages layout layout_param update =>
    push_descriptors V.api V.device alloc t stages layout layout_param update
  | translator_op.bind_descriptor_sets stages layout first count sets =>
    bind_descriptor_sets V.api V.device t stages layout first count sets
  | translator_op.clear_unordered_access_view_uint alloc uav values rect_count rects =>
    clear_unordered_access_view_uint V.device alloc t uav values rect_count rects
  | translator_op.clear_unordered_access_view_float alloc uav values rect_count rects =>
    clear_unordered_access_view_float V.device alloc t uav values rect_count rects
  | translator_op.generate_mipmaps alloc srv =>
    generate_mipmaps V.device alloc t srv
  | translator_op.begin_render_pass has_cmd_list4 count rts ds =>
    begin_render_pass V.api V.device has_cmd_list4 t count rts ds

/-- Executes a series of commands, first command first. -/
def translator.run (V : translator_env) (t : translator) (ops : List translator_op) : translator :=
  ops.foldl (translator.step V) t

/-- A series of `wait_idle` calls; each element tells whether `Signal` and
`SetEventOnCompletion` succeed in that call. -/
def wait_idle_calls (q : command_queue_impl) (outcomes : List (Bool × Bool)) :
    command_queue_impl :=
  outcomes.foldl (fun q o => wait_idle o.1 o.2 q) q

end reshade

namespace reshade

/-! ## Further commands of `command_list_impl`
(d3d12_impl_command_list.cpp, lines 207-234, 473-488, 622-656 and 825-841) -/

/-- The enumerators of `api::dynamic_state` that `bind_pipeline_states` switches on.
They are declared in a header that is not part of the sources at hand, so their
values are parameters. -/
structure dynamic_state_values where
  blend_constant : Nat
  stencil_reference_value : Nat
  primitive_topology : Nat

/-- One iteration of the loop of `bind_pipeline_states`, for index `i`; `states i` is
`states[i]` and `values i` is the 32-bit `values[i]`. The four floats of
`blend_factor` are `k / 255.0f` and are recorded as the integers `k`. An enumerator
that no `case` names reaches `default`, which holds only `assert(false)`. -/
def bind_pipeline_states_iteration (S : dynamic_state_values)
    (convert_primitive_topology : Nat → Nat) (states values : Nat → Nat) (t : translator)
    (i : Nat) : translator :=
  if states i = S.blend_constant then
    t.call (native_call.OMSetBlendFactor
      ((values i % 2 ^ 32) &&& 0xFF,
        ((values i % 2 ^ 32) >>> 4) &&& 0xFF,
        ((values i % 2 ^ 32) >>> 8) &&& 0xFF,
        ((values i % 2 ^ 32) >>> 12) &&& 0xFF))
  else if states i = S.stencil_reference_value then
    t.call (native_call.OMSetStencilRef (values i % 2 ^ 32))
  else if states i = S.primitive_topology then
    t.call (native_call.IASetPrimitiveTopology (convert_primitive_topology (values i % 2 ^ 32)))
  else t

/-- The method `bind_pipeline_states`. -/
def bind_pipeline_states (S : dynamic_state_values) (convert_primitive_topology : Nat → Nat)
    (t : translator) (count : Nat) (states values : Nat → Nat) : translator :=
  (List.range count).foldl
    (bind_pipeline_states_iteration S convert_primitive_topology states values) t

def D3D12_SO_BUFFER_SLOT_COUNT : Nat := 4

/-- An element of fresh `temp_mem<D3D12_STREAM_OUTPUT_BUFFER_VIEW>` storage. -/
def D3D12_STREAM_OUTPUT_BUFFER_VIEW.indeterminate : D3D12_STREAM_OUTPUT_BUFFER_VIEW :=
  ⟨none, none, none⟩

/-- One iteration of the loop of `bind_stream_output_buffers`, for index `i`.
`buffers i` is `buffers[i].handle`, `offsets i` is `offsets[i]`, and `max_sizes` is
`none` for `nullptr`. The field `SizeInBytes` is a 64-bit `UINT64`. -/
def bind_stream_output_buffers_iteration (D : device_impl) (buffers offsets : Nat → Nat)
    (max_sizes : Option (Nat → Nat)) (views : temp_mem D3D12_STREAM_OUTPUT_BUFFER_VIEW)
    (i : Nat) : temp_mem D3D12_STREAM_OUTPUT_BUFFER_VIEW :=
  let buffer_resource := buffers i
  views.assign i
    { BufferLocation := some ((D.GetGPUVirtualAddress buffer_resource + offsets i) % 2 ^ 64)
      SizeInBytes := some
        (match max_sizes with
          | some max_sizes => if max_sizes i ≠ UINT64_MAX then max_sizes 0 else 0
          | none => 0)
      BufferFilledSizeLocation := some 0 }

/-- The method `bind_stream_output_buffers`. -/
def bind_stream_output_buffers (D : device_impl) (t : translator) (first count : Nat)
    (buffers offsets : Nat → Nat) (max_sizes : Option (Nat → Nat)) : translator :=
  let views := (List.range count).foldl
    (bind_stream_output_buffers_iteration D buffers offsets max_sizes)
    (temp_mem.create D3D12_SO_BUFFER_SLOT_COUNT D3D12_STREAM_OUTPUT_BUFFER_VIEW.indeterminate
      count)
  t.call (native_call.SOSetTargets first count (views.p.take count))

/-- The fields of `api::subresource_box`. -/
structure subresource_box where
  left : Int
  top : Int
  front : Int
  right : Int
  bottom : Int
  back : Int

def D3D12_RESOLVE_MODE_MIN : Nat := 1

/-- The method `resolve_texture_region`. `has_cmd_list1` tells whether the query for
`ID3D12GraphicsCommandList1` succeeds, `src_box` is `none` for `nullptr`, `src` and
`dst` are the handles, and `dst_x`, `dst_y` are the `int32_t` arguments, which the
native call takes as `UINT`. -/
def resolve_texture_region (D : device_impl) (has_cmd_list1 : Bool) (t : translator)
    (src src_subresource : Nat) (src_box : Option subresource_box)
    (dst dst_subresource : Nat) (dst_x dst_y _dst_z : Int) (format : Nat) : translator :=
  let t0 := { t with _has_commands := true }
  if has_cmd_list1 then
    let src_rect : Option D3D12_RECT :=
      match src_box with
      | some box =>
        some { left := box.left, top := box.top, right := box.right, bottom := box.back }
      | none => none
    t0.call (native_call.ResolveSubresourceRegion dst dst_subresource
      (dst_x % 2 ^ 32).toNat (dst_y % 2 ^ 32).toNat src src_subresource src_rect
      (D.convert_format format) D3D12_RESOLVE_MODE_MIN)
  else
    t0.call (native_call.ResolveSubresource dst dst_subresource src src_subresource
      (D.convert_format format))

/-- The method `end_query`. `pool` is `pool.handle`, `index` is the `uint32_t`
argument, and `GetPrivateData pool` is the resource that the call
`heap_object->GetPrivateData(extra_data_guid, ...)` stores in `readback_resource`, or
`none` when that call fails. The offset `index * sizeof(uint64_t)` is computed in the
64-bit `size_t`. -/
def end_query (convert_query_type : Nat → Nat) (GetPrivateData : Nat → Option Nat)
    (t : translator) (pool type index : Nat) : translator :=
  let t0 := { t with _has_commands := true }
  let heap_object := pool
  let d3d_query_type := convert_query_type type
  let t1 := t0.call (native_call.EndQuery heap_object d3d_query_type index)
  match GetPrivateData heap_object with
  | some readback_resource =>
    t1.call (native_call.ResolveQueryData pool (convert_query_type type) index 1
      readback_resource ((index * 8) % 2 ^ 64))
  | none => t1

end reshade

namespace reshade

/-! ## D3D11 view and sampler wrappers (d3d11_device.hpp, lines 15-323)

The five wrapper classes `D3D11ShaderResourceView`, `D3D11UnorderedAccessView`,
`D3D11RenderTargetView`, `D3D11DepthStencilView` and `D3D11SamplerState` have the
same `QueryInterface` and `AddRef`; they differ in `check_and_upgrade_interface`.
Interface identifiers are 128-bit numbers. -/

/-- The identifiers `__uuidof(...)` of the interfaces of the native API. They are
declared in headers that are not part of the sources at hand, so their values are
parameters. -/
structure d3d11_iids where
  IUnknown : Nat
  ID3D11DeviceChild : Nat
  ID3D11View : Nat
  ID3D11ShaderResourceView : Nat
  ID3D11ShaderResourceView1 : Nat
  ID3D11UnorderedAccessView : Nat
  ID3D11UnorderedAccessView1 : Nat
  ID3D11RenderTargetView : Nat
  ID3D11RenderTargetView1 : Nat
  ID3D11DepthStencilView : Nat
  ID3D11SamplerState : Nat

/-- The wrapper classes. -/
inductive d3d11_wrapper_class where
  | D3D11ShaderResourceView
  | D3D11UnorderedAccessView
  | D3D11RenderTargetView
  | D3D11DepthStencilView
  | D3D11SamplerState
  deriving DecidableEq

/-- The identifier `__uuidof(this)` of each wrapper class, from its `DECLSPEC_UUID`. -/
def d3d11_wrapper_class.uuidof : d3d11_wrapper_class → Nat
  | D3D11ShaderResourceView => 0x3FF202D4AC634AF09D740F69ADC521FA
  | D3D11UnorderedAccessView => 0xED73DC398A004264B6B5E6DAABBE79B5
  | D3D11RenderTargetView => 0x32ED0AD554624AC6BA634B7641FE1B3E
  | D3D11DepthStencilView => 0xE12919C254FA4FB999386DC0F3257008
  | D3D11SamplerState => 0xFC08B47CA36C408AA5E7A707527E0FF1

/-- The method `check_and_upgrade_interface` of each wrapper class. It writes no
member. -/
def check_and_upgrade_interface (I : d3d11_iids) : d3d11_wrapper_class → Nat → Bool
  | d3d11_wrapper_class.D3D11ShaderResourceView, riid =>
    riid = d3d11_wrapper_class.D3D11ShaderResourceView.uuidof ||
    riid = I.IUnknown ||
    riid = I.ID3D11DeviceChild ||
    riid = I.ID3D11View ||
    riid = I.ID3D11ShaderResourceView
  | d3d11_wrapper_class.D3D11UnorderedAccessView, riid =>
    riid = d3d11_wrapper_class.D3D11UnorderedAccessView.uuidof ||
    riid = I.IUnknown ||
    riid = I.ID3D11DeviceChild ||
    riid = I.ID3D11View ||
    riid = I.ID3D11UnorderedAccessView
  | d3d11_wrapper_class.D3D11RenderTargetView, riid =>
    riid = d3d11_wrapper_class.D3D11RenderTargetView.uuidof ||
    riid = I.IUnknown ||
    riid = I.ID3D11DeviceChild ||
    riid = I.ID3D11View ||
    riid = I.ID3D11RenderTargetView
  | d3d11_wrapper_class.D3D11DepthStencilView, riid =>
    riid = d3d11_wrapper_class.D3D11DepthStencilView.uuidof ||
    riid = I.IUnknown ||
    riid = I.ID3D11DeviceChild ||
    riid = I.ID3D11View ||
    riid = I.ID3D11DepthStencilView
  | d3d11_wrapper_class.D3D11SamplerState, riid =>
    riid = d3d11_wrapper_class.D3D11SamplerState.uuidof ||
    riid = I.IUnknown ||
    riid = I.ID3D11DeviceChild ||
    riid = I.ID3D11SamplerState

/-- What a wrapper does that can be observed from outside, in order: calls on the
wrapped native object `_orig`, and the increment of its own count. -/
inductive wrapper_event where
  | orig_AddRef
  | InterlockedIncrement_ref
  | orig_QueryInterface (riid : Nat)
  deriving DecidableEq

/-- A wrapper object: its class, its address `this`, the members `_orig`, `_ref` and
`_interface_version`, and what it has done so far. -/
structure d3d11_wrapper where
  cls : d3d11_wrapper_class
  this : Nat
  _orig : Nat
  _ref : Nat
  _interface_version : Nat
  events : List wrapper_event
  deriving DecidableEq

def S_OK : Nat := 0

def E_POINTER : Nat := 0x80004003

/-- The method `AddRef`: the wrapper afterwards and the returned value. `_ref` is a
32-bit `ULONG`. -/
def AddRef (w : d3d11_wrapper) : d3d11_wrapper × Nat :=
  let w1 := { w with events := w.events ++ [wrapper_event.orig_AddRef] }
  let w2 := { w1 with
    _ref := (w1._ref + 1) % 2 ^ 32
    events := w1.events ++ [wrapper_event.InterlockedIncrement_ref] }
  (w2, w2._ref)

/-- The method `QueryInterface`. `ppvObj` is the pointer argument (`0` for `nullptr`),
and `native_QueryInterface riid` is the answer of `_orig->QueryInterface(riid, ppvObj)`:
its result and what it stores in `*ppvObj`. The outcome is the wrapper afterwards, the
returned `HRESULT`, and the pointer stored in `*ppvObj` (`none` when nothing is
stored). -/
def QueryInterface (I : d3d11_iids) (native_QueryInterface : Nat → Nat × Option Nat)
    (w : d3d11_wrapper) (riid ppvObj : Nat) : d3d11_wrapper × Nat × Option Nat :=
  if ppvObj = 0 then
    (w, E_POINTER, none)
  else if check_and_upgrade_interface I w.cls riid then
    ((AddRef w).1, S_OK, some w.this)
  else
    ({ w with events := w.events ++ [wrapper_event.orig_QueryInterface riid] },
      native_QueryInterface riid)

end reshade

namespace reshade

/-! ## `encode_pix3blob` and the debug events
(d3d12_impl_command_list.cpp, lines 11-20 and 852-877)

The array `UINT64 pix3blob[64]` is a local of the caller and starts indeterminate.
Memory is addressed in bytes from the start of the array; a byte that has not been
written is `none`. Words are stored little-endian. -/

/-- The assignment `pix3blob[index] = value` of a 64-bit word. -/
def store_UINT64 (memory : Nat → Option Nat) (index value : Nat) : Nat → Option Nat :=
  fun a =>
    if 8 * index ≤ a ∧ a < 8 * index + 8 then some (value / 256 ^ (a - 8 * index) % 256)
    else memory a

/-- The value of the word `pix3blob[index]`, `none` when one of its bytes is
indeterminate. -/
def load_UINT64 (memory : Nat → Option Nat) (index : Nat) : Option Nat :=
  (List.range 8).foldr
    (fun i acc =>
      match memory (8 * index + i), acc with
      | some b, some v => some (b + 256 * v)
      | _, _ => none)
    (some 0)

/-- The bytes that `strncpy(dest, src, count)` writes to `dest`: the characters of
`src` up to `count` of them, and once the terminating zero has been reached, zeros up
to `count` bytes in all. `src` is given as the bytes at the pointer; the end of the
list stands for the terminating zero. -/
def strncpy_bytes : List Nat → Nat → List Nat
  | _, 0 => []
  | [], count + 1 => 0 :: strncpy_bytes [] count
  | c :: src, count + 1 =>
    if c = 0 then 0 :: strncpy_bytes [] count else c :: strncpy_bytes src count

/-- The call `std::strncpy(dest, src, count)`, with `dest` as a byte offset. -/
def strncpy (memory : Nat → Option Nat) (dest : Nat) (src : List Nat) (count : Nat) :
    Nat → Option Nat :=
  fun a =>
    if dest ≤ a ∧ a < dest + count then (strncpy_bytes src count)[a - dest]?
    else memory a

/-- The function `encode_pix3blob`. `color` is `none` for `nullptr`, and otherwise the
three values `static_cast<DWORD>(color[k] * 255)` for `k = 0, 1, 2`. -/
def encode_pix3blob (pix3blob : Nat → Option Nat) (label : List Nat)
    (color : Option (Nat × Nat × Nat)) : Nat → Option Nat :=
  let m0 := store_UINT64 pix3blob 0 ((0x2 <<< 10) % 2 ^ 64)
  let m1 := store_UINT64 m0 1 0xFF000000
  let m2 :=
    match color with
    | some (c0, c1, c2) =>
      store_UINT64 m1 1 ((load_UINT64 m1 1).getD 0 |||
        ((((c0 % 2 ^ 32 &&& 0xFF) <<< 16) % 2 ^ 32) ||| (((c1 % 2 ^ 32 &&& 0xFF) <<< 8) % 2 ^ 32) |||
          (c2 % 2 ^ 32 &&& 0xFF)))
    | none => m1
  let m3 := store_UINT64 m2 2 (((8 <<< 55) ||| (1 <<< 54)) % 2 ^ 64)
  let m4 := strncpy m3 (3 * 8) label (64 * 8 - 4 * 8)
  store_UINT64 m4 63 0

/-- The method `begin_debug_event`: the blob is encoded in a fresh local array and its
512 bytes are handed to `BeginEvent`. -/
def begin_debug_event (t : translator) (label : List Nat) (color : Option (Nat × Nat × Nat)) :
    translator :=
  let pix3blob := encode_pix3blob (fun _ => none) label color
  t.call (native_call.BeginEvent 2 ((List.range (64 * 8)).map pix3blob) (64 * 8))

end reshade

namespace reshade

/-! ## `allocate` and `free` called from several threads (addon.hpp, lines 71-99 and 167-189)

The `next` fields are `std::atomic`, accessed with the default sequentially consistent
ordering, so a run of several threads is an interleaving of their single loads, stores
and compare-exchanges. Each thread is followed through `push_atomic` and `pop_atomic`
one such access at a time. A `compare_exchange_weak` is taken to fail only when the
compared values differ. -/

/-- Where a thread stands inside `push_atomic(head, element)` or `pop_atomic(head)`,
with the values of its locals `next` and `desired`. -/
inductive atomic_pc where
  /-- Before `node *next = head->next.load()`. -/
  | load_head
  /-- In `pop_atomic`, before `if (next == nullptr)` and `desired = next->next.load()`. -/
  | pop_test (next : Nat)
  /-- In `pop_atomic`, before `head->next.compare_exchange_weak(next, desired)`. -/
  | pop_cas (next desired : Nat)
  /-- In `push_atomic`, before `element->next.store(next)`. -/
  | push_store (next : Nat)
  /-- In `push_atomic`, before `head->next.compare_exchange_weak(next, element)`. -/
  | push_cas (next : Nat)
  deriving DecidableEq

/-- One access of `push_atomic(head, element)`: the memory afterwards, and the next
position, or `none` when the function has returned. -/
def push_atomic_step (memory : Nat → Nat) (head element : Nat) :
    atomic_pc → (Nat → Nat) × Option atomic_pc
  | atomic_pc.load_head => (memory, some (atomic_pc.push_store (memory head)))
  | atomic_pc.push_store next =>
    (Function.update memory element next, some (atomic_pc.push_cas next))
  | atomic_pc.push_cas next =>
    if memory head = next then (Function.update memory head element, none)
    else (memory, some (atomic_pc.push_store (memory head)))
  | atomic_pc.pop_test _ => (memory, none)
  | atomic_pc.pop_cas _ _ => (memory, none)

/-- One access of `pop_atomic(head)`: the memory afterwards, and either the next
position or the returned node. -/
def pop_atomic_step (memory : Nat → Nat) (head : Nat) :
    atomic_pc → (Nat → Nat) × (atomic_pc ⊕ Nat)
  | atomic_pc.load_head => (memory, Sum.inl (atomic_pc.pop_test (memory head)))
  | atomic_pc.pop_test next =>
    if next = 0 then (memory, Sum.inr 0)
    else (memory, Sum.inl (atomic_pc.pop_cas next (memory next)))
  | atomic_pc.pop_cas next desired =>
    if memory head = next then (Function.update memory head desired, Sum.inr next)
    else (memory, Sum.inl (atomic_pc.pop_test (memory head)))
  | atomic_pc.push_store _ => (memory, Sum.inr 0)
  | atomic_pc.push_cas _ => (memory, Sum.inr 0)

/-- Where a thread stands inside a call of `allocate` or `free`. -/
inductive call_pc where
  /-- No call in progress. -/
  | idle
  /-- In `allocate`, inside the first `pop_atomic(m_freelist)`. -/
  | allocate_pop (blockptr : Nat) (pc : atomic_pc)
  /-- In `allocate`, inside `push_atomic(m_blocklist, blockptr)`. -/
  | allocate_link (blockptr : Nat) (pc : atomic_pc)
  /-- In the loop of `allocate` with loop variable `i`, inside `push_atomic(m_freelist,
  sub_block)`. -/
  | allocate_fill (blockptr i : Nat) (pc : atomic_pc)
  /-- In `allocate`, inside the second `pop_atomic(m_freelist)`. -/
  | allocate_pop2 (pc : atomic_pc)
  /-- In `free(element)`, inside `push_atomic(m_freelist, element)`. -/
  | free_push (element : Nat) (pc : atomic_pc)
  deriving DecidableEq

/-- A thread: the calls it still has to make, where it stands in the current call,
what its `allocate` calls have returned (newest first), and which of these it has not
passed to `free` since. -/
structure alloc_thread where
  calls : List alloc_call
  pc : call_pc
  returned : List Nat
  live : List Nat
  deriving DecidableEq

/-- The thread after its current `allocate` has returned `element`. -/
def alloc_thread.return_allocate (th : alloc_thread) (element : Nat) : alloc_thread :=
  { th with
    pc := call_pc.idle
    returned := element :: th.returned
    live := if element = 0 then th.live else element :: th.live }

/-- The position of `allocate` that enters the loop `for (i = BlockSize - 1; i > 0; --i)`
with the value `i`, or goes on to the second `pop_atomic` when `i > 0` fails. -/
def allocate_loop_entry (blockptr i : Nat) : call_pc :=
  if i > 0 then call_pc.allocate_fill blockptr i atomic_pc.load_head
  else call_pc.allocate_pop2 atomic_pc.load_head

/-- One access by a thread: the memory and the thread afterwards. An idle thread
starts its next call and makes the first access of it; a thread without calls left
does nothing. -/
def alloc_thread.step (P : block_params) (self : block_allocator) (memory : Nat → Nat)
    (th : alloc_thread) : (Nat → Nat) × alloc_thread :=
  match th.pc with
  | call_pc.idle =>
    match th.calls with
    | [] => (memory, th)
    | alloc_call.allocate blockptr :: calls =>
      match pop_atomic_step memory self.m_freelist atomic_pc.load_head with
      | (memory1, Sum.inl pc) =>
        (memory1, { th with calls := calls, pc := call_pc.allocate_pop blockptr pc })
      | (memory1, Sum.inr element) =>
        (memory1, ({ th with calls := calls }).return_allocate element)
    | alloc_call.free element :: calls =>
      match push_atomic_step memory self.m_freelist element atomic_pc.load_head with
      | (memory1, some pc) =>
        (memory1, { th with
          calls := calls, pc := call_pc.free_push element pc, live := th.live.erase element })
      | (memory1, none) =>
        (memory1, { th with calls := calls, pc := call_pc.idle, live := th.live.erase element })
  | call_pc.allocate_pop blockptr pc =>
    match pop_atomic_step memory self.m_freelist pc with
    | (memory1, Sum.inl pc1) => (memory1, { th with pc := call_pc.allocate_pop blockptr pc1 })
    | (memory1, Sum.inr element) =>
      if element = 0 then
        (memory1, { th with pc := call_pc.allocate_link blockptr atomic_pc.load_head })
      else (memory1, th.return_allocate element)
  | call_pc.allocate_link blockptr pc =>
    match push_atomic_step memory self.m_blocklist blockptr pc with
    | (memory1, some pc1) => (memory1, { th with pc := call_pc.allocate_link blockptr pc1 })
    | (memory1, none) =>
      (memory1, { th with
        pc := allocate_loop_entry blockptr ((P.BlockSize + 2 ^ 64 - 1) % 2 ^ 64) })
  | call_pc.allocate_fill blockptr i pc =>
    match push_atomic_step memory self.m_freelist
        (blockptr + k_memory_allocation_alignment P + (sub_block_size P * i) % 2 ^ 64) pc with
    | (memory1, some pc1) => (memory1, { th with pc := call_pc.allocate_fill blockptr i pc1 })
    | (memory1, none) => (memory1, { th with pc := allocate_loop_entry blockptr (i - 1) })
  | call_pc.allocate_pop2 pc =>
    match pop_atomic_step memory self.m_freelist pc with
    | (memory1, Sum.inl pc1) => (memory1, { th with pc := call_pc.allocate_pop2 pc1 })
    | (memory1, Sum.inr element) => (memory1, th.return_allocate element)
  | call_pc.free_push element pc =>
    match push_atomic_step memory self.m_freelist element pc with
    | (memory1, some pc1) => (memory1, { th with pc := call_pc.free_push element pc1 })
    | (memory1, none) => (memory1, { th with pc := call_pc.idle })

/-- Several threads on one allocator. -/
structure alloc_threads where
  self : block_allocator
  threads : List alloc_thread

/-- The thread with index `tid` makes one access. -/
def alloc_threads.step (P : block_params) (s : alloc_threads) (tid : Nat) : alloc_threads :=
  match s.threads.get? tid with
  | none => s
  | some th =>
    let r := th.step P s.self s.self.next
    { self := { s.self with next := r.1 }, threads := s.threads.set tid r.2 }

/-- The threads make their accesses in the order that `schedule` gives, as thread
indices. -/
def alloc_threads.run (P : block_params) (s : alloc_threads) (schedule : List Nat) :
    alloc_threads :=
  schedule.foldl (alloc_threads.step P) s

end reshade

namespace reshade

/-! ## Auxiliary definitions for the statements and proofs -/

/-- The record that iteration `i` of the loop of `barrier` leaves at index `i` of
storage that was indeterminate there. -/
def barrier_written (E : resource_usage_values) (conv : Nat → Nat)
    (resources old_states new_states : Nat → Nat) (i : Nat) : D3D12_RESOURCE_BARRIER :=
  if old_states i = E.unordered_access ∧ new_states i = E.unordered_access then
    ⟨some D3D12_RESOURCE_BARRIER_TYPE.UAV, some D3D12_RESOURCE_BARRIER_FLAG_NONE,
      barrier_union.UAV (resources i)⟩
  else if old_states i = E.undefined ∧ new_states i = E.general then
    ⟨some D3D12_RESOURCE_BARRIER_TYPE.ALIASING, none, barrier_union.Aliasing 0 (resources i)⟩
  else
    ⟨some D3D12_RESOURCE_BARRIER_TYPE.TRANSITION, some D3D12_RESOURCE_BARRIER_FLAG_NONE,
      barrier_union.Transition (resources i) D3D12_RESOURCE_BARRIER_ALL_SUBRESOURCES
        (conv (old_states i)) (conv (new_states i))⟩

/-- The well-formedness of the vector: no element holds 0, every stored key is the
image of sixteen bytes, and no two elements store the same key. -/
def private_data_inv (v : List private_data) : Prop :=
  (∀ e ∈ v, e.data ≠ 0 ∧ ∃ g : guid16, e.guid0 = guid_word0 g ∧ e.guid1 = guid_word1 g) ∧
  v.Pairwise (fun a b => ¬ (a.guid0 = b.guid0 ∧ a.guid1 = b.guid1))

/-- The value given by the most recent call of the series whose key is `k`, and 0
when no call has that key. -/
def last_set_value (calls : List (guid16 × Nat)) (k : guid16) : Nat :=
  match calls.reverse.find? (fun c => decide (c.1 = k)) with
  | some c => c.2
  | none => 0

/-- Following the `next` fields from the node `head` visits exactly the nodes `xs`,
in this order, and then reaches `nullptr`. -/
def is_list (memory : Nat → Nat) : Nat → List Nat → Prop
  | head, [] => memory head = 0
  | head, x :: xs => memory head = x ∧ x ≠ 0 ∧ is_list memory x xs

/-- The address `x` is one of the sub-blocks `1, ..., BlockSize - 1` of the block
obtained at `b`. -/
def is_sub_block (P : block_params) (b x : Nat) : Prop :=
  ∃ i, 1 ≤ i ∧ i < P.BlockSize ∧ x = b + P.alignof_Type + sub_block_size P * i

/-- The address `p` is one of the `BlockSize` sub-block positions `0, ..., BlockSize - 1`
of the block obtained at `b`. -/
def is_block_position (P : block_params) (b p : Nat) : Prop :=
  ∃ k, k < P.BlockSize ∧ p = b + P.alignof_Type + sub_block_size P * k

/-- The allocations of two blocks do not overlap. -/
def regions_apart (P : block_params) (b1 b2 : Nat) : Prop :=
  b1 + block_bytes P ≤ b2 ∨ b2 + block_bytes P ≤ b1

/-- The sub-blocks `1, ..., i` of the block whose first sub-block is at `block`. -/
def sub_blocks_upto (P : block_params) (block : Nat) : Nat → List Nat
  | 0 => []
  | i + 1 => sub_blocks_upto P block i ++ [block + sub_block_size P * (i + 1)]

/-- The invariant of the allocator: `m` is the memory, `fl` and `bl` are the two head
nodes, `blocks`, `returned` and `live` are as in `alloc_run`, and `F` is the content
of the free list, top first. -/
structure alloc_inv (P : block_params) (m : Nat → Nat) (fl bl : Nat)
    (blocks returned live F : List Nat) : Prop where
  heads : heads_ok bl fl
  blocks_list : is_list m bl blocks
  free_list : is_list m fl F
  nodup : (F ++ live).Nodup
  sub_blocks : ∀ x ∈ F ++ live, ∃ b ∈ blocks, is_sub_block P b x
  apart : ∀ b1 ∈ blocks, ∀ b2 ∈ blocks, b1 ≠ b2 → regions_apart P b1 b2
  heads_out : ∀ b ∈ blocks,
    (bl < b ∨ b + block_bytes P ≤ bl) ∧ (fl < b ∨ b + block_bytes P ≤ fl)
  returned_ok : ∀ r ∈ returned, r = 0 ∨ ∃ b ∈ blocks, is_sub_block P b r

/-- The invariant, stated for a run. -/
def alloc_run.inv (P : block_params) (s : alloc_run) (F : List Nat) : Prop :=
  alloc_inv P s.self.next s.self.m_freelist s.self.m_blocklist s.blocks s.returned s.live F

/-! ### Concrete inputs used to instantiate the theorems -/

/-- Sample enumerator values for `api::resource_usage`. -/
def example_usage : resource_usage_values := ⟨0, 8, 0x80000000⟩

/-- A sample key: the bytes 0, 1, ..., 15. -/
def example_guid : guid16 := fun i => ⟨i.val, by omega⟩

/-- Sample template arguments: an 8-byte type with 8-byte alignment. -/
def example_params (BlockSize : Nat) : block_params := ⟨8, 8, BlockSize⟩

/-- A fresh allocator whose head nodes are at 100 and 200, in zeroed memory. -/
def example_fresh : alloc_run := alloc_run.fresh (fun _ => 0) 100 200

/-- The root signature most recently set with `SetComputeRootSignature` among the
recorded calls, `0` when there is none. -/
def native_compute_root_signature (calls : List native_call) : Nat :=
  calls.foldl (fun bound c =>
    match c with
    | native_call.SetComputeRootSignature r => r
    | _ => bound) 0

/-- The calls that `after` has recorded on `_orig` beyond those of `before`. -/
def issued (before after : translator) : List native_call :=
  after.orig_calls.drop before.orig_calls.length

/-- The descriptor writes that `after` has recorded beyond those of `before`. -/
def written (before after : translator) : List device_call :=
  after.device_calls.drop before.device_calls.length

/-- Sample enumerator values for the binding commands. -/
def example_api : api_values :=
  { shader_stage_all_compute := 0x20
    shader_stage_all_graphics := 0x1F
    descriptor_type_sampler := 0
    descriptor_type_constant_buffer := 6
    descriptor_type_shader_resource_view := 2
    descriptor_type_unordered_access_view := 3
    render_pass_load_op_clear := 1 }

/-- A sample device: pipeline 70 and root signature 77 for mip-map generation, heaps
11 (samplers) and 12 (views), handle size 32, and resources with 3 mip levels of
size 256 x 64. -/
def example_device : device_impl :=
  { _mipmap_pipeline := 70
    _mipmap_signature := 77
    _gpu_view_heap := 12
    _gpu_sampler_heap := 11
    _descriptor_handle_size := fun _ => 32
    get_resource_from_view := fun v => v + 1
    get_resource_view_desc_format := fun _ => 28
    get_descriptor_heap := fun _ => 12
    convert_to_original_gpu_descriptor_handle := fun s => s
    convert_descriptor_type_to_heap_type := fun ty => if ty = 0 then 1 else 0
    convert_render_pass_load_op := fun x => x
    convert_render_pass_store_op := fun x => x
    convert_format := fun x => x
    format_to_default_typed := fun x => x
    heap_GetDesc_Type := fun h => if h = 11 then 1 else 0
    GetGPUVirtualAddress := fun r => r * 4096
    resource_GetDesc := fun _ => ⟨256, 64, 3, 28⟩ }

/-- The sample constants and device together. -/
def example_env : translator_env :=
  ⟨example_usage, id, example_api, example_device⟩

/-- The invariant of a queue that has served `n` calls of `wait_idle`: the counter is
at most `n`, every value of a `Signal` call that succeeded is at most the counter, and
every value of a `Signal` call at all is at most the counter plus one. -/
def queue_inv (q : command_queue_impl) (n : Nat) : Prop :=
  q._wait_idle_fence_value ≤ n ∧
  (∀ f v, queue_event.Signal f v true ∈ q.events → v ≤ q._wait_idle_fence_value) ∧
  ∀ f v b, queue_event.Signal f v b ∈ q.events → v ≤ q._wait_idle_fence_value + 1

/-- Tells whether a call sets a root signature on the native command list. -/
def sets_root_signature : native_call → Bool
  | native_call.SetComputeRootSignature _ => true
  | native_call.SetGraphicsRootSignature _ => true
  | _ => false

/-- Tells whether a call is a `Dispatch`. -/
def is_dispatch : native_call → Bool
  | native_call.Dispatch _ _ _ => true
  | _ => false

/-- A command with stage mask `stages` and layout `layout` took the translator from
`before` to `after` and handled the root signatures as follows:
`SetComputeRootSignature` was called exactly when the mask holds a compute stage and
the cached compute slot differed from `layout`, and then with `layout`; likewise
`SetGraphicsRootSignature` for the graphics stages and the graphics slot; afterwards
a slot whose stage was requested holds `layout` and the other slot is unchanged. -/
def root_signature_rebind (E : api_values) (stages layout : Nat) (before after : translator) :
    Prop :=
  (∀ r, native_call.SetComputeRootSignature r ∈ issued before after ↔
    (r = layout ∧ stages &&& E.shader_stage_all_compute ≠ 0 ∧
      before._current_root_signature.2 ≠ layout)) ∧
  (∀ r, native_call.SetGraphicsRootSignature r ∈ issued before after ↔
    (r = layout ∧ stages &&& E.shader_stage_all_graphics ≠ 0 ∧
      before._current_root_signature.1 ≠ layout)) ∧
  after._current_root_signature.2 =
    (if stages &&& E.shader_stage_all_compute ≠ 0 then layout
      else before._current_root_signature.2) ∧
  after._current_root_signature.1 =
    (if stages &&& E.shader_stage_all_graphics ≠ 0 then layout
      else before._current_root_signature.1)

/-- What the native command list, the device and the caches hold: the translator
without the flag `_has_commands` and without the log of transient requests. -/
def translator.bound (t : translator) : translator :=
  { t with _has_commands := false, transient_requests := [] }

/-- Two translators agree in what the native command list and the device have
received and in what the caches hold. -/
def same_bound (t1 t2 : translator) : Prop :=
  t1.orig_calls = t2.orig_calls ∧ t1.device_calls = t2.device_calls ∧
  t1._current_root_signature = t2._current_root_signature ∧
  t1._current_descriptor_heaps = t2._current_descriptor_heaps

/-- The descriptor that a view-creating call on the device writes. -/
def device_call.DestDescriptor : device_call → Option Nat
  | device_call.CreateShaderResourceView _ _ _ d => some d
  | device_call.CreateUnorderedAccessView _ _ d => some d
  | device_call.CreateConstantBufferView _ _ d => some d
  | device_call.CopyDescriptors _ _ _ _ _ => none

/-- Sample enumerator values for `api::dynamic_state`. -/
def example_dynamic_state : dynamic_state_values := ⟨1, 2, 3⟩

/-- Sample interface identifiers, different from each other and from the identifiers
of the wrapper classes. -/
def example_iids : d3d11_iids := ⟨1, 2, 3, 4, 5, 6, 7, 8, 9, 10, 11⟩

/-- A sample native object: it answers every `QueryInterface` with `S_OK` and its own
address 600. -/
def example_native_QueryInterface : Nat → Nat × Option Nat := fun _ => (S_OK, some 600)

/-- A sample wrapper of the given class at address 500 around the native object 600,
as constructed: count 1, interface version 0, nothing done yet. -/
def example_wrapper (cls : d3d11_wrapper_class) : d3d11_wrapper := ⟨cls, 500, 600, 1, 0, []⟩

/-- The test `SUCCEEDED` of the native API on a 32-bit `HRESULT`: the sign bit is
clear. -/
def SUCCEEDED (hr : Nat) : Bool := decide (hr < 0x80000000)

/-- The reference count of the wrapped native object after the calls that the wrapper
has made on it, starting from the count `n`. The native object is not part of the
sources; the count follows the rules of its interface `IUnknown`: `AddRef` adds one
reference, and a `QueryInterface` that the object answers with success adds one
reference as well, the one that the pointer it stores in `*ppvObj` holds.
`native_QueryInterface` is the answer of the native object as in `QueryInterface`. -/
def native_ref_count (native_QueryInterface : Nat → Nat × Option Nat) (n : Nat)
    (events : List wrapper_event) : Nat :=
  events.foldl (fun c e =>
    match e with
    | wrapper_event.orig_AddRef => c + 1
    | wrapper_event.InterlockedIncrement_ref => c
    | wrapper_event.orig_QueryInterface riid =>
      if SUCCEEDED (native_QueryInterface riid).1 then c + 1 else c) n

/-- The characters of a label before its terminating zero. -/
def c_string (label : List Nat) : List Nat :=
  label.takeWhile (fun c => decide (c ≠ 0))

/-- The colour bits that `encode_pix3blob` puts into word 1: the low bytes of the three
converted channels, red in bits 16 to 23, green in bits 8 to 15, blue in bits 0 to 7,
and 0 without a colour. -/
def pix3blob_rgb : Option (Nat × Nat × Nat) → Nat
  | some (c0, c1, c2) =>
    (((c0 % 2 ^ 32 &&& 0xFF) <<< 16) % 2 ^ 32) ||| (((c1 % 2 ^ 32 &&& 0xFF) <<< 8) % 2 ^ 32) |||
      (c2 % 2 ^ 32 &&& 0xFF)
  | none => 0

/-- Three threads on a fresh allocator whose head nodes are at 100 and 200: thread 0
calls `allocate` twice, thread 1 calls `allocate` twice and then `free(1024)`, thread 2
calls `allocate` once. The first call of thread 0 is given the block at 1000. -/
def example_threads : alloc_threads :=
  { self := example_fresh.self
    threads :=
      [⟨[alloc_call.allocate 1000, alloc_call.allocate 2000], call_pc.idle, [], []⟩,
       ⟨[alloc_call.allocate 2000, alloc_call.allocate 2000, alloc_call.free 1024],
        call_pc.idle, [], []⟩,
       ⟨[alloc_call.allocate 2000], call_pc.idle, [], []⟩] }

/-- An interleaving of `example_threads`: thread 0 completes its first `allocate` (17
accesses) and makes the two loads of its second one; thread 1 completes its three
calls (9 accesses); thread 0 makes its compare-exchange; thread 2 completes its
call (3 accesses). -/
def example_schedule : List Nat :=
  List.replicate 17 0 ++ [0, 0] ++ List.replicate 9 1 ++ [0] ++ List.replicate 3 2

/-- The descriptor heaps bound on the native command list after one more call, when
`bound` were bound before it. -/
def heaps_after (bound : List Nat) : native_call → List Nat
  | native_call.SetDescriptorHeaps _ heaps => heaps
  | _ => bound

/-- The descriptor heaps bound on the native command list after the recorded calls:
those of the last `SetDescriptorHeaps`, none when there is no such call. -/
def native_descriptor_heaps (calls : List native_call) : List Nat :=
  calls.foldl heaps_after []

/-- The descriptor heaps that the cache `_current_descriptor_heaps` stands for, as
`SetDescriptorHeaps(_current_descriptor_heaps[1] != nullptr ? 2 : 1,
_current_descriptor_heaps)` passes them. -/
def cached_descriptor_heaps (t : translator) : List Nat :=
  [t._current_descriptor_heaps.1, t._current_descriptor_heaps.2].take
    (if t._current_descriptor_heaps.2 ≠ 0 then 2 else 1)

/-- Tells whether a call is a `SetDescriptorHeaps`. -/
def sets_descriptor_heaps : native_call → Bool
  | native_call.SetDescriptorHeaps _ _ => true
  | _ => false

/-- The invariant of the heap cache: slot 0 is not empty while slot 1 is set, and when
slot 0 is set the heaps bound on the native command list are the cached ones. -/
def heaps_inv (t : translator) : Prop :=
  (t._current_descriptor_heaps.1 = 0 → t._current_descriptor_heaps.2 = 0) ∧
  (t._current_descriptor_heaps.1 ≠ 0 →
    native_descriptor_heaps t.orig_calls = cached_descriptor_heaps t)

end reshade

/-! # Theorems -/

namespace reshade

/-! ## Barrier translation -/

theorem temp_mem_create_length (count : Nat) :
    count ≤ (temp_mem.create 16 D3D12_RESOURCE_BARRIER.indeterminate count).p.length := by
  unfold temp_mem.create
  split
  · simp
  · simp; omega

theorem temp_mem_create_get (count j : Nat)
    (hj : j < (temp_mem.create 16 D3D12_RESOURCE_BARRIER.indeterminate count).p.length) :
    (temp_mem.create 16 D3D12_RESOURCE_BARRIER.indeterminate count).p.get? j =
      some D3D12_RESOURCE_BARRIER.indeterminate := by
  unfold temp_mem.create at hj ⊢
  split_ifs at hj ⊢ <;>
    (simp only [List.length_replicate] at hj
     rw [List.get?_eq_getElem?, List.getElem?_replicate, if_pos hj])

/-- After `n` iterations the first `n` elements hold the written records and the
rest of the storage is untouched. -/
theorem barrier_loop_state (E : resource_usage_values) (conv : Nat → Nat)
    (resources old_states new_states : Nat → Nat) (count : Nat) (n : Nat)
    (hres : ∀ i, i < n → resources i ≠ 0) :
    ((List.range n).foldl (barrier_iteration E conv resources old_states new_states)
      (temp_mem.create 16 D3D12_RESOURCE_BARRIER.indeterminate count)).p.length =
      (temp_mem.create 16 D3D12_RESOURCE_BARRIER.indeterminate count).p.length ∧
    ∀ j, j < (temp_mem.create 16 D3D12_RESOURCE_BARRIER.indeterminate count).p.length →
      ((List.range n).foldl (barrier_iteration E conv resources old_states new_states)
        (temp_mem.create 16 D3D12_RESOURCE_BARRIER.indeterminate count)).p.get? j =
      some (if j < n then barrier_written E conv resources old_states new_states j
            else D3D12_RESOURCE_BARRIER.indeterminate) := by
  induction n with
  | zero =>
    simp only [List.range_zero, List.foldl_nil]
    refine ⟨trivial, fun j hj => ?_⟩
    rw [temp_mem_create_get count j hj]
    simp
  | succ n ih =>
    have ih0 := ih (fun i hi => hres i (by omega))
    simp only [List.range_succ, List.foldl_append, List.foldl_cons, List.foldl_nil] at ih0 ⊢
    obtain ⟨hlen, hget⟩ := ih0
    have hn := hres n (by omega)
    generalize (temp_mem.create 16 D3D12_RESOURCE_BARRIER.indeterminate count).p.length = L
      at hlen hget ⊢
    generalize (List.range n).foldl (barrier_iteration E conv resources old_states new_states)
      (temp_mem.create 16 D3D12_RESOURCE_BARRIER.indeterminate count) = m at hlen hget ⊢
    have key : ∀ (r : D3D12_RESOURCE_BARRIER),
        r = barrier_written E conv resources old_states new_states n →
        (m.assign n r).p.length = L ∧
        ∀ j, j < L → (m.assign n r).p.get? j =
          some (if j < n + 1 then barrier_written E conv resources old_states new_states j
            else D3D12_RESOURCE_BARRIER.indeterminate) := by
      intro r hr
      refine ⟨by simp [temp_mem.assign, hlen], fun j hj => ?_⟩
      simp only [temp_mem.assign, List.get?_eq_getElem?, List.getElem?_set]
      by_cases hjn : n = j
      · subst hjn
        simp [hlen, hj, hr]
      · have := hget j hj
        simp only [List.get?_eq_getElem?] at this
        simp only [hjn, if_false, this]
        by_cases h1 : j < n
        · simp [h1, show j < n + 1 by omega]
        · simp [h1, show ¬ j < n + 1 by omega]
    by_cases hmax : n < L
    · have hprev := hget n hmax
      simp only [lt_irrefl, if_false] at hprev
      unfold barrier_iteration
      rw [if_neg hn]
      by_cases h1 : old_states n = E.unordered_access ∧ new_states n = E.unordered_access
      · rw [if_pos h1]; apply key; rw [barrier_written, if_pos h1]
      · rw [if_neg h1]
        by_cases h2 : old_states n = E.undefined ∧ new_states n = E.general
        · rw [if_pos h2]; apply key; rw [barrier_written, if_neg h1, if_pos h2, hprev]
          rfl
        · rw [if_neg h2]; apply key; rw [barrier_written, if_neg h1, if_neg h2]
    · have hset : ∀ r, m.assign n r = m := by
        intro r
        cases m with
        | mk p =>
          simp only [temp_mem.assign, temp_mem.mk.injEq]
          apply List.set_eq_of_length_le
          simp at hlen; omega
      have hit : barrier_iteration E conv resources old_states new_states m n = m := by
        unfold barrier_iteration
        simp only [hset]
        simp
      rw [hit]
      refine ⟨hlen, fun j hj => ?_⟩
      have hjn : j < n := by omega
      have := hget j hj
      simp only [hjn, if_true] at this
      rw [this, if_pos (show j < n + 1 by omega)]

/-- C1. For `count >= 1` and non-zero resource handles `barrier` records exactly one
`ResourceBarrier` call with exactly `count` records, and record `i` is a UAV record
on resource `i` when both states are `unordered_access`, an aliasing record with a
null "before" and resource `i` as "after" when the states are `undefined` then
`general`, and otherwise a transition record on resource `i` with
`StateBefore = convert(old_states[i])` and `StateAfter = convert(new_states[i])`.
For `count = 0` the translator is returned unchanged. -/
theorem barrier_translation (E : resource_usage_values) (conv : Nat → Nat)
    (self : command_list_impl) (count : Nat) (resources old_states new_states : Nat → Nat)
    (hE : E.unordered_access ≠ E.undefined)
    (hres : ∀ i, i < count → resources i ≠ 0) :
    (count = 0 → barrier E conv self count resources old_states new_states = self) ∧
    (1 ≤ count → ∃ records : List D3D12_RESOURCE_BARRIER,
      (barrier E conv self count resources old_states new_states).orig_calls =
        self.orig_calls ++ [native_call.ResourceBarrier count records] ∧
      records.length = count ∧
      ∀ i, i < count → ∃ r, records.get? i = some r ∧
        (old_states i = E.unordered_access ∧ new_states i = E.unordered_access →
          r.Type_ = some D3D12_RESOURCE_BARRIER_TYPE.UAV ∧
          r.u = barrier_union.UAV (resources i)) ∧
        (old_states i = E.undefined ∧ new_states i = E.general →
          r.Type_ = some D3D12_RESOURCE_BARRIER_TYPE.ALIASING ∧
          r.u = barrier_union.Aliasing 0 (resources i)) ∧
        (¬ (old_states i = E.unordered_access ∧ new_states i = E.unordered_access) →
          ¬ (old_states i = E.undefined ∧ new_states i = E.general) →
          r.Type_ = some D3D12_RESOURCE_BARRIER_TYPE.TRANSITION ∧
          r.u = barrier_union.Transition (resources i) D3D12_RESOURCE_BARRIER_ALL_SUBRESOURCES
            (conv (old_states i)) (conv (new_states i)))) := by
  constructor
  · intro h0
    simp [barrier, h0]
  · intro h1
    have hc : count ≠ 0 := by omega
    obtain ⟨hlen, hget⟩ := barrier_loop_state E conv resources old_states new_states count count hres
    refine ⟨((List.range count).foldl (barrier_iteration E conv resources old_states new_states)
      (temp_mem.create 16 D3D12_RESOURCE_BARRIER.indeterminate count)).p.take count,
      by simp only [barrier, if_neg hc], ?_, ?_⟩
    · have := temp_mem_create_length count
      simp only [List.length_take, hlen]; omega
    · intro i hi
      refine ⟨barrier_written E conv resources old_states new_states i, ?_, ?_, ?_, ?_⟩
      · have := hget i (by have := temp_mem_create_length count; omega)
        simp only [List.get?_eq_getElem?] at this ⊢
        rw [List.getElem?_take_of_lt hi, this]
        simp [hi]
      · intro h
        rw [barrier_written, if_pos h]
        exact ⟨rfl, rfl⟩
      · intro h
        have : ¬ (old_states i = E.unordered_access ∧ new_states i = E.unordered_access) := by
          rintro ⟨h2, -⟩; exact hE (h2.symm.trans h.1)
        rw [barrier_written, if_neg this, if_pos h]
        exact ⟨rfl, rfl⟩
      · intro h2 h3
        rw [barrier_written, if_neg h2, if_neg h3]
        exact ⟨rfl, rfl⟩

/-- An instance of `barrier_translation`: two UAV barriers on the resources 1 and 2. -/
theorem barrier_translation_witness :
    example_usage.unordered_access ≠ example_usage.undefined ∧
    (∀ i, i < 2 → (fun i => i + 1) i ≠ 0) ∧
    ∃ records : List D3D12_RESOURCE_BARRIER,
      (barrier example_usage id ⟨false, []⟩ 2 (fun i => i + 1) (fun _ => 8) (fun _ => 8)).orig_calls =
        [] ++ [native_call.ResourceBarrier 2 records] ∧ records.length = 2 :=
  ⟨by decide, fun i _ => Nat.succ_ne_zero i,
    let ⟨r, h1, h2, _⟩ := (barrier_translation example_usage id ⟨false, []⟩ 2 (fun i => i + 1)
      (fun _ => 8) (fun _ => 8) (by decide) (fun i _ => Nat.succ_ne_zero i)).2 (by decide)
    ⟨r, h1, h2⟩⟩

end reshade

namespace reshade

/-! ## Private data -/

theorem guid_byte_word (g : guid16) (d : Nat) (i : Fin 16) :
    (private_data.mk d (guid_word0 g) (guid_word1 g)).guid_byte i = (g i).val := by
  have h0 := (g 0).isLt; have h1 := (g 1).isLt; have h2 := (g 2).isLt; have h3 := (g 3).isLt
  have h4 := (g 4).isLt; have h5 := (g 5).isLt; have h6 := (g 6).isLt; have h7 := (g 7).isLt
  have h8 := (g 8).isLt; have h9 := (g 9).isLt; have h10 := (g 10).isLt; have h11 := (g 11).isLt
  have h12 := (g 12).isLt; have h13 := (g 13).isLt; have h14 := (g 14).isLt; have h15 := (g 15).isLt
  fin_cases i <;> simp [private_data.guid_byte, guid_word0, guid_word1] <;> omega

theorem memcmp_iff_of_words (e : private_data) (g : guid16)
    (h0 : e.guid0 = guid_word0 g) (h1 : e.guid1 = guid_word1 g) (k : guid16) :
    memcmp_guid_eq0 e k = true ↔ g = k := by
  have hb : ∀ i, e.guid_byte i = (g i).val := by
    intro i
    have := guid_byte_word g e.data i
    rw [← h0, ← h1] at this
    exact this
  simp only [memcmp_guid_eq0, decide_eq_true_eq, hb]
  constructor
  · intro h
    funext i
    exact Fin.ext (h i)
  · intro h i
    rw [h]

theorem stored_words_inj (g k : guid16)
    (h0 : guid_word0 g = guid_word0 k) (h1 : guid_word1 g = guid_word1 k) : g = k :=
  (memcmp_iff_of_words ⟨0, guid_word0 k, guid_word1 k⟩ g h0.symm h1.symm k).1
    ((memcmp_iff_of_words ⟨0, guid_word0 k, guid_word1 k⟩ k rfl rfl k).2 rfl)

theorem set_private_data_nil (guid : guid16) (data : Nat) :
    set_private_data [] guid data =
      if data ≠ 0 then [⟨data, guid_word0 guid, guid_word1 guid⟩] else [] := by
  simp [set_private_data, set_private_data_loop]

theorem set_private_data_cons (it : private_data) (rest : List private_data)
    (guid : guid16) (data : Nat) :
    set_private_data (it :: rest) guid data =
      if memcmp_guid_eq0 it guid then
        (if data ≠ 0 then { it with data := data } :: rest else rest)
      else it :: set_private_data rest guid data := by
  unfold set_private_data
  by_cases hm : memcmp_guid_eq0 it guid = true
  · by_cases hd : data = 0 <;> simp [set_private_data_loop, hm, hd]
  · cases hl : set_private_data_loop rest guid data with
    | none =>
      by_cases hd : data = 0
      · subst hd; simp [set_private_data_loop, hm, hl]
      · simp [set_private_data_loop, hm, hl, hd]
    | some r => simp [set_private_data_loop, hm, hl]

theorem get_private_data_absent (v : List private_data) (k : guid16)
    (hf : ∀ e ∈ v, ∃ g : guid16, e.guid0 = guid_word0 g ∧ e.guid1 = guid_word1 g)
    (h : ∀ e ∈ v, ¬ (e.guid0 = guid_word0 k ∧ e.guid1 = guid_word1 k)) :
    get_private_data v k = 0 := by
  induction v with
  | nil => rfl
  | cons it rest ih =>
    obtain ⟨g, h0, h1⟩ := hf it (List.mem_cons_self _ _)
    have hne : ¬ memcmp_guid_eq0 it k = true := by
      rw [memcmp_iff_of_words it g h0 h1 k]
      rintro rfl
      exact h it (List.mem_cons_self _ _) ⟨h0, h1⟩
    simp only [get_private_data, hne, if_false, Bool.false_eq_true]
    exact ih (fun e he => hf e (List.mem_cons_of_mem _ he))
      (fun e he => h e (List.mem_cons_of_mem _ he))

theorem set_private_data_mem (v : List private_data) (k : guid16) (d : Nat)
    (hf : ∀ e ∈ v, ∃ g : guid16, e.guid0 = guid_word0 g ∧ e.guid1 = guid_word1 g) :
    ∀ e ∈ set_private_data v k d,
      e ∈ v ∨ (e.data = d ∧ d ≠ 0 ∧ e.guid0 = guid_word0 k ∧ e.guid1 = guid_word1 k) := by
  intro e he
  induction v with
  | nil =>
    rw [set_private_data_nil] at he
    by_cases hd : d = 0
    · simp [hd] at he
    · simp only [ne_eq, hd, not_false_eq_true, if_true, List.mem_singleton] at he
      right; subst he; exact ⟨rfl, hd, rfl, rfl⟩
  | cons it rest ih =>
    rw [set_private_data_cons] at he
    by_cases hm : memcmp_guid_eq0 it k = true
    · by_cases hd : d = 0
      · simp only [hm, if_true, hd, ne_eq, not_true_eq_false, if_false] at he
        left; exact List.mem_cons_of_mem _ he
      · simp only [hm, if_true, ne_eq, hd, not_false_eq_true, List.mem_cons] at he
        rcases he with he | he
        · right
          obtain ⟨g, h0, h1⟩ := hf it (List.mem_cons_self _ _)
          have hgk := (memcmp_iff_of_words it g h0 h1 k).1 hm
          subst hgk
          subst he
          exact ⟨rfl, hd, h0, h1⟩
        · left; exact List.mem_cons_of_mem _ he
    · simp only [hm, if_false, List.mem_cons, Bool.false_eq_true] at he
      rcases he with he | he
      · left; rw [he]; exact List.mem_cons_self _ _
      · rcases ih (fun e he => hf e (List.mem_cons_of_mem _ he)) he with h | h
        · left; exact List.mem_cons_of_mem _ h
        · right; exact h

/-- One `set_private_data` call keeps the vector well formed and changes what
`get_private_data` returns for the key of the call only. -/
theorem set_private_data_step (v : List private_data) (k : guid16) (d : Nat)
    (hv : private_data_inv v) :
    private_data_inv (set_private_data v k d) ∧
    ∀ q, get_private_data (set_private_data v k d) q = if k = q then d else get_private_data v q := by
  induction v with
  | nil =>
    rw [set_private_data_nil]
    by_cases hd : d = 0
    · subst hd
      simp [private_data_inv, get_private_data]
    · simp only [ne_eq, hd, not_false_eq_true, if_true]
      refine ⟨⟨?_, List.pairwise_singleton _ _⟩, fun q => ?_⟩
      · intro e he
        simp only [List.mem_singleton] at he
        subst he
        exact ⟨hd, k, rfl, rfl⟩
      · simp only [get_private_data]
        by_cases hkq : k = q
        · rw [if_pos hkq, if_pos ((memcmp_iff_of_words _ k rfl rfl q).2 hkq)]
        · rw [if_neg hkq, if_neg (fun h => hkq ((memcmp_iff_of_words _ k rfl rfl q).1 h))]
  | cons it rest ih =>
    obtain ⟨hform, hpw⟩ := hv
    have hrest : private_data_inv rest :=
      ⟨fun e he => hform e (List.mem_cons_of_mem _ he), (List.pairwise_cons.1 hpw).2⟩
    have hnew := (List.pairwise_cons.1 hpw).1
    obtain ⟨hd_it, g, h0, h1⟩ := hform it (List.mem_cons_self _ _)
    have hformr : ∀ e ∈ rest, ∃ g : guid16, e.guid0 = guid_word0 g ∧ e.guid1 = guid_word1 g :=
      fun e he => (hform e (List.mem_cons_of_mem _ he)).2
    have habs : get_private_data rest g = 0 :=
      get_private_data_absent rest g hformr
        (fun e he hk => hnew e he ⟨h0.trans hk.1.symm, h1.trans hk.2.symm⟩)
    rw [set_private_data_cons]
    by_cases hm : memcmp_guid_eq0 it k = true
    · have hgk := (memcmp_iff_of_words it g h0 h1 k).1 hm
      subst hgk
      rw [if_pos hm]
      by_cases hd : d = 0
      · subst hd
        simp only [ne_eq, not_true_eq_false, if_false]
        refine ⟨hrest, fun q => ?_⟩
        by_cases hgq : g = q
        · subst hgq; rw [if_pos rfl, habs]
        · rw [if_neg hgq]
          simp only [get_private_data]
          rw [if_neg (fun h => hgq ((memcmp_iff_of_words it g h0 h1 q).1 h))]
      · simp only [ne_eq, hd, not_false_eq_true, if_true]
        refine ⟨⟨?_, ?_⟩, fun q => ?_⟩
        · intro e he
          rcases List.mem_cons.1 he with he | he
          · subst he; exact ⟨hd, g, h0, h1⟩
          · exact hform e (List.mem_cons_of_mem _ he)
        · exact List.pairwise_cons.2 ⟨fun e he => hnew e he, hrest.2⟩
        · simp only [get_private_data]
          have hmq : ∀ q, memcmp_guid_eq0 { it with data := d } q = memcmp_guid_eq0 it q := by
            intro q; rfl
          rw [hmq]
          by_cases hgq : g = q
          · rw [if_pos hgq, if_pos ((memcmp_iff_of_words it g h0 h1 q).2 hgq)]
          · have hnm : ¬ memcmp_guid_eq0 it q = true :=
              fun h => hgq ((memcmp_iff_of_words it g h0 h1 q).1 h)
            rw [if_neg hgq, if_neg hnm, if_neg hnm]
    · rw [if_neg hm]
      have hgk : g ≠ k := fun h => hm ((memcmp_iff_of_words it g h0 h1 k).2 h)
      obtain ⟨ihinv, ihget⟩ := ih hrest
      refine ⟨⟨?_, ?_⟩, fun q => ?_⟩
      · intro e he
        rcases List.mem_cons.1 he with he | he
        · subst he; exact ⟨hd_it, g, h0, h1⟩
        · exact ihinv.1 e he
      · refine List.pairwise_cons.2 ⟨fun e he => ?_, ihinv.2⟩
        rcases set_private_data_mem rest k d hformr e he with h | ⟨-, -, hk0, hk1⟩
        · exact hnew e h
        · rintro ⟨e0, e1⟩
          exact hgk (stored_words_inj g k (h0.symm.trans (e0.trans hk0)) (h1.symm.trans (e1.trans hk1)))
      · simp only [get_private_data]
        rw [ihget q]
        by_cases hmq : memcmp_guid_eq0 it q = true
        · have hgq := (memcmp_iff_of_words it g h0 h1 q).1 hmq
          rw [if_pos hmq, if_pos hmq, if_neg (fun h => hgk (hgq.trans h.symm))]
        · rw [if_neg hmq, if_neg hmq]

theorem set_private_data_calls_snoc (calls : List (guid16 × Nat)) (c : guid16 × Nat) :
    set_private_data_calls (calls ++ [c]) =
      set_private_data (set_private_data_calls calls) c.1 c.2 := by
  simp [set_private_data_calls, List.foldl_append]

theorem set_private_data_calls_inv (calls : List (guid16 × Nat)) :
    private_data_inv (set_private_data_calls calls) := by
  induction calls using List.reverseRecOn with
  | nil => exact ⟨fun e he => by simp [set_private_data_calls] at he, List.Pairwise.nil⟩
  | append_singleton calls c ih =>
    rw [set_private_data_calls_snoc]
    exact (set_private_data_step _ c.1 c.2 ih).1

theorem erase_length (v : List private_data) (k : guid16)
    (h : get_private_data v k ≠ 0) :
    (set_private_data v k 0).length + 1 = v.length := by
  induction v with
  | nil => simp [get_private_data] at h
  | cons it rest ih =>
    rw [set_private_data_cons]
    by_cases hm : memcmp_guid_eq0 it k = true
    · simp [hm]
    · simp only [get_private_data, hm, if_false, Bool.false_eq_true] at h
      simp [hm, ih h]

/-- C2. In every state the metadata vector can reach, after `set_private_data(k, v)`
with `v != 0` followed by `set_private_data(k, 0)`, `get_private_data(k)` gives 0 and
the vector has exactly one element fewer than right after the non-zero set. -/
theorem set_zero_removes_entry (calls : List (guid16 × Nat)) (k : guid16) (v : Nat)
    (hv : v ≠ 0) :
    get_private_data
      (set_private_data (set_private_data (set_private_data_calls calls) k v) k 0) k = 0 ∧
    (set_private_data (set_private_data (set_private_data_calls calls) k v) k 0).length + 1 =
      (set_private_data (set_private_data_calls calls) k v).length := by
  have h0 := set_private_data_calls_inv calls
  obtain ⟨h1, g1⟩ := set_private_data_step _ k v h0
  obtain ⟨-, g2⟩ := set_private_data_step _ k 0 h1
  refine ⟨by rw [g2 k, if_pos rfl], erase_length _ k ?_⟩
  rw [g1 k, if_pos rfl]
  exact hv

theorem last_set_value_snoc (calls : List (guid16 × Nat)) (c : guid16 × Nat) (k : guid16) :
    last_set_value (calls ++ [c]) k = if c.1 = k then c.2 else last_set_value calls k := by
  unfold last_set_value
  rw [List.reverse_append, List.reverse_singleton, List.singleton_append, List.find?_cons]
  by_cases h : c.1 = k <;> simp [h]

theorem get_private_data_eq_zero_iff (v : List private_data) (k : guid16)
    (hd : ∀ e ∈ v, e.data ≠ 0) :
    get_private_data v k = 0 ↔ ∀ e ∈ v, memcmp_guid_eq0 e k = false := by
  induction v with
  | nil => simp [get_private_data]
  | cons it rest ih =>
    have ih0 := ih (fun e he => hd e (List.mem_cons_of_mem _ he))
    by_cases hm : memcmp_guid_eq0 it k = true
    · simp [get_private_data, hm, hd it (List.mem_cons_self _ _)]
    · simp only [get_private_data, hm, if_false, Bool.false_eq_true, List.mem_cons,
        forall_eq_or_imp, ih0]
      simp [hm]

/-- An instance of `set_zero_removes_entry`: one earlier call, then the value 7. -/
theorem set_zero_removes_entry_witness :
    (7 : Nat) ≠ 0 ∧
    get_private_data (set_private_data (set_private_data
      (set_private_data_calls [(example_guid, 5)]) example_guid 7) example_guid 0) example_guid = 0 ∧
    (set_private_data (set_private_data
      (set_private_data_calls [(example_guid, 5)]) example_guid 7) example_guid 0).length + 1 =
    (set_private_data (set_private_data_calls [(example_guid, 5)]) example_guid 7).length :=
  ⟨by decide, set_zero_removes_entry [(example_guid, 5)] example_guid 7 (by decide)⟩

/-- C3. After any series of `set_private_data` calls on a fresh object,
`get_private_data(k)` gives the value of the most recent call whose sixteen key
bytes all equal those of `k`, or 0 when there is none; a further set on a key that
differs from `k` in some byte does not change what `get_private_data(k)` gives. -/
theorem get_returns_latest_set (calls : List (guid16 × Nat)) (k : guid16) :
    get_private_data (set_private_data_calls calls) k = last_set_value calls k ∧
    ∀ (other : guid16) (v : Nat) (i : Fin 16), other i ≠ k i →
      get_private_data (set_private_data (set_private_data_calls calls) other v) k =
        get_private_data (set_private_data_calls calls) k := by
  constructor
  · induction calls using List.reverseRecOn with
    | nil => rfl
    | append_singleton calls c ih =>
      rw [set_private_data_calls_snoc, last_set_value_snoc,
        (set_private_data_step _ c.1 c.2 (set_private_data_calls_inv calls)).2 k, ih]
  · intro other v i hi
    rw [(set_private_data_step _ other v (set_private_data_calls_inv calls)).2 k,
      if_neg (fun h => hi (by rw [h]))]

/-- C4. After any series of `set_private_data` calls on a fresh object the stored
keys are pairwise distinct and no element holds the value 0, so that
`get_private_data(k)` gives 0 exactly when no element matches `k`. -/
theorem private_data_well_formed (calls : List (guid16 × Nat)) :
    (set_private_data_calls calls).Pairwise
      (fun a b => ¬ (a.guid0 = b.guid0 ∧ a.guid1 = b.guid1)) ∧
    (∀ e ∈ set_private_data_calls calls, e.data ≠ 0) ∧
    ∀ k, get_private_data (set_private_data_calls calls) k = 0 ↔
      ∀ e ∈ set_private_data_calls calls, memcmp_guid_eq0 e k = false := by
  have h := set_private_data_calls_inv calls
  exact ⟨h.2, fun e he => (h.1 e he).1,
    fun k => get_private_data_eq_zero_iff _ k (fun e he => (h.1 e he).1)⟩

end reshade

namespace reshade

/-! ## Block allocator -/

theorem valid_sub_block_size (P : block_params) (h : P.valid) :
    sub_block_size P = ((P.sizeof_Type - 1) / P.alignof_Type + 1) * P.alignof_Type ∧
    P.sizeof_Type ≤ sub_block_size P ∧ 1 ≤ sub_block_size P := by
  obtain ⟨h1, h2, h3, h4⟩ := h
  have hle : ((P.sizeof_Type - 1) / P.alignof_Type + 1) * P.alignof_Type ≤
      ((P.sizeof_Type - 1) / P.alignof_Type + 1) * P.alignof_Type * P.BlockSize :=
    Nat.le_mul_of_pos_right _ h3
  have hlt : ((P.sizeof_Type - 1) / P.alignof_Type + 1) * P.alignof_Type < 2 ^ 64 := by omega
  have hs : sub_block_size P = ((P.sizeof_Type - 1) / P.alignof_Type + 1) * P.alignof_Type := by
    unfold sub_block_size k_memory_allocation_alignment
    exact Nat.mod_eq_of_lt hlt
  have hdm := Nat.div_add_mod (P.sizeof_Type - 1) P.alignof_Type
  have hml := Nat.mod_lt (P.sizeof_Type - 1) (show P.alignof_Type > 0 by omega)
  have hge : P.sizeof_Type ≤ ((P.sizeof_Type - 1) / P.alignof_Type + 1) * P.alignof_Type := by
    rw [Nat.add_mul, Nat.one_mul, Nat.mul_comm]
    unfold sizeof_node at h1
    omega
  unfold sizeof_node at h1
  exact ⟨hs, by omega, by omega⟩

theorem valid_mul_no_wrap (P : block_params) (h : P.valid) (i : Nat) (hi : i ≤ P.BlockSize) :
    (sub_block_size P * i) % 2 ^ 64 = sub_block_size P * i ∧
    sub_block_size P * i ≤ sub_block_size P * P.BlockSize ∧
    sub_block_size P * P.BlockSize + P.alignof_Type < 2 ^ 64 := by
  have hs := (valid_sub_block_size P h).1
  obtain ⟨h1, h2, h3, h4⟩ := h
  rw [← hs] at h4
  have hle : sub_block_size P * i ≤ sub_block_size P * P.BlockSize := Nat.mul_le_mul_left _ hi
  exact ⟨Nat.mod_eq_of_lt (by omega), hle, h4⟩

theorem valid_block_bytes (P : block_params) (h : P.valid) :
    block_bytes P = sub_block_size P * P.BlockSize + P.alignof_Type := by
  obtain ⟨h1, h2, h3⟩ := valid_mul_no_wrap P h P.BlockSize le_rfl
  unfold block_bytes k_memory_allocation_alignment
  rw [h1]
  exact Nat.mod_eq_of_lt h3

theorem valid_loop_start (P : block_params) (h : P.valid) :
    (P.BlockSize + 2 ^ 64 - 1) % 2 ^ 64 = P.BlockSize - 1 := by
  have hs := valid_sub_block_size P h
  have hm := valid_mul_no_wrap P h P.BlockSize le_rfl
  have : P.BlockSize ≤ sub_block_size P * P.BlockSize := Nat.le_mul_of_pos_left _ hs.2.2
  obtain ⟨h1, h2, h3, h4⟩ := h
  omega

/-- A sub-block lies strictly inside the allocation of its block. -/
theorem sub_block_inside (P : block_params) (h : P.valid) (b x : Nat) (hx : is_sub_block P b x) :
    b < x ∧ x < b + block_bytes P ∧ x ≠ 0 := by
  obtain ⟨i, hi1, hi2, rfl⟩ := hx
  rw [valid_block_bytes P h]
  have hs := (valid_sub_block_size P h).2.2
  have hle : sub_block_size P * (i + 1) ≤ sub_block_size P * P.BlockSize :=
    Nat.mul_le_mul_left _ (by omega)
  have hpos : sub_block_size P * 1 ≤ sub_block_size P * i := Nat.mul_le_mul_left _ hi1
  rw [Nat.mul_succ] at hle
  obtain ⟨h1, h2, h3, h4⟩ := h
  omega

theorem is_list_congr (m m' : Nat → Nat) (xs : List Nat) :
    ∀ (h h' : Nat), m' h' = m h → (∀ y ∈ xs, m' y = m y) → is_list m h xs → is_list m' h' xs := by
  induction xs with
  | nil =>
    intro h h' e _ hl
    simp only [is_list] at hl ⊢
    rw [e, hl]
  | cons x xs ih =>
    intro h h' e hall hl
    simp only [is_list] at hl ⊢
    refine ⟨by rw [e, hl.1], hl.2.1, ?_⟩
    exact ih x x (hall x (List.mem_cons_self _ _))
      (fun y hy => hall y (List.mem_cons_of_mem _ hy)) hl.2.2

theorem is_list_ne_zero (m : Nat → Nat) (xs : List Nat) :
    ∀ h, is_list m h xs → ∀ x ∈ xs, x ≠ 0 := by
  induction xs with
  | nil => intro h _ x hx; simp at hx
  | cons y ys ih =>
    intro h hl x hx
    simp only [is_list] at hl
    rcases List.mem_cons.1 hx with rfl | hx
    · exact hl.2.1
    · exact ih y hl.2.2 x hx

theorem is_list_update (m : Nat → Nat) (h : Nat) (xs : List Nat) (a v : Nat)
    (hl : is_list m h xs) (ha : a ∉ h :: xs) : is_list (Function.update m a v) h xs := by
  refine is_list_congr m _ xs h h ?_ ?_ hl
  · exact Function.update_noteq (fun e => ha (by rw [e]; exact List.mem_cons_self _ _)) _ _
  · intro y hy
    exact Function.update_noteq (fun e => ha (by rw [← e]; exact List.mem_cons_of_mem _ hy)) _ _

theorem is_list_push (m : Nat → Nat) (head x : Nat) (xs : List Nat)
    (hl : is_list m head xs) (hx0 : x ≠ 0) (hx : x ∉ head :: xs) (hh : head ∉ xs) :
    is_list (push_atomic m head x) head (x :: xs) := by
  unfold push_atomic
  simp only [is_list]
  have hxh : x ≠ head := fun e => hx (by rw [e]; exact List.mem_cons_self _ _)
  refine ⟨Function.update_same _ _ _, hx0, ?_⟩
  refine is_list_congr m _ xs head x ?_ ?_ hl
  · rw [Function.update_noteq hxh, Function.update_same]
  · intro y hy
    have hyh : y ≠ head := fun e => hh (by rw [← e]; exact hy)
    have hyx : y ≠ x := fun e => hx (by rw [← e]; exact List.mem_cons_of_mem _ hy)
    rw [Function.update_noteq hyh, Function.update_noteq hyx]

theorem is_list_push_frame (m : Nat → Nat) (head x h : Nat) (ys : List Nat)
    (hl : is_list m h ys) (hx : x ∉ h :: ys) (hh : head ∉ h :: ys) :
    is_list (push_atomic m head x) h ys := by
  unfold push_atomic
  exact is_list_update _ h ys head x (is_list_update m h ys x _ hl hx) hh

theorem pop_atomic_nil (m : Nat → Nat) (head : Nat) (hl : is_list m head []) :
    pop_atomic m head = (m, 0) := by
  simp only [is_list] at hl
  simp [pop_atomic, hl]

theorem pop_atomic_cons (m : Nat → Nat) (head x : Nat) (xs : List Nat)
    (hl : is_list m head (x :: xs)) (hh : head ∉ xs) :
    (pop_atomic m head).2 = x ∧ (pop_atomic m head).1 = Function.update m head (m x) ∧
    is_list (pop_atomic m head).1 head xs := by
  simp only [is_list] at hl
  obtain ⟨h1, h2, h3⟩ := hl
  have hne : ¬ m head = 0 := by rw [h1]; exact h2
  have hp : pop_atomic m head = (Function.update m head (m x), x) := by
    simp only [pop_atomic, h1, if_neg h2]
  rw [hp]
  refine ⟨rfl, rfl, ?_⟩
  refine is_list_congr m _ xs x head (Function.update_same _ _ _) ?_ h3
  intro y hy
  exact Function.update_noteq (fun e => hh (by rw [← e]; exact hy)) _ _

theorem mem_sub_blocks_upto (P : block_params) (block : Nat) (i x : Nat) :
    x ∈ sub_blocks_upto P block i ↔ ∃ j, 1 ≤ j ∧ j ≤ i ∧ x = block + sub_block_size P * j := by
  induction i with
  | zero =>
    simp only [sub_blocks_upto, List.not_mem_nil, false_iff]
    rintro ⟨j, h1, h2, -⟩
    omega
  | succ i ih =>
    simp only [sub_blocks_upto, List.mem_append, List.mem_singleton, ih]
    constructor
    · rintro (⟨j, h1, h2, h3⟩ | h)
      · exact ⟨j, h1, by omega, h3⟩
      · exact ⟨i + 1, by omega, le_rfl, h⟩
    · rintro ⟨j, h1, h2, h3⟩
      by_cases hj : j = i + 1
      · right; rw [h3, hj]
      · left; exact ⟨j, h1, by omega, h3⟩

theorem sub_blocks_upto_nodup (P : block_params) (hs : 1 ≤ sub_block_size P) (block : Nat)
    (i : Nat) : (sub_blocks_upto P block i).Nodup := by
  induction i with
  | zero => exact List.nodup_nil
  | succ i ih =>
    simp only [sub_blocks_upto]
    refine List.Nodup.append ih (List.nodup_singleton _) ?_
    intro x hx hx'
    rw [mem_sub_blocks_upto] at hx
    obtain ⟨j, h1, h2, h3⟩ := hx
    simp only [List.mem_singleton] at hx'
    have : sub_block_size P * j < sub_block_size P * (i + 1) :=
      (Nat.mul_lt_mul_left (show 0 < sub_block_size P by omega)).2 (by omega)
    omega

theorem push_sub_blocks_list (P : block_params) (hP : P.valid) (fl block : Nat) :
    ∀ (i : Nat) (m : Nat → Nat) (xs : List Nat), i ≤ P.BlockSize →
      is_list m fl xs → fl ∉ xs →
      (∀ j, 1 ≤ j → j ≤ i → block + sub_block_size P * j ∉ fl :: xs) →
      is_list (push_sub_blocks P fl block i m) fl (sub_blocks_upto P block i ++ xs) := by
  intro i
  induction i with
  | zero =>
    intro m xs _ hl _ _
    simpa [push_sub_blocks, sub_blocks_upto] using hl
  | succ i ih =>
    intro m xs hi hl hfl hnew
    have hs := (valid_sub_block_size P hP).2.2
    have hw := (valid_mul_no_wrap P hP (i + 1) hi).1
    simp only [push_sub_blocks, sub_blocks_upto, hw, List.append_assoc, List.singleton_append]
    have hx := hnew (i + 1) (by omega) le_rfl
    have hpos : sub_block_size P * 1 ≤ sub_block_size P * (i + 1) :=
      Nat.mul_le_mul_left _ (by omega)
    refine ih _ _ (by omega)
      (is_list_push m fl _ xs hl (by omega) hx hfl) ?_ ?_
    · intro h
      rcases List.mem_cons.1 h with h | h
      · exact hx (by rw [← h]; exact List.mem_cons_self _ _)
      · exact hfl h
    · intro j h1 h2 h
      rcases List.mem_cons.1 h with h | h
      · exact hnew j h1 (by omega) (by rw [h]; exact List.mem_cons_self _ _)
      · rcases List.mem_cons.1 h with h | h
        · have : sub_block_size P * j < sub_block_size P * (i + 1) :=
            (Nat.mul_lt_mul_left (show 0 < sub_block_size P by omega)).2 (by omega)
          omega
        · exact hnew j h1 (by omega) (List.mem_cons_of_mem _ h)

theorem push_sub_blocks_frame (P : block_params) (hP : P.valid) (fl block h : Nat)
    (ys : List Nat) :
    ∀ (i : Nat) (m : Nat → Nat), i ≤ P.BlockSize →
      is_list m h ys → fl ∉ h :: ys →
      (∀ j, 1 ≤ j → j ≤ i → block + sub_block_size P * j ∉ h :: ys) →
      is_list (push_sub_blocks P fl block i m) h ys := by
  intro i
  induction i with
  | zero =>
    intro m _ hl _ _
    simpa [push_sub_blocks] using hl
  | succ i ih =>
    intro m hi hl hfl hnew
    have hw := (valid_mul_no_wrap P hP (i + 1) hi).1
    simp only [push_sub_blocks, hw]
    exact ih _ (by omega)
      (is_list_push_frame m fl _ h ys hl (hnew (i + 1) (by omega) le_rfl) hfl) hfl
      (fun j h1 h2 => hnew j h1 (by omega))

/-- The body of `allocate` after its first `pop_atomic`, with the result `r` of that
call and the start value `n` of the loop as variables: the head pointers are kept. -/
theorem allocate_body_heads (P : block_params) (self : block_allocator) (blockptr n : Nat)
    (r : (Nat → Nat) × Nat) :
    (if r.2 = 0 then
      (let memory1 := push_atomic r.1 self.m_blocklist blockptr
       let block := blockptr + k_memory_allocation_alignment P
       let memory2 := push_sub_blocks P self.m_freelist block n memory1
       let r2 := pop_atomic memory2 self.m_freelist
       (({ self with next := r2.1 } : block_allocator), r2.2))
     else (({ self with next := r.1 } : block_allocator), r.2)).1.m_freelist = self.m_freelist ∧
    (if r.2 = 0 then
      (let memory1 := push_atomic r.1 self.m_blocklist blockptr
       let block := blockptr + k_memory_allocation_alignment P
       let memory2 := push_sub_blocks P self.m_freelist block n memory1
       let r2 := pop_atomic memory2 self.m_freelist
       (({ self with next := r2.1 } : block_allocator), r2.2))
     else (({ self with next := r.1 } : block_allocator), r.2)).1.m_blocklist =
      self.m_blocklist := by
  by_cases h : r.2 = 0
  · rw [if_pos h]; exact ⟨rfl, rfl⟩
  · rw [if_neg h]; exact ⟨rfl, rfl⟩

theorem allocate_body_nonempty (P : block_params) (self : block_allocator) (blockptr n : Nat)
    (r : (Nat → Nat) × Nat) (h : r.2 ≠ 0) :
    (if r.2 = 0 then
      (let memory1 := push_atomic r.1 self.m_blocklist blockptr
       let block := blockptr + k_memory_allocation_alignment P
       let memory2 := push_sub_blocks P self.m_freelist block n memory1
       let r2 := pop_atomic memory2 self.m_freelist
       (({ self with next := r2.1 } : block_allocator), r2.2))
     else (({ self with next := r.1 } : block_allocator), r.2)).1.next = r.1 ∧
    (if r.2 = 0 then
      (let memory1 := push_atomic r.1 self.m_blocklist blockptr
       let block := blockptr + k_memory_allocation_alignment P
       let memory2 := push_sub_blocks P self.m_freelist block n memory1
       let r2 := pop_atomic memory2 self.m_freelist
       (({ self with next := r2.1 } : block_allocator), r2.2))
     else (({ self with next := r.1 } : block_allocator), r.2)).2 = r.2 := by
  rw [if_neg h]; exact ⟨rfl, rfl⟩

theorem allocate_body_empty (P : block_params) (self : block_allocator) (blockptr n : Nat)
    (r : (Nat → Nat) × Nat) (m : Nat → Nat) (h : r = (m, 0)) :
    (if r.2 = 0 then
      (let memory1 := push_atomic r.1 self.m_blocklist blockptr
       let block := blockptr + k_memory_allocation_alignment P
       let memory2 := push_sub_blocks P self.m_freelist block n memory1
       let r2 := pop_atomic memory2 self.m_freelist
       (({ self with next := r2.1 } : block_allocator), r2.2))
     else (({ self with next := r.1 } : block_allocator), r.2)).1.next =
      (pop_atomic (push_sub_blocks P self.m_freelist
        (blockptr + k_memory_allocation_alignment P) n
        (push_atomic m self.m_blocklist blockptr)) self.m_freelist).1 ∧
    (if r.2 = 0 then
      (let memory1 := push_atomic r.1 self.m_blocklist blockptr
       let block := blockptr + k_memory_allocation_alignment P
       let memory2 := push_sub_blocks P self.m_freelist block n memory1
       let r2 := pop_atomic memory2 self.m_freelist
       (({ self with next := r2.1 } : block_allocator), r2.2))
     else (({ self with next := r.1 } : block_allocator), r.2)).2 =
      (pop_atomic (push_sub_blocks P self.m_freelist
        (blockptr + k_memory_allocation_alignment P) n
        (push_atomic m self.m_blocklist blockptr)) self.m_freelist).2 := by
  subst h
  rw [if_pos rfl]; exact ⟨rfl, rfl⟩

theorem allocate_heads (P : block_params) (self : block_allocator) (blockptr : Nat) :
    (allocate P self blockptr).1.m_freelist = self.m_freelist ∧
    (allocate P self blockptr).1.m_blocklist = self.m_blocklist :=
  allocate_body_heads P self blockptr ((P.BlockSize + 2 ^ 64 - 1) % 2 ^ 64)
    (pop_atomic self.next self.m_freelist)

theorem pop_atomic_empty (m : Nat → Nat) (head : Nat) (h : m head = 0) :
    pop_atomic m head = (m, 0) := by
  unfold pop_atomic
  rw [if_pos h]

theorem pop_atomic_nonempty (m : Nat → Nat) (head : Nat) (h : m head ≠ 0) :
    (pop_atomic m head).2 ≠ 0 := by
  unfold pop_atomic
  rw [if_neg h]
  exact h

theorem allocate_nonempty (P : block_params) (self : block_allocator) (blockptr : Nat)
    (h : self.next self.m_freelist ≠ 0) :
    (allocate P self blockptr).1.next = (pop_atomic self.next self.m_freelist).1 ∧
    (allocate P self blockptr).2 = (pop_atomic self.next self.m_freelist).2 :=
  allocate_body_nonempty P self blockptr ((P.BlockSize + 2 ^ 64 - 1) % 2 ^ 64)
    (pop_atomic self.next self.m_freelist) (pop_atomic_nonempty _ _ h)

theorem allocate_empty (P : block_params) (self : block_allocator) (blockptr : Nat)
    (h : self.next self.m_freelist = 0) :
    (allocate P self blockptr).1.next =
      (pop_atomic (push_sub_blocks P self.m_freelist
        (blockptr + k_memory_allocation_alignment P) ((P.BlockSize + 2 ^ 64 - 1) % 2 ^ 64)
        (push_atomic self.next self.m_blocklist blockptr)) self.m_freelist).1 ∧
    (allocate P self blockptr).2 =
      (pop_atomic (push_sub_blocks P self.m_freelist
        (blockptr + k_memory_allocation_alignment P) ((P.BlockSize + 2 ^ 64 - 1) % 2 ^ 64)
        (push_atomic self.next self.m_blocklist blockptr)) self.m_freelist).2 :=
  allocate_body_empty P self blockptr ((P.BlockSize + 2 ^ 64 - 1) % 2 ^ 64)
    (pop_atomic self.next self.m_freelist) self.next (pop_atomic_empty _ _ h)

theorem block_bytes_pos (P : block_params) (hP : P.valid) : 1 ≤ block_bytes P := by
  rw [valid_block_bytes P hP]
  obtain ⟨h1, h2, h3, h4⟩ := hP
  omega

/-- In a state that satisfies the invariant, a sub-block of a linked block is not
null, is neither head node and is not the first address of a block. -/
theorem inv_sub_block_fresh (P : block_params) (hP : P.valid) (m : Nat → Nat) (fl bl : Nat)
    (blocks returned live F : List Nat) (hinv : alloc_inv P m fl bl blocks returned live F) (x : Nat) (hx : ∃ b ∈ blocks, is_sub_block P b x) :
    x ≠ 0 ∧ x ≠ fl ∧ x ≠ bl ∧ x ∉ blocks := by
  obtain ⟨b, hb, hsub⟩ := hx
  obtain ⟨h1, h2, h3⟩ := sub_block_inside P hP b x hsub
  have ho := hinv.heads_out b hb
  refine ⟨h3, by omega, by omega, fun hmem => ?_⟩
  by_cases hbx : b = x
  · omega
  · have := hinv.apart b hb x hmem hbx
    unfold regions_apart at this
    have := block_bytes_pos P hP
    omega

theorem inv_heads_fresh (P : block_params) (hP : P.valid) (m : Nat → Nat) (fl bl : Nat)
    (blocks returned live F : List Nat) (hinv : alloc_inv P m fl bl blocks returned live F) :
    fl ∉ bl :: blocks ∧
    bl ∉ blocks ∧ fl ∉ F := by
  have hb := block_bytes_pos P hP
  refine ⟨fun h => ?_, fun h => ?_, fun h => ?_⟩
  · rcases List.mem_cons.1 h with h | h
    · exact hinv.heads.2.2 h.symm
    · have := (hinv.heads_out _ h).2; omega
  · have := (hinv.heads_out _ h).1; omega
  · exact (inv_sub_block_fresh P hP m fl bl blocks returned live F hinv _
      (hinv.sub_blocks _ (List.mem_append_left _ h))).2.1 rfl

/-- The final `pop_atomic` of `allocate` keeps the invariant and returns a pointer
that is not live. -/
theorem inv_pop (P : block_params) (hP : P.valid) (m : Nat → Nat) (fl bl : Nat)
    (blocks returned live F : List Nat) (hinv : alloc_inv P m fl bl blocks returned live F) :
    alloc_inv P (pop_atomic m fl).1 fl bl blocks ((pop_atomic m fl).2 :: returned)
      (if (pop_atomic m fl).2 = 0 then live else (pop_atomic m fl).2 :: live) F.tail ∧
    (pop_atomic m fl).2 ∉ live := by
  obtain ⟨hf1, hf2, hf3⟩ := inv_heads_fresh P hP m fl bl blocks returned live F hinv
  cases F with
  | nil =>
    rw [pop_atomic_nil _ _ hinv.free_list]
    simp only [if_true, List.tail_nil]
    refine ⟨⟨hinv.heads, hinv.blocks_list, hinv.free_list, hinv.nodup, hinv.sub_blocks,
      hinv.apart, hinv.heads_out, ?_⟩, fun h0 => ?_⟩
    · intro r hr
      rcases List.mem_cons.1 hr with hr | hr
      · exact Or.inl hr
      · exact hinv.returned_ok r hr
    · exact (inv_sub_block_fresh P hP m fl bl blocks returned live [] hinv 0
        (hinv.sub_blocks 0 (List.mem_append_right _ h0))).1 rfl
  | cons x xs =>
    have hxs : fl ∉ xs := fun h => hf3 (List.mem_cons_of_mem _ h)
    obtain ⟨h1, h2, h3⟩ := pop_atomic_cons _ _ x xs hinv.free_list hxs
    have hx0 : x ≠ 0 := hinv.free_list.2.1
    have hnd := hinv.nodup
    rw [List.cons_append] at hnd
    rw [h1]
    simp only [if_neg hx0, List.tail_cons]
    refine ⟨⟨hinv.heads, ?_, h3, ?_, ?_, hinv.apart, hinv.heads_out, ?_⟩, ?_⟩
    · rw [h2]
      exact is_list_update _ _ _ _ _ hinv.blocks_list hf1
    · exact List.nodup_middle.2 hnd
    · intro y hy
      apply hinv.sub_blocks
      rcases List.mem_append.1 hy with hy | hy
      · exact List.mem_append_left _ (List.mem_cons_of_mem _ hy)
      · rcases List.mem_cons.1 hy with hy | hy
        · rw [hy]; exact List.mem_append_left _ (List.mem_cons_self _ _)
        · exact List.mem_append_right _ hy
    · intro r hr
      rcases List.mem_cons.1 hr with hr | hr
      · right; rw [hr]
        exact hinv.sub_blocks x (List.mem_append_left _ (List.mem_cons_self _ _))
      · exact hinv.returned_ok r hr
    · intro hmem
      exact (List.nodup_cons.1 hnd).1 (List.mem_append_right _ hmem)

/-- Linking a fresh block and pushing its sub-blocks keeps the invariant. -/
theorem inv_link (P : block_params) (hP : P.valid) (m : Nat → Nat) (fl bl : Nat)
    (blocks returned live : List Nat) (hinv : alloc_inv P m fl bl blocks returned live [])
    (blockptr : Nat)
    (hf : blockptr ≠ 0 ∧ (bl < blockptr ∨ blockptr + block_bytes P ≤ bl) ∧
      (fl < blockptr ∨ blockptr + block_bytes P ≤ fl) ∧
      ∀ b ∈ blocks, blockptr + block_bytes P ≤ b ∨ b + block_bytes P ≤ blockptr) :
    alloc_inv P
      (push_sub_blocks P fl (blockptr + k_memory_allocation_alignment P)
        ((P.BlockSize + 2 ^ 64 - 1) % 2 ^ 64) (push_atomic m bl blockptr))
      fl bl (blockptr :: blocks) returned live
      (sub_blocks_upto P (blockptr + P.alignof_Type) (P.BlockSize - 1)) := by
  obtain ⟨hf1, hf2, -⟩ := inv_heads_fresh P hP m fl bl blocks returned live [] hinv
  obtain ⟨hn0, hnb, hnf, hnblocks⟩ := hf
  have hbytes := block_bytes_pos P hP
  have hs := (valid_sub_block_size P hP).2.2
  rw [valid_loop_start P hP]
  unfold k_memory_allocation_alignment
  -- every pushed address is a sub-block of the new block
  have hsub : ∀ j, 1 ≤ j → j ≤ P.BlockSize - 1 →
      is_sub_block P blockptr (blockptr + P.alignof_Type + sub_block_size P * j) :=
    fun j h1 h2 => ⟨j, h1, by omega, rfl⟩
  have hin : ∀ j, 1 ≤ j → j ≤ P.BlockSize - 1 →
      blockptr < blockptr + P.alignof_Type + sub_block_size P * j ∧
      blockptr + P.alignof_Type + sub_block_size P * j < blockptr + block_bytes P :=
    fun j h1 h2 =>
      ⟨(sub_block_inside P hP _ _ (hsub j h1 h2)).1, (sub_block_inside P hP _ _ (hsub j h1 h2)).2.1⟩
  have hptr_blocks : blockptr ∉ blocks := fun h => by
    have := hnblocks _ h; omega
  have hptr_heads : blockptr ∉ bl :: blocks := fun h => by
    rcases List.mem_cons.1 h with h | h
    · omega
    · exact hptr_blocks h
  have hlist1 : is_list (push_atomic m bl blockptr)
      bl (blockptr :: blocks) :=
    is_list_push _ _ _ _ hinv.blocks_list hn0 hptr_heads hf2
  have hfree1 : is_list (push_atomic m bl blockptr)
      fl [] :=
    is_list_push_frame _ _ _ _ _ hinv.free_list
      (by simp only [List.mem_singleton]; omega)
      (by simp only [List.mem_singleton]; exact hinv.heads.2.2)
  have hB : is_list (push_sub_blocks P fl (blockptr + P.alignof_Type)
      (P.BlockSize - 1) (push_atomic m bl blockptr))
      bl (blockptr :: blocks) := by
    refine push_sub_blocks_frame P hP _ _ _ _ _ _ (by omega) hlist1 ?_ ?_
    · intro h
      rcases List.mem_cons.1 h with h | h
      · exact hinv.heads.2.2 h.symm
      · rcases List.mem_cons.1 h with h | h
        · omega
        · exact hf1 (List.mem_cons_of_mem _ h)
    · intro j h1 h2 h
      have := hin j h1 h2
      rcases List.mem_cons.1 h with h | h
      · omega
      · rcases List.mem_cons.1 h with h | h
        · omega
        · have := hnblocks _ h; omega
  have hF : is_list (push_sub_blocks P fl (blockptr + P.alignof_Type)
      (P.BlockSize - 1) (push_atomic m bl blockptr))
      fl (sub_blocks_upto P (blockptr + P.alignof_Type) (P.BlockSize - 1)) := by
    have := push_sub_blocks_list P hP fl (blockptr + P.alignof_Type)
      (P.BlockSize - 1) _ [] (by omega) hfree1 (List.not_mem_nil _) (fun j h1 h2 h => by
        have := hin j h1 h2
        simp only [List.mem_singleton] at h
        omega)
    simpa using this
  have hN : (sub_blocks_upto P (blockptr + P.alignof_Type) (P.BlockSize - 1) ++ live).Nodup := by
    refine List.Nodup.append (sub_blocks_upto_nodup P hs _ _) hinv.nodup ?_
    intro x hx hx'
    rw [mem_sub_blocks_upto] at hx
    obtain ⟨j, h1, h2, rfl⟩ := hx
    obtain ⟨b, hb, hbx⟩ := hinv.sub_blocks _ (List.mem_append_right _ hx')
    have h3 := sub_block_inside P hP b _ hbx
    have h4 := hin j h1 h2
    have := hnblocks b hb
    omega
  have hS : ∀ x ∈ sub_blocks_upto P (blockptr + P.alignof_Type) (P.BlockSize - 1) ++ live,
      ∃ b ∈ blockptr :: blocks, is_sub_block P b x := by
    intro x hx
    rcases List.mem_append.1 hx with hx | hx
    · rw [mem_sub_blocks_upto] at hx
      obtain ⟨j, h1, h2, rfl⟩ := hx
      exact ⟨blockptr, List.mem_cons_self _ _, hsub j h1 h2⟩
    · obtain ⟨b, hb, hbx⟩ := hinv.sub_blocks _ (List.mem_append_right _ hx)
      exact ⟨b, List.mem_cons_of_mem _ hb, hbx⟩
  have hA : ∀ b1 ∈ blockptr :: blocks, ∀ b2 ∈ blockptr :: blocks, b1 ≠ b2 →
      regions_apart P b1 b2 := by
    intro b1 hb1 b2 hb2 hne
    rcases List.mem_cons.1 hb1 with e1 | hb1 <;> rcases List.mem_cons.1 hb2 with e2 | hb2
    · exact absurd (e1.trans e2.symm) hne
    · rw [e1]; exact hnblocks b2 hb2
    · rw [e2]; exact (hnblocks b1 hb1).symm
    · exact hinv.apart b1 hb1 b2 hb2 hne
  have hO : ∀ b ∈ blockptr :: blocks,
      (bl < b ∨ b + block_bytes P ≤ bl) ∧
      (fl < b ∨ b + block_bytes P ≤ fl) := by
    intro b hb
    rcases List.mem_cons.1 hb with e | hb
    · rw [e]; exact ⟨hnb, hnf⟩
    · exact hinv.heads_out b hb
  have hR : ∀ r ∈ returned, r = 0 ∨ ∃ b ∈ blockptr :: blocks, is_sub_block P b r := by
    intro r hr
    rcases hinv.returned_ok r hr with h | ⟨b, hb, hbx⟩
    · exact Or.inl h
    · exact Or.inr ⟨b, List.mem_cons_of_mem _ hb, hbx⟩
  exact ⟨hinv.heads, hB, hF, hN, hS, hA, hO, hR⟩

/-- Freeing a live sub-block keeps the invariant. -/
theorem inv_free (P : block_params) (hP : P.valid) (m : Nat → Nat) (fl bl : Nat)
    (blocks returned live F : List Nat) (hinv : alloc_inv P m fl bl blocks returned live F)
    (element : Nat) (hl : element ∈ live) :
    alloc_inv P (push_atomic m fl element) fl bl blocks returned (live.erase element)
      (element :: F) := by
  obtain ⟨hf1, hf2, hf3⟩ := inv_heads_fresh P hP m fl bl blocks returned live F hinv
  have hsub := hinv.sub_blocks element (List.mem_append_right _ hl)
  obtain ⟨h0, hnf, hnb, hnbl⟩ :=
    inv_sub_block_fresh P hP m fl bl blocks returned live F hinv element hsub
  have hnd := hinv.nodup
  have hnotF : element ∉ F := fun h => (List.nodup_append.1 hnd).2.2 h hl
  have hlive : live.Nodup := (List.nodup_append.1 hnd).2.1
  refine ⟨hinv.heads, ?_, ?_, ?_, ?_, hinv.apart, hinv.heads_out, hinv.returned_ok⟩
  · refine is_list_push_frame _ _ _ _ _ hinv.blocks_list ?_ hf1
    intro h
    rcases List.mem_cons.1 h with h | h
    · exact hnb h
    · exact hnbl h
  · refine is_list_push _ _ _ _ hinv.free_list h0 ?_ hf3
    intro h
    rcases List.mem_cons.1 h with h | h
    · exact hnf h
    · exact hnotF h
  · rw [List.cons_append]
    refine List.nodup_cons.2 ⟨?_, ?_⟩
    · intro h
      rcases List.mem_append.1 h with h | h
      · exact hnotF h
      · exact (List.Nodup.mem_erase_iff hlive).1 h |>.1 rfl
    · refine List.Nodup.append (List.nodup_append.1 hnd).1 (hlive.erase _) ?_
      intro x hx hx'
      exact (List.nodup_append.1 hnd).2.2 hx (List.mem_of_mem_erase hx')
  · intro x hx
    rcases List.mem_append.1 hx with hx | hx
    · rcases List.mem_cons.1 hx with hx | hx
      · rw [hx]; exact hsub
      · exact hinv.sub_blocks x (List.mem_append_left _ hx)
    · exact hinv.sub_blocks x (List.mem_append_right _ (List.mem_of_mem_erase hx))

/-- A legal call keeps the invariant; the pointer `allocate` returns is not live. -/
theorem inv_step (P : block_params) (hP : P.valid) (s : alloc_run) (F : List Nat)
    (hinv : s.inv P F) (c : alloc_call) (hl : s.legal_call P c) :
    (∃ F', (s.step P c).inv P F') ∧
    ∀ blockptr, c = alloc_call.allocate blockptr → (allocate P s.self blockptr).2 ∉ s.live := by
  unfold alloc_run.inv at hinv
  cases c with
  | free element =>
    exact ⟨⟨_, inv_free P hP _ _ _ _ _ _ _ hinv element hl⟩, fun _ h => by cases h⟩
  | allocate blockptr =>
    obtain ⟨ha1, ha2⟩ := allocate_heads P s.self blockptr
    by_cases hempty : s.self.next s.self.m_freelist = 0
    · have hF : F = [] := by
        cases F with
        | nil => rfl
        | cons x xs =>
          have := hinv.free_list
          simp only [is_list] at this
          exact absurd (this.1.symm.trans hempty) this.2.1
      subst hF
      have hlink := inv_link P hP _ _ _ _ _ _ hinv blockptr (hl hempty)
      have hpop := inv_pop P hP _ _ _ _ _ _ _ hlink
      obtain ⟨hn1, hn2⟩ := allocate_empty P s.self blockptr hempty
      refine ⟨⟨(sub_blocks_upto P (blockptr + P.alignof_Type) (P.BlockSize - 1)).tail, ?_⟩,
        fun b hb => ?_⟩
      · show alloc_inv P (allocate P s.self blockptr).1.next
          (allocate P s.self blockptr).1.m_freelist (allocate P s.self blockptr).1.m_blocklist
          (if s.self.next s.self.m_freelist = 0 then blockptr :: s.blocks else s.blocks)
          ((allocate P s.self blockptr).2 :: s.returned)
          (if (allocate P s.self blockptr).2 = 0 then s.live
            else (allocate P s.self blockptr).2 :: s.live) _
        rw [ha1, ha2, hn1, hn2, if_pos hempty]
        exact hpop.1
      · cases hb
        rw [hn2]
        exact hpop.2
    · have hpop := inv_pop P hP _ _ _ _ _ _ _ hinv
      obtain ⟨hn1, hn2⟩ := allocate_nonempty P s.self blockptr hempty
      refine ⟨⟨F.tail, ?_⟩, fun b hb => ?_⟩
      · show alloc_inv P (allocate P s.self blockptr).1.next
          (allocate P s.self blockptr).1.m_freelist (allocate P s.self blockptr).1.m_blocklist
          (if s.self.next s.self.m_freelist = 0 then blockptr :: s.blocks else s.blocks)
          ((allocate P s.self blockptr).2 :: s.returned)
          (if (allocate P s.self blockptr).2 = 0 then s.live
            else (allocate P s.self blockptr).2 :: s.live) _
        rw [ha1, ha2, hn1, hn2, if_neg hempty]
        exact hpop.1
      · cases hb
        rw [hn2]
        exact hpop.2

theorem inv_fresh (P : block_params) (memory : Nat → Nat) (bl fl : Nat) (hh : heads_ok bl fl) :
    (alloc_run.fresh memory bl fl).inv P [] := by
  have hne : bl ≠ fl := hh.2.2
  refine ⟨hh, ?_, ?_, List.nodup_nil, ?_, ?_, ?_, ?_⟩
  · show Function.update (Function.update memory bl 0) fl 0 bl = 0
    rw [Function.update_noteq hne, Function.update_same]
  · show Function.update (Function.update memory bl 0) fl 0 fl = 0
    rw [Function.update_same]
  · intro x hx; simp [alloc_run.fresh] at hx
  · intro b hb; simp [alloc_run.fresh] at hb
  · intro b hb; simp [alloc_run.fresh] at hb
  · intro r hr; simp [alloc_run.fresh] at hr

theorem run_append (P : block_params) (s : alloc_run) (c1 c2 : List alloc_call) :
    s.run P (c1 ++ c2) = (s.run P c1).run P c2 := by
  simp [alloc_run.run, List.foldl_append]

theorem run_cons (P : block_params) (s : alloc_run) (c : alloc_call) (cs : List alloc_call) :
    s.run P (c :: cs) = (s.step P c).run P cs := rfl

theorem legal_append (P : block_params) (c1 c2 : List alloc_call) :
    ∀ s : alloc_run, alloc_run.legal P s (c1 ++ c2) ↔
      alloc_run.legal P s c1 ∧ alloc_run.legal P (s.run P c1) c2 := by
  induction c1 with
  | nil => intro s; simp [alloc_run.legal, alloc_run.run]
  | cons c cs ih =>
    intro s
    show (s.legal_call P c ∧ alloc_run.legal P (s.step P c) (cs ++ c2)) ↔
      (s.legal_call P c ∧ alloc_run.legal P (s.step P c) cs) ∧
        alloc_run.legal P ((s.step P c).run P cs) c2
    constructor
    · rintro ⟨h1, h2⟩
      obtain ⟨h3, h4⟩ := (ih _).1 h2
      exact ⟨⟨h1, h3⟩, h4⟩
    · rintro ⟨⟨h1, h3⟩, h4⟩
      exact ⟨h1, (ih _).2 ⟨h3, h4⟩⟩

theorem inv_run (P : block_params) (hP : P.valid) (calls : List alloc_call) :
    ∀ (s : alloc_run) (F : List Nat), s.inv P F → alloc_run.legal P s calls →
      ∃ F', (s.run P calls).inv P F' := by
  induction calls with
  | nil => intro s F h _; exact ⟨F, h⟩
  | cons c cs ih =>
    intro s F h hl
    obtain ⟨F1, h1⟩ := (inv_step P hP s F h c hl.1).1
    exact ih _ F1 h1 hl.2

theorem step_blocks (P : block_params) (s : alloc_run) (c : alloc_call) :
    ∃ newer, (s.step P c).blocks = newer ++ s.blocks := by
  cases c with
  | free element => exact ⟨[], rfl⟩
  | allocate blockptr =>
    by_cases h : s.self.next s.self.m_freelist = 0
    · exact ⟨[blockptr], by simp only [alloc_run.step, if_pos h]; rfl⟩
    · exact ⟨[], by simp only [alloc_run.step, if_neg h]; rfl⟩

theorem run_blocks (P : block_params) (calls : List alloc_call) :
    ∀ s : alloc_run, ∃ newer, (s.run P calls).blocks = newer ++ s.blocks := by
  induction calls with
  | nil => intro s; exact ⟨[], rfl⟩
  | cons c cs ih =>
    intro s
    obtain ⟨n1, h1⟩ := step_blocks P s c
    obtain ⟨n2, h2⟩ := ih (s.step P c)
    exact ⟨n2 ++ n1, by rw [run_cons, h2, h1, List.append_assoc]⟩

/-- The range and alignment test of `contains` for one block, as written there. -/
theorem block_test_iff (P : block_params) (hP : P.valid) (b p : Nat) :
    (p ≥ b + k_memory_allocation_alignment P ∧
      p < b + k_memory_allocation_alignment P + (sub_block_size P * P.BlockSize) % 2 ^ 64 ∧
      (p - (b + k_memory_allocation_alignment P)) % sub_block_size P = 0) ↔
    is_block_position P b p := by
  have hs := (valid_sub_block_size P hP).2.2
  have hw := (valid_mul_no_wrap P hP P.BlockSize le_rfl).1
  unfold k_memory_allocation_alignment is_block_position
  rw [hw]
  constructor
  · rintro ⟨h1, h2, h3⟩
    have hdm := Nat.div_add_mod (p - (b + P.alignof_Type)) (sub_block_size P)
    rw [h3, Nat.add_zero] at hdm
    refine ⟨(p - (b + P.alignof_Type)) / sub_block_size P, ?_, by omega⟩
    by_contra hk
    have : sub_block_size P * P.BlockSize ≤
        sub_block_size P * ((p - (b + P.alignof_Type)) / sub_block_size P) :=
      Nat.mul_le_mul_left _ (by omega)
    omega
  · rintro ⟨k, hk, rfl⟩
    have : sub_block_size P * k < sub_block_size P * P.BlockSize :=
      (Nat.mul_lt_mul_left (show 0 < sub_block_size P by omega)).2 hk
    refine ⟨by omega, by omega, ?_⟩
    rw [show b + P.alignof_Type + sub_block_size P * k - (b + P.alignof_Type) =
      sub_block_size P * k by omega]
    exact Nat.mul_mod_right _ _

/-- With more fuel than there are blocks, the loop of `contains` ends and answers
whether the pointer is a sub-block position of one of the blocks. -/
theorem contains_loop_spec (P : block_params) (hP : P.valid) (m : Nat → Nat) (p : Nat)
    (blocks : List Nat) :
    ∀ (head fuel : Nat), is_list m head blocks → blocks.length < fuel →
      (contains_loop P m p fuel (m head) = some true ↔ ∃ b ∈ blocks, is_block_position P b p) ∧
      (contains_loop P m p fuel (m head) = some false ↔
        ¬ ∃ b ∈ blocks, is_block_position P b p) := by
  induction blocks with
  | nil =>
    intro head fuel hl hf
    simp only [is_list] at hl
    obtain ⟨f, rfl⟩ : ∃ f, fuel = f + 1 := ⟨fuel - 1, by omega⟩
    simp [hl, contains_loop]
  | cons b bs ih =>
    intro head fuel hl hf
    simp only [is_list] at hl
    obtain ⟨h1, h2, h3⟩ := hl
    simp only [List.length_cons] at hf
    obtain ⟨f, rfl⟩ : ∃ f, fuel = f + 1 := ⟨fuel - 1, by omega⟩
    have ih0 := ih b f h3 (by omega)
    rw [h1]
    simp only [contains_loop, if_neg h2]
    by_cases ht : is_block_position P b p
    · rw [if_pos ((block_test_iff P hP b p).2 ht)]
      simp only [List.mem_cons, exists_eq_or_imp, ht, true_or, not_true_eq_false, iff_false,
        true_iff]
      exact ⟨trivial, by simp⟩
    · rw [if_neg (fun h => ht ((block_test_iff P hP b p).1 h))]
      simp only [List.mem_cons, exists_eq_or_imp, ht, false_or]
      exact ih0

end reshade

namespace reshade

/-! ### Statements about runs of the allocator -/

theorem is_sub_block_position (P : block_params) (b x : Nat) (h : is_sub_block P b x) :
    is_block_position P b x := by
  obtain ⟨i, _, h2, h3⟩ := h
  exact ⟨i, h2, h3⟩

theorem block_position_inside (P : block_params) (hP : P.valid) (b p : Nat)
    (h : is_block_position P b p) : b ≤ p ∧ p < b + block_bytes P := by
  obtain ⟨k, hk, rfl⟩ := h
  rw [valid_block_bytes P hP]
  have hs := (valid_sub_block_size P hP).2.2
  have : sub_block_size P * (k + 1) ≤ sub_block_size P * P.BlockSize :=
    Nat.mul_le_mul_left _ (by omega)
  rw [Nat.mul_succ] at this
  omega

/-- C5, counterexample. With `BlockSize = 4`, after a single `allocate` (which returns
1016) `contains` accepts 1024 and 1008, addresses that `allocate` never returned. -/
theorem contains_true_for_unreturned_address :
    alloc_run.legal (example_params 4) example_fresh [alloc_call.allocate 1000] ∧
    (example_fresh.run (example_params 4) [alloc_call.allocate 1000]).returned = [1016] ∧
    contains (example_params 4)
      (example_fresh.run (example_params 4) [alloc_call.allocate 1000]).self 1024 2 = some true ∧
    contains (example_params 4)
      (example_fresh.run (example_params 4) [alloc_call.allocate 1000]).self 1008 2 = some true := by
  decide

/-- C5, amended. In every state reached by a legal series of calls, `contains(p)` ends
and is true exactly when `p` is one of the `BlockSize` sub-block positions of a block
the allocator has obtained. Every non-null pointer returned by `allocate` is accepted,
and an address outside all of the allocator's blocks is rejected. -/
theorem contains_iff_block_position (P : block_params) (memory : Nat → Nat) (bl fl : Nat)
    (calls : List alloc_call) (p fuel : Nat) (hP : P.valid) (hh : heads_ok bl fl)
    (hl : alloc_run.legal P (alloc_run.fresh memory bl fl) calls)
    (hf : ((alloc_run.fresh memory bl fl).run P calls).blocks.length < fuel) :
    (contains P ((alloc_run.fresh memory bl fl).run P calls).self p fuel = some true ↔
      ∃ b ∈ ((alloc_run.fresh memory bl fl).run P calls).blocks, is_block_position P b p) ∧
    (contains P ((alloc_run.fresh memory bl fl).run P calls).self p fuel = some false ↔
      ¬ ∃ b ∈ ((alloc_run.fresh memory bl fl).run P calls).blocks, is_block_position P b p) ∧
    (∀ r ∈ ((alloc_run.fresh memory bl fl).run P calls).returned, r ≠ 0 →
      contains P ((alloc_run.fresh memory bl fl).run P calls).self r fuel = some true) ∧
    ((∀ b ∈ ((alloc_run.fresh memory bl fl).run P calls).blocks,
        p < b ∨ b + block_bytes P ≤ p) →
      contains P ((alloc_run.fresh memory bl fl).run P calls).self p fuel = some false) := by
  obtain ⟨F, hinv⟩ := inv_run P hP calls _ [] (inv_fresh P memory bl fl hh) hl
  generalize (alloc_run.fresh memory bl fl).run P calls = s at hinv hf ⊢
  have hspec := fun q => contains_loop_spec P hP s.self.next q s.blocks s.self.m_blocklist fuel
    hinv.blocks_list hf
  refine ⟨(hspec p).1, (hspec p).2, fun r hr hr0 => ?_, fun hout => ?_⟩
  · rcases hinv.returned_ok r hr with h | ⟨b, hb, hsub⟩
    · exact absurd h hr0
    · exact (hspec r).1.2 ⟨b, hb, is_sub_block_position P b r hsub⟩
  · refine (hspec p).2.2 ?_
    rintro ⟨b, hb, hpos⟩
    have := block_position_inside P hP b p hpos
    have := hout b hb
    omega

/-- An instance of `contains_iff_block_position`: `BlockSize = 4`, one `allocate`, one
`free` and another `allocate`. -/
theorem contains_iff_block_position_witness :
    (example_params 4).valid ∧ heads_ok 100 200 ∧
    alloc_run.legal (example_params 4) (alloc_run.fresh (fun _ => 0) 100 200)
      [alloc_call.allocate 1000, alloc_call.free 1016, alloc_call.allocate 0] ∧
    (contains (example_params 4) ((alloc_run.fresh (fun _ => 0) 100 200).run (example_params 4)
        [alloc_call.allocate 1000, alloc_call.free 1016, alloc_call.allocate 0]).self 1024 2 =
      some true ↔
      ∃ b ∈ ((alloc_run.fresh (fun _ => 0) 100 200).run (example_params 4)
        [alloc_call.allocate 1000, alloc_call.free 1016, alloc_call.allocate 0]).blocks,
        is_block_position (example_params 4) b 1024) :=
  ⟨by decide, by decide, by decide,
    (contains_iff_block_position (example_params 4) (fun _ => 0) 100 200
      [alloc_call.allocate 1000, alloc_call.free 1016, alloc_call.allocate 0] 1024 2
      (by decide) (by decide) (by decide) (by decide)).1⟩

/-- C6. In a series of calls in which `free` is only given live sub-blocks, the live
sub-blocks have pairwise different addresses, and the pointer that a further
`allocate` returns is not live. -/
theorem live_sub_blocks_distinct (P : block_params) (memory : Nat → Nat) (bl fl : Nat)
    (calls : List alloc_call) (hP : P.valid) (hh : heads_ok bl fl)
    (hl : alloc_run.legal P (alloc_run.fresh memory bl fl) calls) :
    ((alloc_run.fresh memory bl fl).run P calls).live.Nodup ∧
    ∀ blockptr,
      ((alloc_run.fresh memory bl fl).run P calls).legal_call P (alloc_call.allocate blockptr) →
      (allocate P ((alloc_run.fresh memory bl fl).run P calls).self blockptr).2 ∉
        ((alloc_run.fresh memory bl fl).run P calls).live := by
  obtain ⟨F, hinv⟩ := inv_run P hP calls _ [] (inv_fresh P memory bl fl hh) hl
  refine ⟨(List.nodup_append.1 hinv.nodup).2.1, fun blockptr hc => ?_⟩
  exact (inv_step P hP _ F hinv _ hc).2 blockptr rfl

/-- An instance of `live_sub_blocks_distinct`: two allocations, then the first
sub-block is freed. -/
theorem live_sub_blocks_distinct_witness :
    (example_params 4).valid ∧ heads_ok 100 200 ∧
    alloc_run.legal (example_params 4) (alloc_run.fresh (fun _ => 0) 100 200)
      [alloc_call.allocate 1000, alloc_call.allocate 0, alloc_call.free 1016] ∧
    ((alloc_run.fresh (fun _ => 0) 100 200).run (example_params 4)
      [alloc_call.allocate 1000, alloc_call.allocate 0, alloc_call.free 1016]).live.Nodup :=
  ⟨by decide, by decide, by decide,
    (live_sub_blocks_distinct (example_params 4) (fun _ => 0) 100 200
      [alloc_call.allocate 1000, alloc_call.allocate 0, alloc_call.free 1016]
      (by decide) (by decide) (by decide)).1⟩

/-- The first half of C7, which the code satisfies: an `allocate` that directly follows
`free(p)` of a non-null `p` returns `p`. -/
theorem allocate_after_free (P : block_params) (self : block_allocator) (p blockptr : Nat)
    (hp : p ≠ 0) : (allocate P (free self p) blockptr).2 = p := by
  have hhead : (free self p).next (free self p).m_freelist = p := by
    show push_atomic self.next self.m_freelist p self.m_freelist = p
    unfold push_atomic
    exact Function.update_same _ _ _
  have hne : (free self p).next (free self p).m_freelist ≠ 0 := by rw [hhead]; exact hp
  rw [(allocate_nonempty P (free self p) blockptr hne).2]
  simp only [pop_atomic, if_neg hne]
  exact hhead

/-- C7, evaluation. With `BlockSize = 2` the second of two `allocate` calls links a
second block (at 2000) although sub-block 0 of the first block, the address 1008 that
`contains` accepts, has never been returned: the loop of `allocate` stops before
index 0, so that sub-block is never put on the free list. -/
theorem second_allocate_skips_sub_block_zero :
    alloc_run.legal (example_params 2) example_fresh
      [alloc_call.allocate 1000, alloc_call.allocate 2000] ∧
    (example_fresh.run (example_params 2)
      [alloc_call.allocate 1000, alloc_call.allocate 2000]).returned = [2016, 1016] ∧
    (example_fresh.run (example_params 2)
      [alloc_call.allocate 1000, alloc_call.allocate 2000]).blocks = [2000, 1000] ∧
    contains (example_params 2) (example_fresh.run (example_params 2)
      [alloc_call.allocate 1000, alloc_call.allocate 2000]).self 1008 3 = some true := by
  decide

/-- C8, evaluation. With `BlockSize = 1` the first `allocate` links a block and returns
`nullptr` (the value that `assert(element)` rejects), and with `BlockSize = 4` the
fourth `allocate`, not the fifth, links the second block: a block supplies
`BlockSize - 1` sub-blocks. -/
theorem block_supplies_one_sub_block_less :
    (example_fresh.run (example_params 1) [alloc_call.allocate 1000]).returned = [0] ∧
    (example_fresh.run (example_params 1) [alloc_call.allocate 1000]).blocks = [1000] ∧
    (example_fresh.run (example_params 4) [alloc_call.allocate 1000, alloc_call.allocate 2000,
      alloc_call.allocate 3000, alloc_call.allocate 4000]).returned = [4016, 1032, 1024, 1016] ∧
    (example_fresh.run (example_params 4) [alloc_call.allocate 1000, alloc_call.allocate 2000,
      alloc_call.allocate 3000, alloc_call.allocate 4000]).blocks = [4000, 1000] := by
  decide

/-- C9. For `sizeof(Type) >= 1` and a positive alignment (in particular a power of two)
whose sum fits `size_t`, the sub-block size is at least `sizeof(Type)`, a multiple of
the alignment and less than `sizeof(Type)` plus the alignment. When the size of a
block does not wrap around, it is `sub_block_size * BlockSize + alignment`, and for
every index `i < BlockSize` the bytes of sub-block `i` lie inside the block and do not
overlap those of a sub-block with another index. -/
theorem sub_block_geometry (P : block_params) (h1 : 1 ≤ P.sizeof_Type) (ha : 1 ≤ P.alignof_Type)
    (hfit : P.sizeof_Type + P.alignof_Type ≤ 2 ^ 64) :
    sub_block_size P = ((P.sizeof_Type - 1) / P.alignof_Type + 1) * P.alignof_Type ∧
    P.sizeof_Type ≤ sub_block_size P ∧
    sub_block_size P % P.alignof_Type = 0 ∧
    sub_block_size P < P.sizeof_Type + P.alignof_Type ∧
    (sub_block_size P * P.BlockSize + P.alignof_Type < 2 ^ 64 →
      block_bytes P = sub_block_size P * P.BlockSize + P.alignof_Type ∧
      ∀ i, i < P.BlockSize →
        P.alignof_Type + sub_block_size P * i + P.sizeof_Type ≤ block_bytes P ∧
        ∀ j, j < P.BlockSize → j ≠ i →
          P.alignof_Type + sub_block_size P * i + P.sizeof_Type ≤
            P.alignof_Type + sub_block_size P * j ∨
          P.alignof_Type + sub_block_size P * j + P.sizeof_Type ≤
            P.alignof_Type + sub_block_size P * i) := by
  have hdm := Nat.div_add_mod (P.sizeof_Type - 1) P.alignof_Type
  have hml := Nat.mod_lt (P.sizeof_Type - 1) (show P.alignof_Type > 0 by omega)
  have hexp : ((P.sizeof_Type - 1) / P.alignof_Type + 1) * P.alignof_Type =
      P.alignof_Type * ((P.sizeof_Type - 1) / P.alignof_Type) + P.alignof_Type := by
    rw [Nat.add_mul, Nat.one_mul, Nat.mul_comm]
  have hs : sub_block_size P = ((P.sizeof_Type - 1) / P.alignof_Type + 1) * P.alignof_Type := by
    unfold sub_block_size k_memory_allocation_alignment
    exact Nat.mod_eq_of_lt (by omega)
  have hge : P.sizeof_Type ≤ sub_block_size P := by omega
  refine ⟨hs, hge, ?_, by omega, fun hb => ?_⟩
  · rw [hs]; exact Nat.mul_mod_left _ _
  · have hbytes : block_bytes P = sub_block_size P * P.BlockSize + P.alignof_Type := by
      unfold block_bytes k_memory_allocation_alignment
      rw [Nat.mod_eq_of_lt (show sub_block_size P * P.BlockSize < 2 ^ 64 by omega)]
      exact Nat.mod_eq_of_lt hb
    refine ⟨hbytes, fun i hi => ⟨?_, fun j hj hji => ?_⟩⟩
    · have : sub_block_size P * (i + 1) ≤ sub_block_size P * P.BlockSize :=
        Nat.mul_le_mul_left _ (by omega)
      rw [Nat.mul_succ] at this
      omega
    · rcases Nat.lt_or_gt_of_ne hji with h | h
      · right
        have : sub_block_size P * (j + 1) ≤ sub_block_size P * i :=
          Nat.mul_le_mul_left _ (by omega)
        rw [Nat.mul_succ] at this
        omega
      · left
        have : sub_block_size P * (i + 1) ≤ sub_block_size P * j :=
          Nat.mul_le_mul_left _ (by omega)
        rw [Nat.mul_succ] at this
        omega

/-- An instance of `sub_block_geometry`: a 20-byte type with 8-byte alignment has
24-byte sub-blocks. -/
theorem sub_block_geometry_witness :
    (1 ≤ 20 ∧ 1 ≤ 8 ∧ 20 + 8 ≤ 2 ^ 64) ∧
    sub_block_size ⟨20, 8, 64⟩ = ((20 - 1) / 8 + 1) * 8 ∧
    20 ≤ sub_block_size ⟨20, 8, 64⟩ ∧
    sub_block_size ⟨20, 8, 64⟩ % 8 = 0 ∧
    sub_block_size ⟨20, 8, 64⟩ < 20 + 8 :=
  ⟨by decide,
    (sub_block_geometry ⟨20, 8, 64⟩ (by decide) (by decide) (by decide)).1,
    (sub_block_geometry ⟨20, 8, 64⟩ (by decide) (by decide) (by decide)).2.1,
    (sub_block_geometry ⟨20, 8, 64⟩ (by decide) (by decide) (by decide)).2.2.1,
    (sub_block_geometry ⟨20, 8, 64⟩ (by decide) (by decide) (by decide)).2.2.2.1⟩

/-- C10. Later calls only add blocks in front of the block list: the blocks present
after `calls` are still linked, in the same order, after `calls ++ later`, and a
pointer that `contains` accepted after `calls` is still accepted after `later`. -/
theorem blocks_never_unlinked (P : block_params) (memory : Nat → Nat) (bl fl : Nat)
    (calls later : List alloc_call) (p fuel : Nat) (hP : P.valid) (hh : heads_ok bl fl)
    (hl : alloc_run.legal P (alloc_run.fresh memory bl fl) (calls ++ later))
    (hf : ((alloc_run.fresh memory bl fl).run P (calls ++ later)).blocks.length < fuel) :
    is_list ((alloc_run.fresh memory bl fl).run P calls).self.next
      ((alloc_run.fresh memory bl fl).run P calls).self.m_blocklist
      ((alloc_run.fresh memory bl fl).run P calls).blocks ∧
    (∃ newer,
      ((alloc_run.fresh memory bl fl).run P (calls ++ later)).blocks =
        newer ++ ((alloc_run.fresh memory bl fl).run P calls).blocks ∧
      is_list ((alloc_run.fresh memory bl fl).run P (calls ++ later)).self.next
        ((alloc_run.fresh memory bl fl).run P (calls ++ later)).self.m_blocklist
        (newer ++ ((alloc_run.fresh memory bl fl).run P calls).blocks)) ∧
    (contains P ((alloc_run.fresh memory bl fl).run P calls).self p fuel = some true →
      contains P ((alloc_run.fresh memory bl fl).run P (calls ++ later)).self p fuel =
        some true) := by
  obtain ⟨hl1, hl2⟩ := (legal_append P calls later _).1 hl
  obtain ⟨F1, hinv1⟩ := inv_run P hP calls _ [] (inv_fresh P memory bl fl hh) hl1
  obtain ⟨F2, hinv2⟩ := inv_run P hP later _ F1 hinv1 hl2
  obtain ⟨newer, hnewer⟩ := run_blocks P later ((alloc_run.fresh memory bl fl).run P calls)
  rw [run_append] at hf ⊢
  generalize (alloc_run.fresh memory bl fl).run P calls = s1 at hinv1 hinv2 hnewer hf hl2 ⊢
  generalize s1.run P later = s2 at hinv2 hnewer hf ⊢
  have hlen : s1.blocks.length < fuel := by
    rw [hnewer, List.length_append] at hf; omega
  refine ⟨hinv1.blocks_list, ⟨newer, hnewer, by rw [← hnewer]; exact hinv2.blocks_list⟩, ?_⟩
  intro hc
  obtain ⟨b, hb, hpos⟩ := (contains_loop_spec P hP s1.self.next p s1.blocks
    s1.self.m_blocklist fuel hinv1.blocks_list hlen).1.1 hc
  refine (contains_loop_spec P hP s2.self.next p s2.blocks
    s2.self.m_blocklist fuel hinv2.blocks_list hf).1.2 ⟨b, ?_, hpos⟩
  rw [hnewer]
  exact List.mem_append_right _ hb

/-- An instance of `blocks_never_unlinked`: with `BlockSize = 2`, one allocation
followed by a `free` and two further allocations, the last of which links a block. -/
theorem blocks_never_unlinked_witness :
    (example_params 2).valid ∧ heads_ok 100 200 ∧
    alloc_run.legal (example_params 2) (alloc_run.fresh (fun _ => 0) 100 200)
      ([alloc_call.allocate 1000] ++
        [alloc_call.free 1016, alloc_call.allocate 0, alloc_call.allocate 2000]) ∧
    (contains (example_params 2) ((alloc_run.fresh (fun _ => 0) 100 200).run (example_params 2)
        [alloc_call.allocate 1000]).self 1016 3 = some true →
      contains (example_params 2) ((alloc_run.fresh (fun _ => 0) 100 200).run (example_params 2)
        ([alloc_call.allocate 1000] ++
          [alloc_call.free 1016, alloc_call.allocate 0, alloc_call.allocate 2000])).self 1016 3 =
        some true) :=
  ⟨by decide, by decide, by decide,
    (blocks_never_unlinked (example_params 2) (fun _ => 0) 100 200 [alloc_call.allocate 1000]
      [alloc_call.free 1016, alloc_call.allocate 0, alloc_call.allocate 2000] 1016 3
      (by decide) (by decide) (by decide) (by decide)).2.2⟩

end reshade

namespace reshade

/-! ## The loops of the binding commands in closed form -/

theorem foldl_call (g : Nat → native_call) (l : List Nat) (t : translator) :
    l.foldl (fun acc i => acc.call (g i)) t =
      { t with orig_calls := t.orig_calls ++ l.map g } := by
  induction l generalizing t with
  | nil => cases t; simp
  | cons a l ih => rw [List.foldl_cons, ih]; cases t; simp [translator.call]

theorem generate_mipmaps_dispatch_fold (D : device_impl) (resource : Nat)
    (desc : D3D12_RESOURCE_DESC) (base_handle_gpu : Nat) (l : List Nat) (t : translator) :
    l.foldl (generate_mipmaps_dispatch_iteration D resource desc base_handle_gpu) t =
      { t with orig_calls := t.orig_calls ++ l.flatMap fun level =>
          [native_call.SetComputeRoot32BitConstants 0 2
            (root_constants.inverse_dimensions (mip_extent desc.Width level)
              (mip_extent desc.Height level)) 0,
           native_call.SetComputeRootDescriptorTable 1
            (D.offset_descriptor_handle base_handle_gpu ((level - 1) % 2 ^ 32)
              D3D12_DESCRIPTOR_HEAP_TYPE_CBV_SRV_UAV),
           native_call.SetComputeRootDescriptorTable 2
            (D.offset_descriptor_handle base_handle_gpu ((desc.MipLevels + level - 1) % 2 ^ 32)
              D3D12_DESCRIPTOR_HEAP_TYPE_CBV_SRV_UAV),
           native_call.Dispatch (mip_thread_groups (mip_extent desc.Width level))
            (mip_thread_groups (mip_extent desc.Height level)) 1,
           native_call.ResourceBarrier 1 [mip_uav_barrier resource]] } := by
  induction l generalizing t with
  | nil => cases t; simp
  | cons a l ih =>
    rw [List.foldl_cons, ih]
    cases t
    simp [generate_mipmaps_dispatch_iteration, translator.call]

theorem generate_mipmaps_srv_fold (D : device_impl) (resource : Nat) (desc : D3D12_RESOURCE_DESC)
    (n : Nat) (t : translator) (b : Nat) :
    (List.range n).foldl (generate_mipmaps_srv_iteration D resource desc) (t, b) =
      ({ t with device_calls := t.device_calls ++ (List.range n).map (fun l =>
          device_call.CreateShaderResourceView resource (mip_view_format D desc) l
            (b + l * D._descriptor_handle_size D3D12_DESCRIPTOR_HEAP_TYPE_CBV_SRV_UAV)) },
        b + n * D._descriptor_handle_size D3D12_DESCRIPTOR_HEAP_TYPE_CBV_SRV_UAV) := by
  induction n with
  | zero => cases t; simp
  | succ n ih =>
    rw [List.range_succ, List.foldl_append, ih]
    cases t
    simp [generate_mipmaps_srv_iteration, translator.device, device_impl.offset_descriptor_handle,
      Nat.succ_mul, Nat.add_assoc]

theorem generate_mipmaps_uav_fold (D : device_impl) (resource : Nat) (desc : D3D12_RESOURCE_DESC)
    (m : Nat) (t : translator) (b : Nat) :
    (List.range' 1 m).foldl (generate_mipmaps_uav_iteration D resource desc) (t, b) =
      ({ t with device_calls := t.device_calls ++ (List.range' 1 m).map (fun l =>
          device_call.CreateUnorderedAccessView resource (some (mip_view_format D desc, l))
            (b + (l - 1) * D._descriptor_handle_size D3D12_DESCRIPTOR_HEAP_TYPE_CBV_SRV_UAV)) },
        b + m * D._descriptor_handle_size D3D12_DESCRIPTOR_HEAP_TYPE_CBV_SRV_UAV) := by
  induction m with
  | zero => cases t; simp
  | succ m ih =>
    rw [List.range'_concat, List.foldl_append, ih]
    cases t
    simp [generate_mipmaps_uav_iteration, translator.device, device_impl.offset_descriptor_handle,
      Nat.succ_mul, Nat.add_assoc]

theorem push_descriptors_cbv_fold (D : device_impl) (update : descriptor_set_update)
    (n : Nat) (t : translator) (b : Nat) :
    (List.range n).foldl (push_descriptors_cbv_iteration D update) (t, b) =
      ({ t with device_calls := t.device_calls ++ (List.range n).map (fun k =>
          device_call.CreateConstantBufferView
            ((D.GetGPUVirtualAddress (update.descriptors_ranges k).buffer +
              (update.descriptors_ranges k).offset) % 2 ^ 64)
            (if (update.descriptors_ranges k).size = UINT64_MAX then
              (D.resource_GetDesc (update.descriptors_ranges k).buffer).Width % 2 ^ 32
             else (update.descriptors_ranges k).size % 2 ^ 32)
            (b + k * D._descriptor_handle_size D3D12_DESCRIPTOR_HEAP_TYPE_CBV_SRV_UAV)) },
        b + n * D._descriptor_handle_size D3D12_DESCRIPTOR_HEAP_TYPE_CBV_SRV_UAV) := by
  induction n with
  | zero => cases t; simp
  | succ n ih =>
    rw [List.range_succ, List.foldl_append, ih]
    cases t
    simp [push_descriptors_cbv_iteration, translator.device, device_impl.offset_descriptor_handle,
      Nat.succ_mul, Nat.add_assoc]

theorem push_descriptors_write_eq (E : api_values) (D : device_impl)
    (update : descriptor_set_update) (t : translator) (b : Nat) :
    push_descriptors_write E D update t b =
      { t with device_calls := t.device_calls ++
          (if update.type = E.descriptor_type_constant_buffer then
            (List.range update.count).map (fun k =>
              device_call.CreateConstantBufferView
                ((D.GetGPUVirtualAddress (update.descriptors_ranges k).buffer +
                  (update.descriptors_ranges k).offset) % 2 ^ 64)
                (if (update.descriptors_ranges k).size = UINT64_MAX then
                  (D.resource_GetDesc (update.descriptors_ranges k).buffer).Width % 2 ^ 32
                 else (update.descriptors_ranges k).size % 2 ^ 32)
                (b + k * D._descriptor_handle_size D3D12_DESCRIPTOR_HEAP_TYPE_CBV_SRV_UAV))
           else if update.type = E.descriptor_type_sampler ∨
              update.type = E.descriptor_type_shader_resource_view ∨
              update.type = E.descriptor_type_unordered_access_view then
            [device_call.CopyDescriptors [b] [update.count]
              ((List.range update.count).map update.descriptors_handles)
              (List.replicate update.count 1)
              (D.convert_descriptor_type_to_heap_type update.type)]
           else []) } := by
  unfold push_descriptors_write
  rw [push_descriptors_cbv_fold]
  cases t
  split
  · rfl
  · split
    · rfl
    · simp

theorem push_constants_rebind (E : api_values) (t : translator)
    (stages layout layout_param first count values : Nat) :
    root_signature_rebind E stages layout t
      (push_constants E t stages layout layout_param first count values) := by
  rcases t with ⟨hc, oc, ⟨g, cc⟩, dh, dc, tr⟩
  by_cases h1 : stages &&& E.shader_stage_all_compute = 0 <;>
  by_cases h2 : stages &&& E.shader_stage_all_graphics = 0 <;>
  by_cases h3 : cc = layout <;> by_cases h4 : g = layout <;>
  simp [root_signature_rebind, issued, push_constants, translator.set_compute_root_signature,
    translator.set_graphics_root_signature, translator.call, h1, h2, h3, h4]

theorem push_descriptors_rebind (E : api_values) (D : device_impl) (a : Nat × Nat)
    (t : translator) (stages layout layout_param : Nat) (update : descriptor_set_update) :
    root_signature_rebind E stages layout t
      (push_descriptors E D (some a) t stages layout layout_param update) := by
  rcases t with ⟨hc, oc, ⟨g, cc⟩, ⟨d0, d1⟩, dc, tr⟩
  rcases a with ⟨b, bg⟩
  by_cases h0 : d0 ≠ D._gpu_sampler_heap ∨ d1 ≠ D._gpu_view_heap <;>
  by_cases h1 : stages &&& E.shader_stage_all_compute = 0 <;>
  by_cases h2 : stages &&& E.shader_stage_all_graphics = 0 <;>
  by_cases h3 : cc = layout <;> by_cases h4 : g = layout <;>
  simp [root_signature_rebind, issued, push_descriptors, push_descriptors_write_eq,
    translator.request, translator.set_compute_root_signature,
    translator.set_graphics_root_signature, translator.call, h0, h1, h2, h3, h4]

theorem bind_descriptor_sets_rebind (E : api_values) (D : device_impl) (t : translator)
    (stages layout first count : Nat) (sets : Nat → Nat) (hcount : 0 < count) :
    root_signature_rebind E stages layout t
      (bind_descriptor_sets E D t stages layout first count sets) := by
  rcases t with ⟨hc, oc, ⟨g, cc⟩, ⟨d0, d1⟩, dc, tr⟩
  have hc0 : count ≠ 0 := by omega
  unfold bind_descriptor_sets
  rw [if_neg hc0]
  simp only [foldl_call]
  generalize (List.range count).foldl (bind_descriptor_sets_heap D sets)
    (translator.mk hc oc (g, cc) (d0, d1) dc tr)._current_descriptor_heaps = heaps
  by_cases h0 : d0 ≠ heaps.1 ∨ d1 ≠ heaps.2 <;>
  by_cases h1 : stages &&& E.shader_stage_all_compute = 0 <;>
  by_cases h2 : stages &&& E.shader_stage_all_graphics = 0 <;>
  by_cases h3 : cc = layout <;> by_cases h4 : g = layout <;>
  simp [root_signature_rebind, issued, translator.set_compute_root_signature,
    translator.set_graphics_root_signature, translator.call, h0, h1, h2, h3, h4]

theorem rebind_repeat (E : api_values) (stages layout : Nat) (t1 t2 t3 : translator)
    (h12 : root_signature_rebind E stages layout t1 t2)
    (h23 : root_signature_rebind E stages layout t2 t3) :
    ∀ c ∈ issued t2 t3, sets_root_signature c = false := by
  intro c hc
  obtain ⟨_, _, c2, c1⟩ := h12
  obtain ⟨hcomp, hgfx, _, _⟩ := h23
  cases c <;> try rfl
  · rename_i r
    obtain ⟨_, hs, hne⟩ := (hcomp r).1 hc
    rw [c2, if_pos hs] at hne
    exact absurd rfl hne
  · rename_i r
    obtain ⟨_, hs, hne⟩ := (hgfx r).1 hc
    rw [c1, if_pos hs] at hne
    exact absurd rfl hne

/-! ## The flag and the request log do not influence the translation -/

theorem same_bound_iff (t1 t2 : translator) : same_bound t1 t2 ↔ t1.bound = t2.bound := by
  cases t1; cases t2
  simp [same_bound, translator.bound]
  tauto

theorem push_constants_bound (E : api_values) (t : translator)
    (stages layout layout_param first count values : Nat) :
    (push_constants E t stages layout layout_param first count values).bound =
      (push_constants E t.bound stages layout layout_param first count values).bound := by
  rcases t with ⟨hc, oc, ⟨g, cc⟩, dh, dc, tr⟩
  by_cases h1 : stages &&& E.shader_stage_all_compute = 0 <;>
  by_cases h2 : stages &&& E.shader_stage_all_graphics = 0 <;>
  by_cases h3 : cc = layout <;> by_cases h4 : g = layout <;>
  simp [translator.bound, push_constants, translator.set_compute_root_signature,
    translator.set_graphics_root_signature, translator.call, h1, h2, h3, h4]

theorem push_descriptors_bound (E : api_values) (D : device_impl) (alloc : Option (Nat × Nat))
    (t : translator) (stages layout layout_param : Nat) (update : descriptor_set_update) :
    (push_descriptors E D alloc t stages layout layout_param update).bound =
      (push_descriptors E D alloc t.bound stages layout layout_param update).bound := by
  rcases t with ⟨hc, oc, ⟨g, cc⟩, ⟨d0, d1⟩, dc, tr⟩
  rcases alloc with _ | ⟨b, bg⟩
  · simp [translator.bound, push_descriptors, translator.request]
  · by_cases h0 : d0 ≠ D._gpu_sampler_heap ∨ d1 ≠ D._gpu_view_heap <;>
    by_cases h1 : stages &&& E.shader_stage_all_compute = 0 <;>
    by_cases h2 : stages &&& E.shader_stage_all_graphics = 0 <;>
    by_cases h3 : cc = layout <;> by_cases h4 : g = layout <;>
    simp [translator.bound, push_descriptors, push_descriptors_write_eq,
      translator.request, translator.set_compute_root_signature,
      translator.set_graphics_root_signature, translator.call, h0, h1, h2, h3, h4]

theorem bind_descriptor_sets_bound (E : api_values) (D : device_impl) (t : translator)
    (stages layout first count : Nat) (sets : Nat → Nat) :
    (bind_descriptor_sets E D t stages layout first count sets).bound =
      (bind_descriptor_sets E D t.bound stages layout first count sets).bound := by
  rcases t with ⟨hc, oc, ⟨g, cc⟩, ⟨d0, d1⟩, dc, tr⟩
  unfold bind_descriptor_sets
  by_cases hc0 : count = 0
  · rw [if_pos hc0, if_pos hc0]
    simp [translator.bound]
  rw [if_neg hc0, if_neg hc0]
  dsimp only [translator.bound]
  generalize (List.range count).foldl (bind_descriptor_sets_heap D sets) (d0, d1) = heaps
  simp only [foldl_call]
  by_cases h0 : d0 ≠ heaps.1 ∨ d1 ≠ heaps.2 <;>
  by_cases h1 : stages &&& E.shader_stage_all_compute = 0 <;>
  by_cases h2 : stages &&& E.shader_stage_all_graphics = 0 <;>
  by_cases h3 : cc = layout <;> by_cases h4 : g = layout <;>
  simp [translator.set_compute_root_signature,
    translator.set_graphics_root_signature, translator.call, h0, h1, h2, h3, h4]

theorem set_view_heap_eq (t : translator) (view_heap : Nat) :
    t.set_view_heap view_heap =
      { t with orig_calls := t.orig_calls ++
          (if t._current_descriptor_heaps.1 ≠ view_heap ∧ t._current_descriptor_heaps.2 ≠ view_heap
            then [native_call.SetDescriptorHeaps 1 [view_heap]] else []) } := by
  cases t
  unfold translator.set_view_heap
  split <;> simp [translator.call]

theorem reset_descriptor_heaps_eq (t : translator) (view_heap : Nat) :
    t.reset_descriptor_heaps view_heap =
      { t with orig_calls := t.orig_calls ++
          (if t._current_descriptor_heaps.1 ≠ view_heap ∧
              t._current_descriptor_heaps.2 ≠ view_heap ∧ t._current_descriptor_heaps.1 ≠ 0
            then [native_call.SetDescriptorHeaps
              (if t._current_descriptor_heaps.2 ≠ 0 then 2 else 1)
              ([t._current_descriptor_heaps.1, t._current_descriptor_heaps.2].take
                (if t._current_descriptor_heaps.2 ≠ 0 then 2 else 1))]
            else []) } := by
  cases t
  unfold translator.reset_descriptor_heaps
  split <;> simp [translator.call]

theorem clear_unordered_access_view_uint_eq (D : device_impl) (a : Nat × Nat)
    (t : translator) (uav values rect_count rects : Nat) :
    clear_unordered_access_view_uint D (some a) t uav values rect_count rects =
      { _has_commands := true
        orig_calls := t.orig_calls ++
          (if t._current_descriptor_heaps.1 ≠ D._gpu_view_heap ∧
              t._current_descriptor_heaps.2 ≠ D._gpu_view_heap
            then [native_call.SetDescriptorHeaps 1 [D._gpu_view_heap]] else []) ++
          [native_call.ClearUnorderedAccessViewUint a.2 uav (D.get_resource_from_view uav) values
            rect_count rects] ++
          (if t._current_descriptor_heaps.1 ≠ D._gpu_view_heap ∧
              t._current_descriptor_heaps.2 ≠ D._gpu_view_heap ∧ t._current_descriptor_heaps.1 ≠ 0
            then [native_call.SetDescriptorHeaps
              (if t._current_descriptor_heaps.2 ≠ 0 then 2 else 1)
              ([t._current_descriptor_heaps.1, t._current_descriptor_heaps.2].take
                (if t._current_descriptor_heaps.2 ≠ 0 then 2 else 1))]
            else [])
        _current_root_signature := t._current_root_signature
        _current_descriptor_heaps := t._current_descriptor_heaps
        device_calls := t.device_calls ++
          [device_call.CreateUnorderedAccessView (D.get_resource_from_view uav) none a.1]
        transient_requests := t.transient_requests ++ [(D._gpu_view_heap, 1)] } := by
  cases t
  simp [clear_unordered_access_view_uint, set_view_heap_eq, reset_descriptor_heaps_eq,
    translator.request, translator.call, translator.device]

theorem clear_unordered_access_view_float_eq (D : device_impl) (a : Nat × Nat)
    (t : translator) (uav values rect_count rects : Nat) :
    clear_unordered_access_view_float D (some a) t uav values rect_count rects =
      { _has_commands := true
        orig_calls := t.orig_calls ++
          (if t._current_descriptor_heaps.1 ≠ D._gpu_view_heap ∧
              t._current_descriptor_heaps.2 ≠ D._gpu_view_heap
            then [native_call.SetDescriptorHeaps 1 [D._gpu_view_heap]] else []) ++
          [native_call.ClearUnorderedAccessViewFloat a.2 uav (D.get_resource_from_view uav) values
            rect_count rects] ++
          (if t._current_descriptor_heaps.1 ≠ D._gpu_view_heap ∧
              t._current_descriptor_heaps.2 ≠ D._gpu_view_heap ∧ t._current_descriptor_heaps.1 ≠ 0
            then [native_call.SetDescriptorHeaps
              (if t._current_descriptor_heaps.2 ≠ 0 then 2 else 1)
              ([t._current_descriptor_heaps.1, t._current_descriptor_heaps.2].take
                (if t._current_descriptor_heaps.2 ≠ 0 then 2 else 1))]
            else [])
        _current_root_signature := t._current_root_signature
        _current_descriptor_heaps := t._current_descriptor_heaps
        device_calls := t.device_calls ++
          [device_call.CreateUnorderedAccessView (D.get_resource_from_view uav) none a.1]
        transient_requests := t.transient_requests ++ [(D._gpu_view_heap, 1)] } := by
  cases t
  simp [clear_unordered_access_view_float, set_view_heap_eq, reset_descriptor_heaps_eq,
    translator.request, translator.call, translator.device]

theorem clear_unordered_access_view_uint_bound (D : device_impl) (alloc : Option (Nat × Nat))
    (t : translator) (uav values rect_count rects : Nat) :
    (clear_unordered_access_view_uint D alloc t uav values rect_count rects).bound =
      (clear_unordered_access_view_uint D alloc t.bound uav values rect_count rects).bound := by
  rcases alloc with _ | a
  · cases t
    simp [translator.bound, clear_unordered_access_view_uint, translator.request]
  · rw [clear_unordered_access_view_uint_eq, clear_unordered_access_view_uint_eq]
    cases t
    simp [translator.bound]

theorem clear_unordered_access_view_float_bound (D : device_impl) (alloc : Option (Nat × Nat))
    (t : translator) (uav values rect_count rects : Nat) :
    (clear_unordered_access_view_float D alloc t uav values rect_count rects).bound =
      (clear_unordered_access_view_float D alloc t.bound uav values rect_count rects).bound := by
  rcases alloc with _ | a
  · cases t
    simp [translator.bound, clear_unordered_access_view_float, translator.request]
  · rw [clear_unordered_access_view_float_eq, clear_unordered_access_view_float_eq]
    cases t
    simp [translator.bound]

theorem generate_mipmaps_eq (D : device_impl) (a : Nat × Nat) (t : translator) (srv : Nat)
    (resource : Nat) (desc : D3D12_RESOURCE_DESC) (hp : D._mipmap_pipeline ≠ 0)
    (hr : D.get_resource_from_view srv = resource) (hd : D.resource_GetDesc resource = desc) :
    generate_mipmaps D (some a) t srv =
      { _has_commands := true
        orig_calls := t.orig_calls ++
          (if t._current_descriptor_heaps.1 ≠ D._gpu_view_heap ∧
              t._current_descriptor_heaps.2 ≠ D._gpu_view_heap
            then [native_call.SetDescriptorHeaps 1 [D._gpu_view_heap]] else []) ++
          [native_call.SetComputeRootSignature D._mipmap_signature,
            native_call.SetPipelineState D._mipmap_pipeline,
            native_call.ResourceBarrier 1 [mip_transition resource]] ++
          ((List.range' 1 (desc.MipLevels - 1)).flatMap fun level =>
            [native_call.SetComputeRoot32BitConstants 0 2
              (root_constants.inverse_dimensions (mip_extent desc.Width level)
                (mip_extent desc.Height level)) 0,
             native_call.SetComputeRootDescriptorTable 1
              (D.offset_descriptor_handle a.2 ((level - 1) % 2 ^ 32)
                D3D12_DESCRIPTOR_HEAP_TYPE_CBV_SRV_UAV),
             native_call.SetComputeRootDescriptorTable 2
              (D.offset_descriptor_handle a.2 ((desc.MipLevels + level - 1) % 2 ^ 32)
                D3D12_DESCRIPTOR_HEAP_TYPE_CBV_SRV_UAV),
             native_call.Dispatch (mip_thread_groups (mip_extent desc.Width level))
              (mip_thread_groups (mip_extent desc.Height level)) 1,
             native_call.ResourceBarrier 1 [mip_uav_barrier resource]]) ++
          [native_call.ResourceBarrier 1 [swap_transition_states (mip_transition resource)]] ++
          (if t._current_descriptor_heaps.1 ≠ D._gpu_view_heap ∧
              t._current_descriptor_heaps.2 ≠ D._gpu_view_heap ∧ t._current_descriptor_heaps.1 ≠ 0
            then [native_call.SetDescriptorHeaps
              (if t._current_descriptor_heaps.2 ≠ 0 then 2 else 1)
              ([t._current_descriptor_heaps.1, t._current_descriptor_heaps.2].take
                (if t._current_descriptor_heaps.2 ≠ 0 then 2 else 1))]
            else [])
        _current_root_signature := t._current_root_signature
        _current_descriptor_heaps := t._current_descriptor_heaps
        device_calls := t.device_calls ++
          ((List.range desc.MipLevels).map (fun l =>
            device_call.CreateShaderResourceView resource (mip_view_format D desc) l
              (a.1 + l * D._descriptor_handle_size D3D12_DESCRIPTOR_HEAP_TYPE_CBV_SRV_UAV))) ++
          ((List.range' 1 (desc.MipLevels - 1)).map (fun l =>
            device_call.CreateUnorderedAccessView resource (some (mip_view_format D desc, l))
              (a.1 + desc.MipLevels *
                  D._descriptor_handle_size D3D12_DESCRIPTOR_HEAP_TYPE_CBV_SRV_UAV +
                (l - 1) * D._descriptor_handle_size D3D12_DESCRIPTOR_HEAP_TYPE_CBV_SRV_UAV)))
        transient_requests := t.transient_requests ++
          [(D._gpu_view_heap, (desc.MipLevels * 2) % 2 ^ 32)] } := by
  subst hr
  subst hd
  unfold generate_mipmaps
  rw [if_neg hp]
  simp only [generate_mipmaps_srv_fold, generate_mipmaps_uav_fold,
    generate_mipmaps_dispatch_fold, set_view_heap_eq, reset_descriptor_heaps_eq]
  cases t
  simp [translator.request, translator.call]

theorem generate_mipmaps_bound (D : device_impl) (alloc : Option (Nat × Nat))
    (t : translator) (srv : Nat) :
    (generate_mipmaps D alloc t srv).bound = (generate_mipmaps D alloc t.bound srv).bound := by
  by_cases hp : D._mipmap_pipeline = 0
  · unfold generate_mipmaps
    rw [if_pos hp, if_pos hp]
    cases t
    rfl
  rcases alloc with _ | a
  · unfold generate_mipmaps
    rw [if_neg hp, if_neg hp]
    cases t
    simp [translator.bound, translator.request]
  · rw [generate_mipmaps_eq D a t srv _ _ hp rfl rfl,
      generate_mipmaps_eq D a t.bound srv _ _ hp rfl rfl]
    cases t
    simp [translator.bound]

theorem barrier_bound (E : resource_usage_values) (convert_resource_usage_to_states : Nat → Nat)
    (t : translator) (count : Nat) (resources old_states new_states : Nat → Nat) :
    (t.barrier E convert_resource_usage_to_states count resources old_states new_states).bound =
      (t.bound.barrier E convert_resource_usage_to_states count resources old_states
        new_states).bound := by
  cases t
  by_cases hc : count = 0
  · simp [translator.barrier, barrier, translator.bound, hc]
  · simp [translator.barrier, barrier, translator.bound, hc]

/-! ## The call sequence of `generate_mipmaps` -/

theorem filter_flatMap_single (p : native_call → Bool) (f : Nat → List native_call)
    (g : Nat → native_call) (h : ∀ x, (f x).filter p = [g x]) (l : List Nat) :
    (l.flatMap f).filter p = l.map g := by
  induction l with
  | nil => rfl
  | cons x xs ih => simp [List.flatMap_cons, List.filter_append, h, ih]

theorem flatMap_congr_mem (f g : Nat → List native_call) (l : List Nat)
    (h : ∀ x ∈ l, f x = g x) : l.flatMap f = l.flatMap g := by
  induction l with
  | nil => rfl
  | cons x xs ih =>
    rw [List.flatMap_cons, List.flatMap_cons, h x (List.mem_cons_self _ _),
      ih (fun y hy => h y (List.mem_cons_of_mem _ hy))]

theorem generate_mipmaps_issued (D : device_impl) (b g : Nat) (t : translator) (srv : Nat)
    (resource : Nat) (desc : D3D12_RESOURCE_DESC) (hp : D._mipmap_pipeline ≠ 0)
    (hr : D.get_resource_from_view srv = resource) (hd : D.resource_GetDesc resource = desc)
    (h16 : desc.MipLevels < 2 ^ 16) :
    issued t (generate_mipmaps D (some (b, g)) t srv) =
      (if t._current_descriptor_heaps.1 ≠ D._gpu_view_heap ∧
          t._current_descriptor_heaps.2 ≠ D._gpu_view_heap
        then [native_call.SetDescriptorHeaps 1 [D._gpu_view_heap]] else []) ++
      [native_call.SetComputeRootSignature D._mipmap_signature,
        native_call.SetPipelineState D._mipmap_pipeline,
        native_call.ResourceBarrier 1
          [⟨some D3D12_RESOURCE_BARRIER_TYPE.TRANSITION, some 0,
            barrier_union.Transition resource D3D12_RESOURCE_BARRIER_ALL_SUBRESOURCES
              (D3D12_RESOURCE_STATE_NON_PIXEL_SHADER_RESOURCE |||
                D3D12_RESOURCE_STATE_PIXEL_SHADER_RESOURCE)
              D3D12_RESOURCE_STATE_UNORDERED_ACCESS⟩]] ++
      ((List.range' 1 (desc.MipLevels - 1)).flatMap fun L =>
        [native_call.SetComputeRoot32BitConstants 0 2
          (root_constants.inverse_dimensions (mip_extent desc.Width L)
            (mip_extent desc.Height L)) 0,
         native_call.SetComputeRootDescriptorTable 1
          (D.offset_descriptor_handle g (L - 1) D3D12_DESCRIPTOR_HEAP_TYPE_CBV_SRV_UAV),
         native_call.SetComputeRootDescriptorTable 2
          (D.offset_descriptor_handle g (desc.MipLevels + L - 1)
            D3D12_DESCRIPTOR_HEAP_TYPE_CBV_SRV_UAV),
         native_call.Dispatch (mip_thread_groups (mip_extent desc.Width L))
          (mip_thread_groups (mip_extent desc.Height L)) 1,
         native_call.ResourceBarrier 1
          [⟨some D3D12_RESOURCE_BARRIER_TYPE.UAV, some 0, barrier_union.UAV resource⟩]]) ++
      [native_call.ResourceBarrier 1
        [⟨some D3D12_RESOURCE_BARRIER_TYPE.TRANSITION, some 0,
          barrier_union.Transition resource D3D12_RESOURCE_BARRIER_ALL_SUBRESOURCES
            D3D12_RESOURCE_STATE_UNORDERED_ACCESS
            (D3D12_RESOURCE_STATE_NON_PIXEL_SHADER_RESOURCE |||
              D3D12_RESOURCE_STATE_PIXEL_SHADER_RESOURCE)⟩]] ++
      (if t._current_descriptor_heaps.1 ≠ D._gpu_view_heap ∧
          t._current_descriptor_heaps.2 ≠ D._gpu_view_heap ∧ t._current_descriptor_heaps.1 ≠ 0
        then [native_call.SetDescriptorHeaps
          (if t._current_descriptor_heaps.2 ≠ 0 then 2 else 1)
          ([t._current_descriptor_heaps.1, t._current_descriptor_heaps.2].take
            (if t._current_descriptor_heaps.2 ≠ 0 then 2 else 1))]
        else []) := by
  rw [generate_mipmaps_eq D (b, g) t srv resource desc hp hr hd]
  simp only [issued, List.append_assoc, List.drop_left]
  congr 1
  congr 1
  congr 1
  apply flatMap_congr_mem
  intro L hL
  rw [List.mem_range'_1] at hL
  rw [Nat.mod_eq_of_lt (show L - 1 < 2 ^ 32 by omega),
    Nat.mod_eq_of_lt (show desc.MipLevels + L - 1 < 2 ^ 32 by omega)]
  rfl

theorem generate_mipmaps_written (D : device_impl) (b g : Nat) (t : translator) (srv : Nat)
    (resource : Nat) (desc : D3D12_RESOURCE_DESC) (hp : D._mipmap_pipeline ≠ 0)
    (hr : D.get_resource_from_view srv = resource) (hd : D.resource_GetDesc resource = desc) :
    written t (generate_mipmaps D (some (b, g)) t srv) =
      (List.range desc.MipLevels).map (fun l =>
        device_call.CreateShaderResourceView resource (mip_view_format D desc) l
          (D.offset_descriptor_handle b l D3D12_DESCRIPTOR_HEAP_TYPE_CBV_SRV_UAV)) ++
      (List.range' 1 (desc.MipLevels - 1)).map (fun l =>
        device_call.CreateUnorderedAccessView resource (some (mip_view_format D desc, l))
          (D.offset_descriptor_handle b (desc.MipLevels + l - 1)
            D3D12_DESCRIPTOR_HEAP_TYPE_CBV_SRV_UAV)) := by
  rw [generate_mipmaps_eq D (b, g) t srv resource desc hp hr hd]
  simp only [written, List.append_assoc, List.drop_left]
  congr 1
  apply List.map_congr_left
  intro l hl
  rw [List.mem_range'_1] at hl
  have e : desc.MipLevels + l - 1 = desc.MipLevels + (l - 1) := by omega
  simp only [device_impl.offset_descriptor_handle, e, Nat.add_mul, Nat.add_assoc]

theorem generate_mipmaps_written_length (D : device_impl) (b g : Nat) (t : translator)
    (srv : Nat) (resource : Nat) (desc : D3D12_RESOURCE_DESC) (hp : D._mipmap_pipeline ≠ 0)
    (hr : D.get_resource_from_view srv = resource) (hd : D.resource_GetDesc resource = desc) :
    (written t (generate_mipmaps D (some (b, g)) t srv)).length = 2 * desc.MipLevels - 1 := by
  rw [generate_mipmaps_written D b g t srv resource desc hp hr hd]
  simp only [List.length_append, List.length_map, List.length_range, List.length_range']
  omega

theorem generate_mipmaps_written_get (D : device_impl) (b g : Nat) (t : translator)
    (srv : Nat) (resource : Nat) (desc : D3D12_RESOURCE_DESC) (hp : D._mipmap_pipeline ≠ 0)
    (hr : D.get_resource_from_view srv = resource) (hd : D.resource_GetDesc resource = desc)
    (k : Nat) (hk : k < 2 * desc.MipLevels - 1) :
    (written t (generate_mipmaps D (some (b, g)) t srv))[k]? =
      some (if k < desc.MipLevels then
        device_call.CreateShaderResourceView resource (mip_view_format D desc) k
          (D.offset_descriptor_handle b k D3D12_DESCRIPTOR_HEAP_TYPE_CBV_SRV_UAV)
       else
        device_call.CreateUnorderedAccessView resource
          (some (mip_view_format D desc, k - desc.MipLevels + 1))
          (D.offset_descriptor_handle b k D3D12_DESCRIPTOR_HEAP_TYPE_CBV_SRV_UAV)) := by
  rw [generate_mipmaps_written D b g t srv resource desc hp hr hd]
  by_cases hlt : k < desc.MipLevels
  · rw [if_pos hlt, List.getElem?_append_left (by simpa using hlt), List.getElem?_map,
      List.getElem?_range hlt]
    rfl
  · rw [if_neg hlt, List.getElem?_append_right (by simpa using Nat.le_of_not_lt hlt),
      List.getElem?_map]
    simp only [List.length_map, List.length_range]
    rw [List.getElem?_range' 1 1 (show k - desc.MipLevels < desc.MipLevels - 1 by omega)]
    have e1 : 1 + 1 * (k - desc.MipLevels) = k - desc.MipLevels + 1 := by omega
    have e2 : desc.MipLevels + (k - desc.MipLevels + 1) - 1 = k := by omega
    simp only [Option.map_some', e1, e2]

end reshade

namespace reshade

/-! ## Mip-map dispatch size -/

theorem mip_extent_bounds (W L : Nat) (h1 : 1 ≤ L) :
    mip_extent W L = max 1 ((W % 2 ^ 32) / 2 ^ L) ∧ 1 ≤ mip_extent W L ∧
    mip_extent W L < 2 ^ 31 := by
  have hs : (W % 2 ^ 32) >>> L = (W % 2 ^ 32) / 2 ^ L := Nat.shiftRight_eq_div_pow _ _
  have hlt : W % 2 ^ 32 < 2 ^ 32 := Nat.mod_lt _ (by norm_num)
  have hle : (W % 2 ^ 32) / 2 ^ L ≤ (W % 2 ^ 32) / 2 ^ 1 :=
    Nat.div_le_div_left (Nat.pow_le_pow_right (by norm_num) h1) (by norm_num)
  unfold mip_extent
  rw [hs]
  refine ⟨rfl, le_max_left _ _, ?_⟩
  have : (W % 2 ^ 32) / 2 ^ 1 < 2 ^ 31 := by omega
  exact max_lt (by norm_num) (by omega)

/-- For a 32-bit extent and a level `L >= 1`, the extent of the level is
`max 1 (extent / 2 ^ L)`, adding 7 to it does not wrap in 32 bits, and the thread group
count is `(w + 7) / 8`, the least `g` with `w <= 8 * g`, which is at least 1. -/
theorem mip_thread_groups_ceiling (extent L : Nat) (hW : extent < 2 ^ 32) (h1 : 1 ≤ L) :
    mip_extent extent L = max 1 (extent / 2 ^ L) ∧
    mip_extent extent L + 7 < 2 ^ 32 ∧
    mip_thread_groups (mip_extent extent L) = (mip_extent extent L + 7) / 8 ∧
    mip_extent extent L ≤ 8 * ((mip_extent extent L + 7) / 8) ∧
    8 * ((mip_extent extent L + 7) / 8 - 1) < mip_extent extent L ∧
    1 ≤ (mip_extent extent L + 7) / 8 := by
  obtain ⟨ew, ew1, ew2⟩ := mip_extent_bounds extent L h1
  rw [Nat.mod_eq_of_lt hW] at ew
  have gw : mip_thread_groups (mip_extent extent L) = (mip_extent extent L + 7) / 8 := by
    unfold mip_thread_groups
    rw [Nat.mod_eq_of_lt (by omega)]
    exact max_eq_right (by omega)
  exact ⟨ew, by omega, gw, by omega, by omega, by omega⟩

/-! ## Queue synchronisation -/

theorem wait_idle_fields (s e : Bool) (q : command_queue_impl) :
    (wait_idle s e q)._immediate_cmd_list = q._immediate_cmd_list ∧
    (wait_idle s e q)._wait_idle_fence_event = q._wait_idle_fence_event ∧
    (wait_idle s e q)._wait_idle_fence = q._wait_idle_fence ∧
    (wait_idle s e q)._wait_idle_fence_value =
      (if s then (q._wait_idle_fence_value + 1) % 2 ^ 64 else q._wait_idle_fence_value) ∧
    (wait_idle s e q).events =
      q.events ++ (if q._immediate_cmd_list ≠ 0 then [queue_event.flush q._immediate_cmd_list]
        else []) ++
      [queue_event.Signal q._wait_idle_fence ((q._wait_idle_fence_value + 1) % 2 ^ 64) s] ++
      (if s then
        [queue_event.SetEventOnCompletion ((q._wait_idle_fence_value + 1) % 2 ^ 64)
          q._wait_idle_fence_event e] ++
        (if e then [queue_event.WaitForSingleObject q._wait_idle_fence_event] else [])
       else []) := by
  cases q with
  | mk icl ev v f evs =>
    by_cases hi : icl = 0 <;> cases s <;> cases e <;>
      simp [wait_idle, flush_immediate_command_list, command_queue_impl.record, hi]

theorem queue_inv_step (q : command_queue_impl) (n : Nat) (s e : Bool)
    (hq : queue_inv q n) (hn : n + 1 < 2 ^ 64) : queue_inv (wait_idle s e q) (n + 1) := by
  obtain ⟨_, _, _, h4, h5⟩ := wait_idle_fields s e q
  obtain ⟨hv, hs, ha⟩ := hq
  have hmod : (q._wait_idle_fence_value + 1) % 2 ^ 64 = q._wait_idle_fence_value + 1 :=
    Nat.mod_eq_of_lt (by omega)
  rw [hmod] at h4 h5
  have hflush : ∀ f v b, ¬ queue_event.Signal f v b ∈
      (if q._immediate_cmd_list ≠ 0 then [queue_event.flush q._immediate_cmd_list]
        else []) := by
    intro f v b
    split <;> simp
  refine ⟨?_, ?_, ?_⟩
  · rw [h4]; cases s <;> simp <;> omega
  · intro f v hmem
    rw [h5] at hmem
    rw [h4]
    rw [List.mem_append, List.mem_append, List.mem_append] at hmem
    rcases hmem with ((hmem | hmem) | hmem) | hmem
    · have := hs f v hmem
      cases s <;> simp <;> omega
    · exact absurd hmem (hflush f v true)
    · rw [List.mem_singleton] at hmem
      injection hmem with _ hv2 hs2
      subst hs2
      simp [hv2]
    · cases s <;> cases e <;> simp at hmem
  · intro f v b hmem
    rw [h5] at hmem
    rw [h4]
    rw [List.mem_append, List.mem_append, List.mem_append] at hmem
    rcases hmem with ((hmem | hmem) | hmem) | hmem
    · have := ha f v b hmem
      cases s <;> simp <;> omega
    · exact absurd hmem (hflush f v b)
    · rw [List.mem_singleton] at hmem
      injection hmem with _ hv2 hs2
      cases s <;> simp <;> omega
    · cases s <;> cases e <;> simp at hmem

theorem queue_inv_run (outcomes : List (Bool × Bool)) :
    ∀ (q : command_queue_impl) (n : Nat), queue_inv q n → n + outcomes.length < 2 ^ 64 →
      queue_inv (wait_idle_calls q outcomes) (n + outcomes.length) := by
  induction outcomes with
  | nil => intro q n h _; simpa [wait_idle_calls] using h
  | cons o os ih =>
    intro q n h hn
    simp only [List.length_cons] at hn
    have := ih (wait_idle o.1 o.2 q) (n + 1) (queue_inv_step q n o.1 o.2 h (by omega)) (by omega)
    simpa [wait_idle_calls, List.length_cons, Nat.add_assoc, Nat.add_comm 1] using this

theorem wait_idle_calls_fields (outcomes : List (Bool × Bool)) :
    ∀ q : command_queue_impl,
      (wait_idle_calls q outcomes)._immediate_cmd_list = q._immediate_cmd_list ∧
      (wait_idle_calls q outcomes)._wait_idle_fence_event = q._wait_idle_fence_event ∧
      (wait_idle_calls q outcomes)._wait_idle_fence = q._wait_idle_fence := by
  induction outcomes with
  | nil => intro q; exact ⟨rfl, rfl, rfl⟩
  | cons o os ih =>
    intro q
    obtain ⟨h1, h2, h3, _, _⟩ := wait_idle_fields o.1 o.2 q
    obtain ⟨i1, i2, i3⟩ := ih (wait_idle o.1 o.2 q)
    exact ⟨i1.trans h1, i2.trans h2, i3.trans h3⟩

/-- C19, amended. A queue is constructed and serves any series of `wait_idle` calls, fewer than
`2 ^ 64 - 1` of them; then one more `wait_idle` call is made. That call first flushes the
immediate command list (when there is one), then calls `Signal` on the fence with the
stored counter plus one. When `Signal` succeeds the counter becomes that value,
`SetEventOnCompletion` is called for exactly that value, and the thread waits on the
event once that request is accepted; when `Signal` fails the counter stays and
nothing more is called. The counter does not decrease, the value of the call is
strictly greater than every value of an earlier `Signal` that succeeded, and at least
as great as every value an earlier `Signal` was called with. -/
theorem wait_idle_counter (icl event fence : Nat) (outcomes : List (Bool × Bool)) (s e : Bool)
    (h : outcomes.length + 1 < 2 ^ 64) :
    (wait_idle s e (wait_idle_calls (command_queue_impl.construct icl event fence) outcomes)).events
      = (wait_idle_calls (command_queue_impl.construct icl event fence) outcomes).events ++
        (if icl ≠ 0 then [queue_event.flush icl] else []) ++
        [queue_event.Signal fence
          ((wait_idle_calls (command_queue_impl.construct icl event fence)
            outcomes)._wait_idle_fence_value + 1) s] ++
        (if s then
          [queue_event.SetEventOnCompletion
            ((wait_idle_calls (command_queue_impl.construct icl event fence)
              outcomes)._wait_idle_fence_value + 1) event e] ++
          (if e then [queue_event.WaitForSingleObject event] else [])
         else []) ∧
    (wait_idle s e (wait_idle_calls (command_queue_impl.construct icl event fence)
        outcomes))._wait_idle_fence_value =
      (if s then (wait_idle_calls (command_queue_impl.construct icl event fence)
          outcomes)._wait_idle_fence_value + 1
        else (wait_idle_calls (command_queue_impl.construct icl event fence)
          outcomes)._wait_idle_fence_value) ∧
    (wait_idle_calls (command_queue_impl.construct icl event fence)
        outcomes)._wait_idle_fence_value ≤
      (wait_idle s e (wait_idle_calls (command_queue_impl.construct icl event fence)
        outcomes))._wait_idle_fence_value ∧
    (∀ f v, queue_event.Signal f v true ∈
        (wait_idle_calls (command_queue_impl.construct icl event fence) outcomes).events →
      v < (wait_idle_calls (command_queue_impl.construct icl event fence)
        outcomes)._wait_idle_fence_value + 1) ∧
    (∀ f v b, queue_event.Signal f v b ∈
        (wait_idle_calls (command_queue_impl.construct icl event fence) outcomes).events →
      v ≤ (wait_idle_calls (command_queue_impl.construct icl event fence)
        outcomes)._wait_idle_fence_value + 1) := by
  have h0 : queue_inv (command_queue_impl.construct icl event fence) 0 :=
    ⟨Nat.le_refl 0, fun _ _ hm => absurd hm (List.not_mem_nil _),
      fun _ _ _ hm => absurd hm (List.not_mem_nil _)⟩
  have hinv := queue_inv_run outcomes (command_queue_impl.construct icl event fence) 0 h0
    (by omega)
  obtain ⟨f1, f2, f3⟩ := wait_idle_calls_fields outcomes
    (command_queue_impl.construct icl event fence)
  obtain ⟨_, _, _, h4, h5⟩ := wait_idle_fields s e
    (wait_idle_calls (command_queue_impl.construct icl event fence) outcomes)
  obtain ⟨hv, hs, ha⟩ := hinv
  have hmod : ((wait_idle_calls (command_queue_impl.construct icl event fence)
      outcomes)._wait_idle_fence_value + 1) % 2 ^ 64 =
      (wait_idle_calls (command_queue_impl.construct icl event fence)
      outcomes)._wait_idle_fence_value + 1 := Nat.mod_eq_of_lt (by omega)
  rw [hmod] at h4 h5
  rw [f1, f2, f3] at h5
  refine ⟨h5, h4, ?_, fun f v hm => Nat.lt_succ_of_le (hs f v hm), ha⟩
  rw [h4]
  cases s <;> simp

/-- Three calls on a queue with immediate command list 5, event 6 and fence 7, the
second with a failing `Signal`, and then a fourth call. -/
theorem wait_idle_counter_witness :
    [(true, true), (false, true), (true, false)].length + 1 < 2 ^ 64 ∧
    (wait_idle true true (wait_idle_calls (command_queue_impl.construct 5 6 7)
      [(true, true), (false, true), (true, false)]))._wait_idle_fence_value = 3 :=
  ⟨by decide,
    (wait_idle_counter 5 6 7 [(true, true), (false, true), (true, false)] true true
      (by decide)).2.1.trans (by decide)⟩

/-- C19, counterexample. On a queue with immediate command list 5, event 6 and fence 7,
a first `wait_idle` whose `Signal` succeeds and whose `SetEventOnCompletion` fails
stores the counter 1 and returns without waiting: no `WaitForSingleObject` is called.
And when the `Signal` of a first call fails and that of a second call succeeds, both
calls signal the value 1, so the second call waits on the very value that the earlier
call signalled, not on a greater one. -/
theorem wait_idle_skips_wait_and_repeats_value :
    (wait_idle true false (command_queue_impl.construct 5 6 7)).events =
      [queue_event.flush 5, queue_event.Signal 7 1 true,
        queue_event.SetEventOnCompletion 1 6 false] ∧
    (wait_idle true false (command_queue_impl.construct 5 6 7))._wait_idle_fence_value = 1 ∧
    queue_event.WaitForSingleObject 6 ∉
      (wait_idle true false (command_queue_impl.construct 5 6 7)).events ∧
    (wait_idle true true (wait_idle false true (command_queue_impl.construct 5 6 7))).events =
      [queue_event.flush 5, queue_event.Signal 7 1 false,
        queue_event.flush 5, queue_event.Signal 7 1 true,
        queue_event.SetEventOnCompletion 1 6 true, queue_event.WaitForSingleObject 6] := by
  decide

end reshade

namespace reshade

/-! ## Root signature cache -/

/-- C14. A compute `push_constants` with layout 5, then `generate_mipmaps` with a
transient range at hand, leave layout 5 cached as the compute root signature while
the root signature last set on the native command list is the one of the mip-map
pipeline (77); a second compute `push_constants` with layout 5 then records its
constants without setting a root signature. -/
theorem generate_mipmaps_leaves_stale_root_signature :
    (translator.run example_env translator.fresh
      [translator_op.push_constants 0x20 5 0 0 1 900,
        translator_op.generate_mipmaps (some (1000, 2000)) 40])._current_root_signature.2 = 5 ∧
    native_compute_root_signature (translator.run example_env translator.fresh
      [translator_op.push_constants 0x20 5 0 0 1 900,
        translator_op.generate_mipmaps (some (1000, 2000)) 40]).orig_calls = 77 ∧
    issued
      (translator.run example_env translator.fresh
        [translator_op.push_constants 0x20 5 0 0 1 900,
          translator_op.generate_mipmaps (some (1000, 2000)) 40])
      (translator.run example_env translator.fresh
        [translator_op.push_constants 0x20 5 0 0 1 900,
          translator_op.generate_mipmaps (some (1000, 2000)) 40,
          translator_op.push_constants 0x20 5 0 0 1 900]) =
      [native_call.SetComputeRoot32BitConstants 0 1 (root_constants.pointer 900) 0] := by
  decide

/-- C20. Two command lists with native handles `0x10` and `0x20` are submitted: both
entries of the array handed to `ExecuteCommandLists` are `0x10`. -/
theorem execute_command_lists_repeats_first_entry :
    (execute_command_lists (command_queue_impl.construct 5 6 7) 2
      (fun i => if i = 0 then 0x10 else 0x20)).events =
      [queue_event.ExecuteCommandLists 2 [some 0x10, some 0x10]] := by
  decide

/-- C15. A call of `push_constants`, of `push_descriptors` with a transient range at
hand, or of `bind_descriptor_sets` with `count > 0`, with stage mask `stages` and
layout `layout`, calls `SetComputeRootSignature` exactly when the mask holds a compute
stage and the cached compute slot differs from `layout` (and then with `layout`),
`SetGraphicsRootSignature` exactly when the mask holds a graphics stage and the cached
graphics slot differs from `layout`; afterwards a slot whose stage was requested
holds `layout` and the other slot is unchanged. The same call made once more right
away sets no root signature. -/
theorem root_signature_set_on_mismatch (E : api_values) (D : device_impl) (t : translator)
    (stages layout layout_param first count values : Nat) (a a2 : Nat × Nat)
    (update : descriptor_set_update) (sets : Nat → Nat) (hcount : 0 < count) :
    (root_signature_rebind E stages layout t
        (push_constants E t stages layout layout_param first count values) ∧
      ∀ c ∈ issued (push_constants E t stages layout layout_param first count values)
          (push_constants E (push_constants E t stages layout layout_param first count values)
            stages layout layout_param first count values),
        sets_root_signature c = false) ∧
    (root_signature_rebind E stages layout t
        (push_descriptors E D (some a) t stages layout layout_param update) ∧
      ∀ c ∈ issued (push_descriptors E D (some a) t stages layout layout_param update)
          (push_descriptors E D (some a2)
            (push_descriptors E D (some a) t stages layout layout_param update)
            stages layout layout_param update),
        sets_root_signature c = false) ∧
    (root_signature_rebind E stages layout t
        (bind_descriptor_sets E D t stages layout first count sets) ∧
      ∀ c ∈ issued (bind_descriptor_sets E D t stages layout first count sets)
          (bind_descriptor_sets E D (bind_descriptor_sets E D t stages layout first count sets)
            stages layout first count sets),
        sets_root_signature c = false) :=
  ⟨⟨push_constants_rebind E t stages layout layout_param first count values,
      rebind_repeat E stages layout _ _ _
        (push_constants_rebind E t stages layout layout_param first count values)
        (push_constants_rebind E _ stages layout layout_param first count values)⟩,
    ⟨push_descriptors_rebind E D a t stages layout layout_param update,
      rebind_repeat E stages layout _ _ _
        (push_descriptors_rebind E D a t stages layout layout_param update)
        (push_descriptors_rebind E D a2 _ stages layout layout_param update)⟩,
    ⟨bind_descriptor_sets_rebind E D t stages layout first count sets hcount,
      rebind_repeat E stages layout _ _ _
        (bind_descriptor_sets_rebind E D t stages layout first count sets hcount)
        (bind_descriptor_sets_rebind E D _ stages layout first count sets hcount)⟩⟩

/-- Compute-stage commands with layout 5 on a fresh translator of the sample device,
each binding one descriptor set or constant. -/
theorem root_signature_set_on_mismatch_witness :
    0 < 1 ∧
    root_signature_rebind example_api 0x20 5 translator.fresh
      (bind_descriptor_sets example_api example_device translator.fresh 0x20 5 0 1 (fun _ => 300)) :=
  ⟨by decide,
    (root_signature_set_on_mismatch example_api example_device translator.fresh 0x20 5 0 0 1 900
      (1000, 2000) (3000, 4000) ⟨0, 1, 2, fun _ => ⟨0, 0, 0⟩, fun _ => 500⟩ (fun _ => 300)
      (by decide)).2.2.1⟩

end reshade

namespace reshade

/-! ## Mip-map generation -/

/-- C11. With the mip-map pipeline present and a transient range at hand,
`generate_mipmaps` on a resource with `n` mip levels records, after selecting heap,
root signature and pipeline: the transition of the resource into the unordered-access
state; then for each level `L = 1, ..., n - 1` in increasing order the constants, the
table of offset `L - 1` as input, the table of offset `n + L - 1` as output, one
`Dispatch` and one UAV barrier on the resource; then the transition with the two
states exchanged. So there are exactly `n - 1` dispatches, and the two offsets bound
for level `L` are where the views of level `L - 1` and of level `L` were written. -/
theorem generate_mipmaps_dispatch_sequence (D : device_impl) (b g : Nat) (t : translator)
    (srv : Nat) (resource : Nat) (desc : D3D12_RESOURCE_DESC) (hp : D._mipmap_pipeline ≠ 0)
    (hr : D.get_resource_from_view srv = resource) (hd : D.resource_GetDesc resource = desc)
    (h16 : desc.MipLevels < 2 ^ 16) :
    issued t (generate_mipmaps D (some (b, g)) t srv) =
      (if t._current_descriptor_heaps.1 ≠ D._gpu_view_heap ∧
          t._current_descriptor_heaps.2 ≠ D._gpu_view_heap
        then [native_call.SetDescriptorHeaps 1 [D._gpu_view_heap]] else []) ++
      [native_call.SetComputeRootSignature D._mipmap_signature,
        native_call.SetPipelineState D._mipmap_pipeline,
        native_call.ResourceBarrier 1
          [⟨some D3D12_RESOURCE_BARRIER_TYPE.TRANSITION, some 0,
            barrier_union.Transition resource D3D12_RESOURCE_BARRIER_ALL_SUBRESOURCES
              (D3D12_RESOURCE_STATE_NON_PIXEL_SHADER_RESOURCE |||
                D3D12_RESOURCE_STATE_PIXEL_SHADER_RESOURCE)
              D3D12_RESOURCE_STATE_UNORDERED_ACCESS⟩]] ++
      ((List.range' 1 (desc.MipLevels - 1)).flatMap fun L =>
        [native_call.SetComputeRoot32BitConstants 0 2
          (root_constants.inverse_dimensions (mip_extent desc.Width L)
            (mip_extent desc.Height L)) 0,
         native_call.SetComputeRootDescriptorTable 1
          (D.offset_descriptor_handle g (L - 1) D3D12_DESCRIPTOR_HEAP_TYPE_CBV_SRV_UAV),
         native_call.SetComputeRootDescriptorTable 2
          (D.offset_descriptor_handle g (desc.MipLevels + L - 1)
            D3D12_DESCRIPTOR_HEAP_TYPE_CBV_SRV_UAV),
         native_call.Dispatch (mip_thread_groups (mip_extent desc.Width L))
          (mip_thread_groups (mip_extent desc.Height L)) 1,
         native_call.ResourceBarrier 1
          [⟨some D3D12_RESOURCE_BARRIER_TYPE.UAV, some 0, barrier_union.UAV resource⟩]]) ++
      [native_call.ResourceBarrier 1
        [⟨some D3D12_RESOURCE_BARRIER_TYPE.TRANSITION, some 0,
          barrier_union.Transition resource D3D12_RESOURCE_BARRIER_ALL_SUBRESOURCES
            D3D12_RESOURCE_STATE_UNORDERED_ACCESS
            (D3D12_RESOURCE_STATE_NON_PIXEL_SHADER_RESOURCE |||
              D3D12_RESOURCE_STATE_PIXEL_SHADER_RESOURCE)⟩]] ++
      (if t._current_descriptor_heaps.1 ≠ D._gpu_view_heap ∧
          t._current_descriptor_heaps.2 ≠ D._gpu_view_heap ∧ t._current_descriptor_heaps.1 ≠ 0
        then [native_call.SetDescriptorHeaps
          (if t._current_descriptor_heaps.2 ≠ 0 then 2 else 1)
          ([t._current_descriptor_heaps.1, t._current_descriptor_heaps.2].take
            (if t._current_descriptor_heaps.2 ≠ 0 then 2 else 1))]
        else []) ∧
    (issued t (generate_mipmaps D (some (b, g)) t srv)).filter is_dispatch =
      (List.range' 1 (desc.MipLevels - 1)).map (fun L =>
        native_call.Dispatch (mip_thread_groups (mip_extent desc.Width L))
          (mip_thread_groups (mip_extent desc.Height L)) 1) ∧
    ((issued t (generate_mipmaps D (some (b, g)) t srv)).filter is_dispatch).length =
      desc.MipLevels - 1 ∧
    ∀ L, 1 ≤ L → L < desc.MipLevels →
      device_call.CreateShaderResourceView resource (mip_view_format D desc) (L - 1)
          (D.offset_descriptor_handle b (L - 1) D3D12_DESCRIPTOR_HEAP_TYPE_CBV_SRV_UAV) ∈
        written t (generate_mipmaps D (some (b, g)) t srv) ∧
      device_call.CreateUnorderedAccessView resource (some (mip_view_format D desc, L))
          (D.offset_descriptor_handle b (desc.MipLevels + L - 1)
            D3D12_DESCRIPTOR_HEAP_TYPE_CBV_SRV_UAV) ∈
        written t (generate_mipmaps D (some (b, g)) t srv) := by
  have hi := generate_mipmaps_issued D b g t srv resource desc hp hr hd h16
  have hf : (issued t (generate_mipmaps D (some (b, g)) t srv)).filter is_dispatch =
      (List.range' 1 (desc.MipLevels - 1)).map (fun L =>
        native_call.Dispatch (mip_thread_groups (mip_extent desc.Width L))
          (mip_thread_groups (mip_extent desc.Height L)) 1) := by
    rw [hi]
    simp only [List.filter_append]
    rw [filter_flatMap_single is_dispatch _ (fun L =>
      native_call.Dispatch (mip_thread_groups (mip_extent desc.Width L))
        (mip_thread_groups (mip_extent desc.Height L)) 1)]
    · split_ifs <;> simp [List.filter, is_dispatch]
    · intro x
      rfl
  refine ⟨hi, hf, ?_, ?_⟩
  · rw [hf, List.length_map, List.length_range']
  · intro L h1 h2
    rw [generate_mipmaps_written D b g t srv resource desc hp hr hd]
    constructor
    · apply List.mem_append_left
      exact List.mem_map.2 ⟨L - 1, List.mem_range.2 (by omega), rfl⟩
    · apply List.mem_append_right
      exact List.mem_map.2 ⟨L, List.mem_range'_1.2 ⟨h1, by omega⟩, rfl⟩

/-- The sample device, whose resources have 3 mip levels, generates mip maps for
view 40 on a fresh translator. -/
theorem generate_mipmaps_dispatch_sequence_witness :
    (example_device._mipmap_pipeline ≠ 0 ∧ example_device.get_resource_from_view 40 = 41 ∧
      example_device.resource_GetDesc 41 = ⟨256, 64, 3, 28⟩ ∧ (3 : Nat) < 2 ^ 16) ∧
    ((issued translator.fresh
      (generate_mipmaps example_device (some (1000, 2000)) translator.fresh 40)).filter
        is_dispatch).length = 2 :=
  ⟨⟨by decide, rfl, rfl, by decide⟩,
    (generate_mipmaps_dispatch_sequence example_device 1000 2000 translator.fresh 40 41
      ⟨256, 64, 3, 28⟩ (by decide) rfl rfl (by decide)).2.2.1⟩

/-- C13. With the mip-map pipeline present and a transient range at hand,
`generate_mipmaps` on a resource with `n` mip levels requests one range of `2 * n`
descriptors from the view heap; it writes the shader resource view of level `l` to
offset `l` for `l = 0, ..., n - 1` and the unordered access view of level `l` to
offset `n + l - 1` for `l = 1, ..., n - 1`, so the `k`-th write goes to offset `k`;
every descriptor table it binds is, for some level `1 <= L < n`, table 1 at offset
`L - 1` or table 2 at offset `n + L - 1`; both offsets are below `2 * n`, and the
writes to them are the views of level `L - 1` and of level `L`. -/
theorem generate_mipmaps_transient_range (D : device_impl) (b g : Nat) (t : translator)
    (srv : Nat) (resource : Nat) (desc : D3D12_RESOURCE_DESC) (hp : D._mipmap_pipeline ≠ 0)
    (hr : D.get_resource_from_view srv = resource) (hd : D.resource_GetDesc resource = desc)
    (h16 : desc.MipLevels < 2 ^ 16) :
    (generate_mipmaps D (some (b, g)) t srv).transient_requests =
      t.transient_requests ++ [(D._gpu_view_heap, 2 * desc.MipLevels)] ∧
    written t (generate_mipmaps D (some (b, g)) t srv) =
      (List.range desc.MipLevels).map (fun l =>
        device_call.CreateShaderResourceView resource (mip_view_format D desc) l
          (D.offset_descriptor_handle b l D3D12_DESCRIPTOR_HEAP_TYPE_CBV_SRV_UAV)) ++
      (List.range' 1 (desc.MipLevels - 1)).map (fun l =>
        device_call.CreateUnorderedAccessView resource (some (mip_view_format D desc, l))
          (D.offset_descriptor_handle b (desc.MipLevels + l - 1)
            D3D12_DESCRIPTOR_HEAP_TYPE_CBV_SRV_UAV)) ∧
    (written t (generate_mipmaps D (some (b, g)) t srv)).map device_call.DestDescriptor =
      (List.range (2 * desc.MipLevels - 1)).map (fun k =>
        some (D.offset_descriptor_handle b k D3D12_DESCRIPTOR_HEAP_TYPE_CBV_SRV_UAV)) ∧
    (∀ p h, native_call.SetComputeRootDescriptorTable p h ∈
        issued t (generate_mipmaps D (some (b, g)) t srv) →
      ∃ L, 1 ≤ L ∧ L < desc.MipLevels ∧
        ((p = 1 ∧ h = D.offset_descriptor_handle g (L - 1)
            D3D12_DESCRIPTOR_HEAP_TYPE_CBV_SRV_UAV) ∨
          (p = 2 ∧ h = D.offset_descriptor_handle g (desc.MipLevels + L - 1)
            D3D12_DESCRIPTOR_HEAP_TYPE_CBV_SRV_UAV))) ∧
    ∀ L, 1 ≤ L → L < desc.MipLevels →
      L - 1 < 2 * desc.MipLevels ∧ desc.MipLevels + L - 1 < 2 * desc.MipLevels ∧
      native_call.SetComputeRootDescriptorTable 1
          (D.offset_descriptor_handle g (L - 1) D3D12_DESCRIPTOR_HEAP_TYPE_CBV_SRV_UAV) ∈
        issued t (generate_mipmaps D (some (b, g)) t srv) ∧
      native_call.SetComputeRootDescriptorTable 2
          (D.offset_descriptor_handle g (desc.MipLevels + L - 1)
            D3D12_DESCRIPTOR_HEAP_TYPE_CBV_SRV_UAV) ∈
        issued t (generate_mipmaps D (some (b, g)) t srv) ∧
      (written t (generate_mipmaps D (some (b, g)) t srv))[L - 1]? =
        some (device_call.CreateShaderResourceView resource (mip_view_format D desc) (L - 1)
          (D.offset_descriptor_handle b (L - 1) D3D12_DESCRIPTOR_HEAP_TYPE_CBV_SRV_UAV)) ∧
      (written t (generate_mipmaps D (some (b, g)) t srv))[desc.MipLevels + L - 1]? =
        some (device_call.CreateUnorderedAccessView resource (some (mip_view_format D desc, L))
          (D.offset_descriptor_handle b (desc.MipLevels + L - 1)
            D3D12_DESCRIPTOR_HEAP_TYPE_CBV_SRV_UAV)) := by
  have hi := generate_mipmaps_issued D b g t srv resource desc hp hr hd h16
  have hw := generate_mipmaps_written D b g t srv resource desc hp hr hd
  have hl := generate_mipmaps_written_length D b g t srv resource desc hp hr hd
  have hg := generate_mipmaps_written_get D b g t srv resource desc hp hr hd
  refine ⟨?_, hw, ?_, ?_, ?_⟩
  · rw [generate_mipmaps_eq D (b, g) t srv resource desc hp hr hd]
    have e : desc.MipLevels * 2 % 2 ^ 32 = 2 * desc.MipLevels :=
      (Nat.mod_eq_of_lt (by omega)).trans (Nat.mul_comm _ _)
    simp only [e]
  · apply List.ext_getElem?
    intro k
    rw [List.getElem?_map, List.getElem?_map]
    by_cases hk : k < 2 * desc.MipLevels - 1
    · rw [hg k hk, List.getElem?_range hk]
      split <;> rfl
    · rw [List.getElem?_eq_none (by rw [hl]; omega),
        List.getElem?_eq_none (by rw [List.length_range]; omega)]
      rfl
  · intro p h hmem
    rw [hi] at hmem
    simp only [List.mem_append, List.mem_flatMap, List.mem_range'_1] at hmem
    rcases hmem with (((hmem | hmem) | ⟨L, ⟨h1, h2⟩, hmem⟩) | hmem) | hmem
    · split at hmem <;> simp at hmem
    · simp at hmem
    · refine ⟨L, h1, by omega, ?_⟩
      simp at hmem
      rcases hmem with ⟨hp1, hh⟩ | ⟨hp2, hh⟩
      · exact Or.inl ⟨hp1, hh⟩
      · exact Or.inr ⟨hp2, hh⟩
    · simp at hmem
    · split at hmem <;> simp at hmem
  · intro L h1 h2
    have hk1 : L - 1 < 2 * desc.MipLevels - 1 := by omega
    have hk2 : desc.MipLevels + L - 1 < 2 * desc.MipLevels - 1 := by omega
    have e : desc.MipLevels + L - 1 - desc.MipLevels + 1 = L := by omega
    refine ⟨by omega, by omega, ?_, ?_, ?_, ?_⟩
    · rw [hi]
      simp only [List.mem_append, List.mem_flatMap, List.mem_range'_1]
      exact Or.inl (Or.inl (Or.inr ⟨L, ⟨h1, by omega⟩, by simp⟩))
    · rw [hi]
      simp only [List.mem_append, List.mem_flatMap, List.mem_range'_1]
      exact Or.inl (Or.inl (Or.inr ⟨L, ⟨h1, by omega⟩, by simp⟩))
    · rw [hg _ hk1, if_pos (by omega)]
    · rw [hg _ hk2, if_neg (by omega), e]

/-- The sample device, whose resources have 3 mip levels, generates mip maps for
view 40 on a fresh translator: it requests 6 descriptors from the view heap 12. -/
theorem generate_mipmaps_transient_range_witness :
    (example_device._mipmap_pipeline ≠ 0 ∧ example_device.get_resource_from_view 40 = 41 ∧
      example_device.resource_GetDesc 41 = ⟨256, 64, 3, 28⟩ ∧ (3 : Nat) < 2 ^ 16) ∧
    (generate_mipmaps example_device (some (1000, 2000)) translator.fresh 40).transient_requests =
      [(12, 6)] :=
  ⟨⟨by decide, rfl, rfl, by decide⟩,
    (generate_mipmaps_transient_range example_device 1000 2000 translator.fresh 40 41
      ⟨256, 64, 3, 28⟩ (by decide) rfl rfl (by decide)).1⟩

/-- C12. With the mip-map pipeline present and a transient range at hand, on a resource
of 32-bit width `W` and height `H` with `n` mip levels, the `Dispatch` calls that
`generate_mipmaps` records are exactly, in order, those of the levels `L = 1, ..., n - 1`
with `(w + 7) / 8` by `(h + 7) / 8` by 1 thread groups, where `w` and `h` are the
extents of level `L`. For every level `1 <= L < 32`: `w = max(1, W >> L)` and
`h = max(1, H >> L)`, the 32-bit sums `w + 7` and `h + 7` do not wrap, `(w + 7) / 8` is
the least `g` with `w <= 8 * g` and is at least 1, likewise for `h`, and when the
resource has the level its `Dispatch` is the one at position `L - 1`. -/
theorem generate_mipmaps_dispatch_size (D : device_impl) (b g : Nat) (t : translator)
    (srv : Nat) (resource : Nat) (desc : D3D12_RESOURCE_DESC) (hp : D._mipmap_pipeline ≠ 0)
    (hr : D.get_resource_from_view srv = resource) (hd : D.resource_GetDesc resource = desc)
    (h16 : desc.MipLevels < 2 ^ 16) (hW : desc.Width < 2 ^ 32) (hH : desc.Height < 2 ^ 32) :
    (issued t (generate_mipmaps D (some (b, g)) t srv)).filter is_dispatch =
      (List.range' 1 (desc.MipLevels - 1)).map (fun L =>
        native_call.Dispatch ((mip_extent desc.Width L + 7) / 8)
          ((mip_extent desc.Height L + 7) / 8) 1) ∧
    ∀ L, 1 ≤ L → L < 32 →
      (L < desc.MipLevels →
        ((issued t (generate_mipmaps D (some (b, g)) t srv)).filter is_dispatch)[L - 1]? =
          some (native_call.Dispatch ((mip_extent desc.Width L + 7) / 8)
            ((mip_extent desc.Height L + 7) / 8) 1)) ∧
      mip_extent desc.Width L = max 1 (desc.Width / 2 ^ L) ∧
      mip_extent desc.Height L = max 1 (desc.Height / 2 ^ L) ∧
      mip_extent desc.Width L + 7 < 2 ^ 32 ∧ mip_extent desc.Height L + 7 < 2 ^ 32 ∧
      (mip_extent desc.Width L ≤ 8 * ((mip_extent desc.Width L + 7) / 8) ∧
        8 * ((mip_extent desc.Width L + 7) / 8 - 1) < mip_extent desc.Width L ∧
        1 ≤ (mip_extent desc.Width L + 7) / 8) ∧
      (mip_extent desc.Height L ≤ 8 * ((mip_extent desc.Height L + 7) / 8) ∧
        8 * ((mip_extent desc.Height L + 7) / 8 - 1) < mip_extent desc.Height L ∧
        1 ≤ (mip_extent desc.Height L + 7) / 8) := by
  have hi := generate_mipmaps_issued D b g t srv resource desc hp hr hd h16
  have hf : (issued t (generate_mipmaps D (some (b, g)) t srv)).filter is_dispatch =
      (List.range' 1 (desc.MipLevels - 1)).map (fun L =>
        native_call.Dispatch ((mip_extent desc.Width L + 7) / 8)
          ((mip_extent desc.Height L + 7) / 8) 1) := by
    rw [hi]
    simp only [List.filter_append]
    rw [filter_flatMap_single is_dispatch _ (fun L =>
      native_call.Dispatch (mip_thread_groups (mip_extent desc.Width L))
        (mip_thread_groups (mip_extent desc.Height L)) 1)]
    · have hm : (List.range' 1 (desc.MipLevels - 1)).map (fun L =>
          native_call.Dispatch (mip_thread_groups (mip_extent desc.Width L))
            (mip_thread_groups (mip_extent desc.Height L)) 1) =
          (List.range' 1 (desc.MipLevels - 1)).map (fun L =>
            native_call.Dispatch ((mip_extent desc.Width L + 7) / 8)
              ((mip_extent desc.Height L + 7) / 8) 1) := by
        apply List.map_congr_left
        intro L hL
        rw [List.mem_range'_1] at hL
        rw [(mip_thread_groups_ceiling desc.Width L hW hL.1).2.2.1,
          (mip_thread_groups_ceiling desc.Height L hH hL.1).2.2.1]
      rw [hm]
      split_ifs <;> simp [List.filter, is_dispatch]
    · intro x
      rfl
  refine ⟨hf, fun L h1 _ => ?_⟩
  obtain ⟨w1, w2, _, w4, w5, w6⟩ := mip_thread_groups_ceiling desc.Width L hW h1
  obtain ⟨e1, e2, _, e4, e5, e6⟩ := mip_thread_groups_ceiling desc.Height L hH h1
  refine ⟨fun hL => ?_, w1, e1, w2, e2, ⟨w4, w5, w6⟩, ⟨e4, e5, e6⟩⟩
  rw [hf, List.getElem?_map, List.getElem?_range' 1 1 (show L - 1 < desc.MipLevels - 1 by omega)]
  have e : 1 + 1 * (L - 1) = L := by omega
  rw [e]
  rfl

/-- The sample device, whose resources are 256 x 64 with 3 mip levels, generates mip
maps for view 40 on a fresh translator: level 1 (128 x 32) is dispatched with 16 x 4 x 1
thread groups and level 2 (64 x 16) with 8 x 2 x 1. -/
theorem generate_mipmaps_dispatch_size_witness :
    (example_device._mipmap_pipeline ≠ 0 ∧ example_device.get_resource_from_view 40 = 41 ∧
      example_device.resource_GetDesc 41 = ⟨256, 64, 3, 28⟩ ∧ (3 : Nat) < 2 ^ 16 ∧
      (256 : Nat) < 2 ^ 32 ∧ (64 : Nat) < 2 ^ 32) ∧
    (issued translator.fresh
      (generate_mipmaps example_device (some (1000, 2000)) translator.fresh 40)).filter
        is_dispatch = [native_call.Dispatch 16 4 1, native_call.Dispatch 8 2 1] :=
  ⟨⟨by decide, rfl, rfl, by decide, by decide, by decide⟩,
    (generate_mipmaps_dispatch_size example_device 1000 2000 translator.fresh 40 41
      ⟨256, 64, 3, 28⟩ (by decide) rfl rfl (by decide) (by decide) (by decide)).1.trans
      (by decide)⟩

end reshade

namespace reshade

/-! ## Render pass -/

theorem temp_mem_create_fresh {T : Type} (S : Nat) (indet : T) (count j : Nat)
    (hj : j < (temp_mem.create S indet count).p.length) :
    (temp_mem.create S indet count).p[j]? = some indet ∧
    count ≤ (temp_mem.create S indet count).p.length := by
  unfold temp_mem.create at hj ⊢
  split_ifs at hj ⊢ with h
  · simp only [List.length_replicate] at hj ⊢
    rw [List.getElem?_replicate, if_pos hj]
    exact ⟨rfl, Nat.le_refl _⟩
  · simp only [List.length_replicate] at hj ⊢
    rw [List.getElem?_replicate, if_pos hj]
    exact ⟨rfl, by omega⟩

theorem temp_mem_create_length_ge {T : Type} (S : Nat) (indet : T) (count : Nat) :
    count ≤ (temp_mem.create S indet count).p.length := by
  unfold temp_mem.create
  split <;> (simp; try omega)

/-- A loop that assigns `F i` to element `i` of storage whose elements are all still
`indet` leaves `F j` in the elements below the loop bound and `indet` above. -/
theorem temp_mem_fold_state {T : Type} (indet : T) (m0 : temp_mem T)
    (h0 : ∀ j, j < m0.p.length → m0.p[j]? = some indet)
    (step : temp_mem T → Nat → temp_mem T) (F : Nat → T)
    (hstep : ∀ m i, m.p[i]? = some indet → step m i = m.assign i (F i)) (n : Nat)
    (hn : n ≤ m0.p.length) :
    ((List.range n).foldl step m0).p.length = m0.p.length ∧
    ∀ j, j < m0.p.length →
      ((List.range n).foldl step m0).p[j]? = some (if j < n then F j else indet) := by
  induction n with
  | zero =>
    refine ⟨rfl, fun j hj => ?_⟩
    simpa using h0 j hj
  | succ n ih =>
    obtain ⟨hlen, hget⟩ := ih (by omega)
    rw [List.range_succ, List.foldl_append, List.foldl_cons, List.foldl_nil]
    have hprev := hget n (by omega)
    rw [if_neg (Nat.lt_irrefl n)] at hprev
    rw [hstep _ n hprev]
    refine ⟨by simp [temp_mem.assign, hlen], fun j hj => ?_⟩
    simp only [temp_mem.assign, List.getElem?_set]
    by_cases hjn : n = j
    · subst hjn
      simp [hlen, hj]
    · rw [if_neg hjn, hget j hj]
      by_cases h1 : j < n
      · simp [h1, show j < n + 1 by omega]
      · simp [h1, show ¬ j < n + 1 by omega]

theorem temp_mem_fold_take {T : Type} (S : Nat) (indet : T)
    (step : temp_mem T → Nat → temp_mem T) (F : Nat → T)
    (hstep : ∀ m i, m.p[i]? = some indet → step m i = m.assign i (F i)) (count : Nat) :
    ((List.range count).foldl step (temp_mem.create S indet count)).p.take count =
      (List.range count).map F := by
  obtain ⟨hlen, hget⟩ := temp_mem_fold_state indet (temp_mem.create S indet count)
    (fun j hj => (temp_mem_create_fresh S indet count j hj).1) step F hstep count
    (temp_mem_create_length_ge S indet count)
  have hge := temp_mem_create_length_ge S indet count
  apply List.ext_getElem?
  intro j
  rw [List.getElem?_take, List.getElem?_map]
  by_cases hj : j < count
  · rw [if_pos hj, hget j (by omega), if_pos hj, List.getElem?_range hj]
    rfl
  · rw [if_neg hj, List.getElem?_eq_none (by rw [List.length_range]; omega)]
    rfl

theorem begin_render_pass_desc_fold (E : api_values) (D : device_impl)
    (rts : Nat → render_pass_render_target_desc) (count : Nat) :
    ((List.range count).foldl (begin_render_pass_desc_iteration E D rts)
      (temp_mem.create 8 D3D12_RENDER_PASS_RENDER_TARGET_DESC.indeterminate count)).p.take count =
      (List.range count).map (fun i =>
        { cpuDescriptor := some (rts i).view
          BeginningAccess_Type := some (D.convert_render_pass_load_op (rts i).load_op)
          BeginningAccess_Clear :=
            if (rts i).load_op = E.render_pass_load_op_clear then
              some (D.convert_format (D.get_resource_view_desc_format (rts i).view),
                (rts i).clear_color)
            else none
          EndingAccess_Type := some (D.convert_render_pass_store_op (rts i).store_op) }) := by
  apply temp_mem_fold_take
  intro m i hi
  unfold begin_render_pass_desc_iteration
  rw [List.get?_eq_getElem?, hi]
  rfl

theorem begin_render_pass_handles_fold (rts : Nat → render_pass_render_target_desc)
    (count : Nat) :
    ((List.range count).foldl (fun (m : temp_mem (Option Nat)) i => m.assign i (some (rts i).view))
      (temp_mem.create 8 none count)).p.take count =
      (List.range count).map (fun i => some (rts i).view) := by
  apply temp_mem_fold_take
  intro m i _
  rfl

theorem begin_render_pass_fallback_fold (E : api_values)
    (rts : Nat → render_pass_render_target_desc) (n : Nat) (t : translator)
    (m : temp_mem (Option Nat)) :
    (List.range n).foldl (begin_render_pass_fallback_iteration E rts) (t, m) =
      ({ t with orig_calls := (t.orig_calls ++
          ((List.range n).filter
            (fun i => decide ((rts i).load_op = E.render_pass_load_op_clear))).map
            (fun i => native_call.ClearRenderTargetView (rts i).view (rts i).clear_color 0 0)) },
        (List.range n).foldl (fun (m : temp_mem (Option Nat)) i =>
          m.assign i (some (rts i).view)) m) := by
  induction n with
  | zero => cases t; simp
  | succ n ih =>
    rw [List.range_succ, List.foldl_append, List.foldl_append, ih]
    cases t
    by_cases h : (rts n).load_op = E.render_pass_load_op_clear
    · simp [begin_render_pass_fallback_iteration, translator.call, List.filter_append, h]
    · simp [begin_render_pass_fallback_iteration, translator.call, List.filter_append, h]

/-- C16. For every `begin_render_pass(count, rts, ds)`: the native path records one
`BeginRenderPass` whose descriptor `i` names the view of `rts[i]` and carries clear
values (with `rts[i].clear_color`) exactly when `rts[i].load_op` is clear; the fallback
records `ClearRenderTargetView` with `rts[i].clear_color` for exactly those `i`, in
order; then, when `ds` is given with a non-zero view and a load op is clear, one
`ClearDepthStencilView` with `ds.clear_depth` and `ds.clear_stencil` whose flags hold
the depth bit exactly when `depth_load_op` is clear and the stencil bit exactly when
`stencil_load_op` is clear; and last one `OMSetRenderTargets` that names the same
`count` views in the same order and the same depth-stencil view as the descriptors
of the native call. -/
theorem render_pass_fallback_matches (E : api_values) (D : device_impl) (t : translator)
    (count : Nat) (rts : Nat → render_pass_render_target_desc)
    (ds : Option render_pass_depth_stencil_desc) :
    issued t (begin_render_pass E D true t count rts ds) =
      [native_call.BeginRenderPass count
        ((List.range count).map (fun i =>
          { cpuDescriptor := some (rts i).view
            BeginningAccess_Type := some (D.convert_render_pass_load_op (rts i).load_op)
            BeginningAccess_Clear :=
              if (rts i).load_op = E.render_pass_load_op_clear then
                some (D.convert_format (D.get_resource_view_desc_format (rts i).view),
                  (rts i).clear_color)
              else none
            EndingAccess_Type := some (D.convert_render_pass_store_op (rts i).store_op) }))
        ((depth_stencil_given ds).map (begin_render_pass_depth_stencil_desc E D))
        D3D12_RENDER_PASS_FLAG_NONE] ∧
    issued t (begin_render_pass E D false t count rts ds) =
      ((List.range count).filter
          (fun i => decide ((rts i).load_op = E.render_pass_load_op_clear))).map
        (fun i => native_call.ClearRenderTargetView (rts i).view (rts i).clear_color 0 0) ++
      Option.elim (depth_stencil_given ds) []
        (fun d => if begin_render_pass_clear_flags E d ≠ 0 then
          [native_call.ClearDepthStencilView d.view (begin_render_pass_clear_flags E d)
            d.clear_depth d.clear_stencil 0 0]
          else []) ++
      [native_call.OMSetRenderTargets count ((List.range count).map (fun i => some (rts i).view))
        false ((depth_stencil_given ds).map (fun d => d.view))] ∧
    (∀ d : render_pass_depth_stencil_desc,
      (begin_render_pass_clear_flags E d &&& D3D12_CLEAR_FLAG_DEPTH ≠ 0 ↔
        d.depth_load_op = E.render_pass_load_op_clear) ∧
      (begin_render_pass_clear_flags E d &&& D3D12_CLEAR_FLAG_STENCIL ≠ 0 ↔
        d.stencil_load_op = E.render_pass_load_op_clear) ∧
      (begin_render_pass_clear_flags E d ≠ 0 ↔
        (d.depth_load_op = E.render_pass_load_op_clear ∨
          d.stencil_load_op = E.render_pass_load_op_clear)) ∧
      (begin_render_pass_depth_stencil_desc E D d).cpuDescriptor = some d.view ∧
      (begin_render_pass_depth_stencil_desc E D d).DepthBeginningAccess_Clear =
        (if d.depth_load_op = E.render_pass_load_op_clear then
          some (D.convert_format (D.get_resource_view_desc_format d.view), d.clear_depth)
         else none) ∧
      (begin_render_pass_depth_stencil_desc E D d).StencilBeginningAccess_Clear =
        (if d.stencil_load_op = E.render_pass_load_op_clear then
          some (D.convert_format (D.get_resource_view_desc_format d.view), d.clear_stencil)
         else none)) ∧
    (depth_stencil_given ds = none ↔ ∀ d, ds = some d → d.view = 0) := by
  refine ⟨?_, ?_, ?_, ?_⟩
  · unfold begin_render_pass
    rw [if_pos rfl]
    dsimp only
    rw [begin_render_pass_desc_fold]
    cases t
    simp [issued, translator.call]
  · unfold begin_render_pass
    rw [if_neg (by decide)]
    dsimp only
    rw [begin_render_pass_fallback_fold]
    simp only [begin_render_pass_handles_fold]
    cases t
    rcases hds : depth_stencil_given ds with _ | d
    · simp [issued, translator.call]
    · by_cases hf : begin_render_pass_clear_flags E d = 0
      · simp [issued, translator.call, hf]
      · simp [issued, translator.call, hf]
  · intro d
    refine ⟨?_, ?_, ?_, rfl, rfl, rfl⟩ <;>
    by_cases h1 : d.depth_load_op = E.render_pass_load_op_clear <;>
    by_cases h2 : d.stencil_load_op = E.render_pass_load_op_clear <;>
    simp [begin_render_pass_clear_flags, D3D12_CLEAR_FLAG_DEPTH, D3D12_CLEAR_FLAG_STENCIL, h1, h2]
  · cases ds with
    | none => simp [depth_stencil_given]
    | some d =>
      by_cases hv : d.view = 0
      · simp [depth_stencil_given, hv]
      · simp [depth_stencil_given, hv]

end reshade

namespace reshade

/-! ## Runs of commands -/

theorem begin_render_pass_bound (E : api_values) (D : device_impl) (has_cmd_list4 : Bool)
    (t : translator) (count : Nat) (rts : Nat → render_pass_render_target_desc)
    (ds : Option render_pass_depth_stencil_desc) :
    (begin_render_pass E D has_cmd_list4 t count rts ds).bound =
      (begin_render_pass E D has_cmd_list4 t.bound count rts ds).bound := by
  cases has_cmd_list4
  · unfold begin_render_pass
    rw [if_neg (by decide), if_neg (by decide)]
    dsimp only
    rw [begin_render_pass_fallback_fold, begin_render_pass_fallback_fold]
    cases t
    rcases depth_stencil_given ds with _ | d
    · simp [translator.bound, translator.call]
    · by_cases hf : begin_render_pass_clear_flags E d = 0
      · simp [translator.bound, translator.call, hf]
      · simp [translator.bound, translator.call, hf]
  · unfold begin_render_pass
    rw [if_pos rfl, if_pos rfl]
    cases t
    simp [translator.bound, translator.call]

theorem step_bound (V : translator_env) (t : translator) (op : translator_op) :
    (t.step V op).bound = (t.bound.step V op).bound := by
  cases op with
  | barrier count resources old_states new_states => exact barrier_bound _ _ _ _ _ _ _
  | push_constants stages layout layout_param first count values =>
    exact push_constants_bound _ _ _ _ _ _ _ _
  | push_descriptors alloc stages layout layout_param update =>
    exact push_descriptors_bound _ _ _ _ _ _ _ _
  | bind_descriptor_sets stages layout first count sets =>
    exact bind_descriptor_sets_bound _ _ _ _ _ _ _ _
  | clear_unordered_access_view_uint alloc uav values rect_count rects =>
    exact clear_unordered_access_view_uint_bound _ _ _ _ _ _ _
  | clear_unordered_access_view_float alloc uav values rect_count rects =>
    exact clear_unordered_access_view_float_bound _ _ _ _ _ _ _
  | generate_mipmaps alloc srv => exact generate_mipmaps_bound _ _ _ _
  | begin_render_pass has_cmd_list4 count rts ds =>
    exact begin_render_pass_bound _ _ _ _ _ _ _

theorem bound_bound (t : translator) : t.bound.bound = t.bound := rfl

theorem run_bound (V : translator_env) (ops : List translator_op) :
    ∀ t1 t2 : translator, t1.bound = t2.bound →
      (t1.run V ops).bound = (t2.run V ops).bound := by
  induction ops with
  | nil => intro t1 t2 h; exact h
  | cons op ops ih =>
    intro t1 t2 h
    show ((t1.step V op).run V ops).bound = ((t2.step V op).run V ops).bound
    apply ih
    rw [step_bound V t1 op, step_bound V t2 op, h]

/-- C17. When `allocate_transient` reports failure, `push_descriptors`,
`clear_unordered_access_view_uint`, `clear_unordered_access_view_float` and
`generate_mipmaps` leave the calls recorded on the native command list, the descriptor
writes recorded on the device and both caches as they were; and whatever commands
follow, the recorded calls, the descriptor writes and the caches end up the same as
when the command that failed had not been given. -/
theorem transient_exhaustion_is_soft (V : translator_env) (t : translator)
    (stages layout layout_param : Nat) (update : descriptor_set_update)
    (uav values rect_count rects srv : Nat) (ops : List translator_op) :
    (same_bound (push_descriptors V.api V.device none t stages layout layout_param update) t ∧
      same_bound
        ((push_descriptors V.api V.device none t stages layout layout_param update).run V ops)
        (t.run V ops)) ∧
    (same_bound (clear_unordered_access_view_uint V.device none t uav values rect_count rects) t ∧
      same_bound
        ((clear_unordered_access_view_uint V.device none t uav values rect_count rects).run V ops)
        (t.run V ops)) ∧
    (same_bound (clear_unordered_access_view_float V.device none t uav values rect_count rects) t ∧
      same_bound
        ((clear_unordered_access_view_float V.device none t uav values rect_count rects).run V ops)
        (t.run V ops)) ∧
    (same_bound (generate_mipmaps V.device none t srv) t ∧
      same_bound ((generate_mipmaps V.device none t srv).run V ops) (t.run V ops)) := by
  have h1 : (push_descriptors V.api V.device none t stages layout layout_param update).bound =
      t.bound := by
    cases t; simp [translator.bound, push_descriptors, translator.request]
  have h2 : (clear_unordered_access_view_uint V.device none t uav values rect_count rects).bound =
      t.bound := by
    cases t; simp [translator.bound, clear_unordered_access_view_uint, translator.request]
  have h3 : (clear_unordered_access_view_float V.device none t uav values rect_count rects).bound =
      t.bound := by
    cases t; simp [translator.bound, clear_unordered_access_view_float, translator.request]
  have h4 : (generate_mipmaps V.device none t srv).bound = t.bound := by
    unfold generate_mipmaps
    cases t
    split <;> simp [translator.bound, translator.request]
  exact ⟨⟨(same_bound_iff _ _).2 h1, (same_bound_iff _ _).2 (run_bound V ops _ _ h1)⟩,
    ⟨(same_bound_iff _ _).2 h2, (same_bound_iff _ _).2 (run_bound V ops _ _ h2)⟩,
    ⟨(same_bound_iff _ _).2 h3, (same_bound_iff _ _).2 (run_bound V ops _ _ h3)⟩,
    ⟨(same_bound_iff _ _).2 h4, (same_bound_iff _ _).2 (run_bound V ops _ _ h4)⟩⟩

end reshade

namespace reshade

/-! ## Pushed descriptors -/

end reshade

namespace reshade

/-! ## Further commands -/

/-- C26. Two stream-output buffers with `max_sizes = { 100, 200 }`: both native views
get `SizeInBytes = 100`, so the size of view 1 is entry 0 of `max_sizes`, not its own
entry 200. -/
theorem stream_output_size_taken_from_entry_zero :
    issued translator.fresh
      (bind_stream_output_buffers example_device translator.fresh 0 2
        (fun i => 7 + i) (fun i => 16 * i) (some (fun i => if i = 0 then 100 else 200))) =
      [native_call.SOSetTargets 0 2
        [⟨some (7 * 4096), some 100, some 0⟩, ⟨some (8 * 4096 + 16), some 100, some 0⟩]] := by
  decide

/-- C27. A source box with `bottom = 40` and `back = 1` on the region-resolve path: the
rectangle handed to `ResolveSubresourceRegion` has `bottom = 1`, the `back` of the
box. -/
theorem resolve_rectangle_bottom_is_box_back :
    issued translator.fresh
      (resolve_texture_region example_device true translator.fresh 7 0
        (some ⟨10, 20, 0, 30, 40, 1⟩) 8 0 0 0 0 28) =
      [native_call.ResolveSubresourceRegion 8 0 0 0 7 0 (some ⟨10, 20, 30, 1⟩) 28
        D3D12_RESOLVE_MODE_MIN] := by
  decide

/-- C28. The blend constant `0x04030201`, whose bytes are 1, 2, 3, 4, sets the blend
factor `1/255, 0x20/255, 2/255, 0x30/255`; and the values `0` and `0x00100000`, which
differ in their byte 2, set the same blend factor. -/
theorem blend_constant_fields_overlap :
    issued translator.fresh
      (bind_pipeline_states example_dynamic_state id translator.fresh 1
        (fun _ => example_dynamic_state.blend_constant) (fun _ => 0x04030201)) =
      [native_call.OMSetBlendFactor (0x01, 0x20, 0x02, 0x30)] ∧
    bind_pipeline_states example_dynamic_state id translator.fresh 1
        (fun _ => example_dynamic_state.blend_constant) (fun _ => 0) =
      bind_pipeline_states example_dynamic_state id translator.fresh 1
        (fun _ => example_dynamic_state.blend_constant) (fun _ => 0x00100000) := by
  decide

/-- C29. One barrier from `undefined` to `general` on resource 5: the aliasing record
handed to `ResourceBarrier` has its `Flags` as the temporary array held them before,
that is indeterminate. -/
theorem aliasing_barrier_flags_unassigned :
    (barrier example_usage id ⟨false, []⟩ 1 (fun _ => 5)
      (fun _ => example_usage.undefined) (fun _ => example_usage.general)).orig_calls =
      [native_call.ResourceBarrier 1
        [⟨some D3D12_RESOURCE_BARRIER_TYPE.ALIASING, none, barrier_union.Aliasing 0 5⟩]] := by
  decide

/-- C23. For a 32-bit `index`, `end_query(pool, type, index)` records exactly one
`EndQuery` for the pool, the converted type and `index`; when a readback resource is
registered on the pool it then records exactly one `ResolveQueryData` of one query,
the one at `index`, into that resource at byte offset `8 * index`, and otherwise
nothing more. The 8-byte ranges at the offsets of two different indices are
disjoint. -/
theorem end_query_resolves_own_slot (convert_query_type : Nat → Nat)
    (GetPrivateData : Nat → Option Nat) (t : translator) (pool type index : Nat)
    (hindex : index < 2 ^ 32) :
    issued t (end_query convert_query_type GetPrivateData t pool type index) =
      [native_call.EndQuery pool (convert_query_type type) index] ++
      Option.elim (GetPrivateData pool) []
        (fun readback_resource =>
          [native_call.ResolveQueryData pool (convert_query_type type) index 1
            readback_resource (8 * index)]) ∧
    (∀ other, other ≠ index → 8 * index + 8 ≤ 8 * other ∨ 8 * other + 8 ≤ 8 * index) := by
  constructor
  · cases t
    rcases h : GetPrivateData pool with _ | r
    · simp [issued, end_query, translator.call, h]
    · simp [issued, end_query, translator.call, h]
      omega
  · intro other hne
    omega

/-- Query 3 of pool 9, on which the readback resource 77 is registered: the resolve
goes to byte offset 24. -/
theorem end_query_resolves_own_slot_witness :
    (3 : Nat) < 2 ^ 32 ∧
    issued translator.fresh (end_query id (fun _ => some 77) translator.fresh 9 1 3) =
      [native_call.EndQuery 9 1 3, native_call.ResolveQueryData 9 1 3 1 77 24] :=
  ⟨by decide, (end_query_resolves_own_slot id (fun _ => some 77) translator.fresh 9 1 3
    (by decide)).1⟩

end reshade

namespace reshade

/-! ## D3D11 wrappers -/

/-- C21. A shader-resource, an unordered-access and a render-target view wrapper at
address 500 around the native object 600 are asked for `ID3D11ShaderResourceView1`,
`ID3D11UnorderedAccessView1` and `ID3D11RenderTargetView1`: in each case
`check_and_upgrade_interface` rejects the identifier, the request is passed to the
native object, whose answer (the native object 600 itself) is returned, and the
wrapper keeps count 1 and interface version 0. -/
theorem newer_view_interface_is_forwarded :
    QueryInterface example_iids example_native_QueryInterface
        (example_wrapper d3d11_wrapper_class.D3D11ShaderResourceView)
        example_iids.ID3D11ShaderResourceView1 900 =
      (⟨d3d11_wrapper_class.D3D11ShaderResourceView, 500, 600, 1, 0,
        [wrapper_event.orig_QueryInterface example_iids.ID3D11ShaderResourceView1]⟩,
        S_OK, some 600) ∧
    QueryInterface example_iids example_native_QueryInterface
        (example_wrapper d3d11_wrapper_class.D3D11UnorderedAccessView)
        example_iids.ID3D11UnorderedAccessView1 900 =
      (⟨d3d11_wrapper_class.D3D11UnorderedAccessView, 500, 600, 1, 0,
        [wrapper_event.orig_QueryInterface example_iids.ID3D11UnorderedAccessView1]⟩,
        S_OK, some 600) ∧
    QueryInterface example_iids example_native_QueryInterface
        (example_wrapper d3d11_wrapper_class.D3D11RenderTargetView)
        example_iids.ID3D11RenderTargetView1 900 =
      (⟨d3d11_wrapper_class.D3D11RenderTargetView, 500, 600, 1, 0,
        [wrapper_event.orig_QueryInterface example_iids.ID3D11RenderTargetView1]⟩,
        S_OK, some 600) := by
  decide

/-- C22, amended. On each of the five wrappers, while the 32-bit count does not wrap:
`AddRef` calls `AddRef` on the native object once, then increments `_ref` by one, and
returns the new `_ref`; `QueryInterface` for an identifier that
`check_and_upgrade_interface` accepts does exactly what `AddRef` does and stores the
wrapper itself; with a null `ppvObj` it returns `E_POINTER` and leaves the wrapper as it
was; for any other identifier it passes the request to the native object once, returns
its answer and leaves `_ref` as it was. `AddRef` raises the reference count of the
native object and `_ref` by one each, and so does an accepted `QueryInterface`; a
`QueryInterface` with a null `ppvObj`, and one that is passed on and that the native
object answers with a failure, change neither count: these leave the difference of the
two counts as it was. A `QueryInterface` that is passed on and that the native object
answers with success raises the count of the native object by one and leaves `_ref`,
so the difference grows by one. -/
theorem reference_counts_coupled (I : d3d11_iids) (native_QueryInterface : Nat → Nat × Option Nat)
    (w : d3d11_wrapper) (riid ppvObj n : Nat) (href : w._ref + 1 < 2 ^ 32) :
    AddRef w =
      ({ w with
          _ref := w._ref + 1
          events := w.events ++
            [wrapper_event.orig_AddRef, wrapper_event.InterlockedIncrement_ref] },
        w._ref + 1) ∧
    (ppvObj ≠ 0 → check_and_upgrade_interface I w.cls riid = true →
      QueryInterface I native_QueryInterface w riid ppvObj =
        ((AddRef w).1, S_OK, some w.this)) ∧
    QueryInterface I native_QueryInterface w riid 0 = (w, E_POINTER, none) ∧
    (ppvObj ≠ 0 → check_and_upgrade_interface I w.cls riid = false →
      QueryInterface I native_QueryInterface w riid ppvObj =
        ({ w with events := w.events ++ [wrapper_event.orig_QueryInterface riid] },
          native_QueryInterface riid)) ∧
    (native_ref_count native_QueryInterface n (AddRef w).1.events =
        native_ref_count native_QueryInterface n w.events + 1 ∧
      (AddRef w).1._ref = w._ref + 1) ∧
    (ppvObj ≠ 0 → check_and_upgrade_interface I w.cls riid = true →
      native_ref_count native_QueryInterface n
          (QueryInterface I native_QueryInterface w riid ppvObj).1.events =
        native_ref_count native_QueryInterface n w.events + 1 ∧
      (QueryInterface I native_QueryInterface w riid ppvObj).1._ref = w._ref + 1) ∧
    (native_ref_count native_QueryInterface n
          (QueryInterface I native_QueryInterface w riid 0).1.events =
        native_ref_count native_QueryInterface n w.events ∧
      (QueryInterface I native_QueryInterface w riid 0).1._ref = w._ref) ∧
    (ppvObj ≠ 0 → check_and_upgrade_interface I w.cls riid = false →
      SUCCEEDED (native_QueryInterface riid).1 = false →
      native_ref_count native_QueryInterface n
          (QueryInterface I native_QueryInterface w riid ppvObj).1.events =
        native_ref_count native_QueryInterface n w.events ∧
      (QueryInterface I native_QueryInterface w riid ppvObj).1._ref = w._ref) ∧
    (ppvObj ≠ 0 → check_and_upgrade_interface I w.cls riid = false →
      SUCCEEDED (native_QueryInterface riid).1 = true →
      native_ref_count native_QueryInterface n
          (QueryInterface I native_QueryInterface w riid ppvObj).1.events =
        native_ref_count native_QueryInterface n w.events + 1 ∧
      (QueryInterface I native_QueryInterface w riid ppvObj).1._ref = w._ref) := by
  have hA : AddRef w =
      ({ w with
          _ref := w._ref + 1
          events := w.events ++
            [wrapper_event.orig_AddRef, wrapper_event.InterlockedIncrement_ref] },
        w._ref + 1) := by
    cases w
    simp only [AddRef, Nat.mod_eq_of_lt href, List.append_assoc, List.singleton_append]
  have hbal : native_ref_count native_QueryInterface n (AddRef w).1.events =
        native_ref_count native_QueryInterface n w.events + 1 ∧
      (AddRef w).1._ref = w._ref + 1 := by
    rw [hA]
    simp [native_ref_count, List.foldl_append]
  refine ⟨hA, ?_, ?_, ?_, hbal, ?_, ?_, ?_, ?_⟩
  · intro hp hc
    simp [QueryInterface, hp, hc]
  · simp [QueryInterface]
  · intro hp hc
    simp [QueryInterface, hp, hc]
  · intro hp hc
    simp only [QueryInterface, if_neg hp, if_pos hc]
    exact hbal
  · simp [QueryInterface]
  · intro hp hc hs
    simp [QueryInterface, hp, hc, hs, native_ref_count, List.foldl_append]
  · intro hp hc hs
    simp [QueryInterface, hp, hc, hs, native_ref_count, List.foldl_append]

/-- A sampler wrapper with count 1 around a native object with count 1 is asked for
`IUnknown`: one `AddRef` on the native object, whose count becomes 2, the count of the
wrapper becomes 2, and the wrapper (at 500) is stored. -/
theorem reference_counts_coupled_witness :
    (example_wrapper d3d11_wrapper_class.D3D11SamplerState)._ref + 1 < 2 ^ 32 ∧
    QueryInterface example_iids example_native_QueryInterface
        (example_wrapper d3d11_wrapper_class.D3D11SamplerState) example_iids.IUnknown 900 =
      (⟨d3d11_wrapper_class.D3D11SamplerState, 500, 600, 2, 0,
        [wrapper_event.orig_AddRef, wrapper_event.InterlockedIncrement_ref]⟩, S_OK, some 500) ∧
    native_ref_count example_native_QueryInterface 1
        (QueryInterface example_iids example_native_QueryInterface
          (example_wrapper d3d11_wrapper_class.D3D11SamplerState)
          example_iids.IUnknown 900).1.events = 2 :=
  ⟨by decide,
    ((reference_counts_coupled example_iids example_native_QueryInterface
      (example_wrapper d3d11_wrapper_class.D3D11SamplerState) example_iids.IUnknown 900 1
      (by decide)).2.1 (by decide) (by decide)).trans (by decide),
    by decide⟩

/-- C22, counterexample. A shader-resource view wrapper with count 1 around a native
object with count 1 is asked for `ID3D11ShaderResourceView1`, which
`check_and_upgrade_interface` rejects; the native object answers the request with
`S_OK` and its own address 600. Afterwards the native object has count 2 and the
wrapper still has count 1: the difference of the two counts went from 0 to 1. -/
theorem forwarded_query_adds_native_reference :
    check_and_upgrade_interface example_iids d3d11_wrapper_class.D3D11ShaderResourceView
      example_iids.ID3D11ShaderResourceView1 = false ∧
    native_ref_count example_native_QueryInterface 1
      (example_wrapper d3d11_wrapper_class.D3D11ShaderResourceView).events = 1 ∧
    (example_wrapper d3d11_wrapper_class.D3D11ShaderResourceView)._ref = 1 ∧
    (QueryInterface example_iids example_native_QueryInterface
      (example_wrapper d3d11_wrapper_class.D3D11ShaderResourceView)
      example_iids.ID3D11ShaderResourceView1 900).2 = (S_OK, some 600) ∧
    native_ref_count example_native_QueryInterface 1
      (QueryInterface example_iids example_native_QueryInterface
        (example_wrapper d3d11_wrapper_class.D3D11ShaderResourceView)
        example_iids.ID3D11ShaderResourceView1 900).1.events = 2 ∧
    (QueryInterface example_iids example_native_QueryInterface
      (example_wrapper d3d11_wrapper_class.D3D11ShaderResourceView)
      example_iids.ID3D11ShaderResourceView1 900).1._ref = 1 := by
  decide

end reshade

namespace reshade

/-! ## The PIX blob -/

theorem store_UINT64_other (memory : Nat → Option Nat) (index value a : Nat)
    (h : a < 8 * index ∨ 8 * index + 8 ≤ a) : store_UINT64 memory index value a = memory a := by
  unfold store_UINT64
  rw [if_neg (by omega)]

theorem store_UINT64_byte (memory : Nat → Option Nat) (index value i : Nat) (hi : i < 8) :
    store_UINT64 memory index value (8 * index + i) = some (value / 256 ^ i % 256) := by
  unfold store_UINT64
  rw [if_pos (by omega), Nat.add_sub_cancel_left]

theorem load_UINT64_congr (m1 m2 : Nat → Option Nat) (index : Nat)
    (h : ∀ i, i < 8 → m1 (8 * index + i) = m2 (8 * index + i)) :
    load_UINT64 m1 index = load_UINT64 m2 index := by
  unfold load_UINT64
  have hr : List.range 8 = [0, 1, 2, 3, 4, 5, 6, 7] := by decide
  rw [hr]
  simp only [List.foldr_cons, List.foldr_nil]
  rw [h 0 (by omega), h 1 (by omega), h 2 (by omega), h 3 (by omega), h 4 (by omega),
    h 5 (by omega), h 6 (by omega), h 7 (by omega)]

theorem load_store_UINT64 (memory : Nat → Option Nat) (index value : Nat)
    (hv : value < 2 ^ 64) : load_UINT64 (store_UINT64 memory index value) index = some value := by
  unfold load_UINT64
  have hr : List.range 8 = [0, 1, 2, 3, 4, 5, 6, 7] := by decide
  rw [hr]
  simp only [List.foldr_cons, List.foldr_nil]
  rw [store_UINT64_byte _ _ _ 0 (by omega), store_UINT64_byte _ _ _ 1 (by omega),
    store_UINT64_byte _ _ _ 2 (by omega), store_UINT64_byte _ _ _ 3 (by omega),
    store_UINT64_byte _ _ _ 4 (by omega), store_UINT64_byte _ _ _ 5 (by omega),
    store_UINT64_byte _ _ _ 6 (by omega), store_UINT64_byte _ _ _ 7 (by omega)]
  simp only [Option.some.injEq]
  norm_num
  omega

theorem strncpy_bytes_nil (count : Nat) : strncpy_bytes [] count = List.replicate count 0 := by
  induction count with
  | zero => rfl
  | succ n ih => rw [strncpy_bytes, ih]; rfl

theorem strncpy_bytes_eq (src : List Nat) :
    ∀ count, strncpy_bytes src count =
      (c_string src).take count ++ List.replicate (count - (c_string src).length) 0 := by
  induction src with
  | nil =>
    intro count
    rw [strncpy_bytes_nil]
    simp [c_string]
  | cons c src ih =>
    intro count
    cases count with
    | zero => simp [strncpy_bytes]
    | succ n =>
      by_cases hc : c = 0
      · rw [strncpy_bytes, if_pos hc, strncpy_bytes_nil]
        simp [c_string, hc, List.replicate_succ]
      · rw [strncpy_bytes, if_neg hc, ih n]
        simp [c_string, hc, List.takeWhile_cons]

theorem strncpy_bytes_length (src : List Nat) (count : Nat) :
    (strncpy_bytes src count).length = count := by
  rw [strncpy_bytes_eq]
  simp only [List.length_append, List.length_take, List.length_replicate]
  omega

theorem pix3blob_rgb_lt (color : Option (Nat × Nat × Nat)) : pix3blob_rgb color < 2 ^ 24 := by
  rcases color with _ | ⟨c0, c1, c2⟩
  · simp [pix3blob_rgb]
  · have h0 : c0 % 2 ^ 32 &&& 0xFF ≤ 0xFF := Nat.and_le_right
    have h1 : c1 % 2 ^ 32 &&& 0xFF ≤ 0xFF := Nat.and_le_right
    have h2 : c2 % 2 ^ 32 &&& 0xFF ≤ 0xFF := Nat.and_le_right
    unfold pix3blob_rgb
    apply Nat.or_lt_two_pow
    · apply Nat.or_lt_two_pow
      · rw [Nat.shiftLeft_eq]
        have : (c0 % 2 ^ 32 &&& 0xFF) * 2 ^ 16 < 2 ^ 24 := by omega
        exact lt_of_le_of_lt (Nat.mod_le _ _) this
      · rw [Nat.shiftLeft_eq]
        have : (c1 % 2 ^ 32 &&& 0xFF) * 2 ^ 8 < 2 ^ 24 := by omega
        exact lt_of_le_of_lt (Nat.mod_le _ _) this
    · omega

theorem pix3blob_word1_eq (color : Option (Nat × Nat × Nat)) :
    0xFF000000 ||| pix3blob_rgb color = 0xFF000000 + pix3blob_rgb color := by
  have := Nat.mul_add_lt_is_or (pix3blob_rgb_lt color) 255
  norm_num at this
  omega

theorem encode_pix3blob_bytes (pix3blob : Nat → Option Nat) (label : List Nat)
    (color : Option (Nat × Nat × Nat)) (a : Nat) :
    encode_pix3blob pix3blob label color a =
      if a < 8 then some ((0x2 <<< 10) % 2 ^ 64 / 256 ^ a % 256)
      else if a < 16 then some ((0xFF000000 ||| pix3blob_rgb color) / 256 ^ (a - 8) % 256)
      else if a < 24 then some (((8 <<< 55) ||| (1 <<< 54)) % 2 ^ 64 / 256 ^ (a - 16) % 256)
      else if a < 504 then (strncpy_bytes label 480)[a - 24]?
      else if a < 512 then some 0
      else pix3blob a := by
  have hl : (load_UINT64 (store_UINT64 (store_UINT64 pix3blob 0 ((0x2 <<< 10) % 2 ^ 64)) 1
      0xFF000000) 1).getD 0 = 0xFF000000 := by
    rw [load_store_UINT64 _ _ _ (by norm_num)]
    rfl
  rcases color with _ | ⟨c0, c1, c2⟩
  · simp only [encode_pix3blob, store_UINT64, strncpy, pix3blob_rgb]
    split_ifs <;> first | rfl | omega | simp
  · simp only [encode_pix3blob, hl]
    simp only [store_UINT64, strncpy, pix3blob_rgb]
    split_ifs <;> first | rfl | omega | simp

theorem load_UINT64_of_bytes (memory : Nat → Option Nat) (index value : Nat)
    (hv : value < 2 ^ 64)
    (h : ∀ i, i < 8 → memory (8 * index + i) = some (value / 256 ^ i % 256)) :
    load_UINT64 memory index = some value := by
  rw [load_UINT64_congr memory (store_UINT64 memory index value) index
    (fun i hi => (h i hi).trans (store_UINT64_byte memory index value i hi).symm)]
  exact load_store_UINT64 memory index value hv

/-- C30. Whatever the label, the colour and the content of the array before,
`encode_pix3blob` leaves every byte from offset 512 on as it was and gives every byte
below 512 a value: word 0 is `0x2 << 10`; word 1 is `0xFF000000` plus the colour bits,
which are below `2 ^ 24` and are 0 without a colour; word 2 is `(8 << 55) | (1 << 54)`;
byte `24 + i` for `i < 480` is character `i` of the label when the label has more than
`i` characters and 0 otherwise; word 63, and so byte 504 right after the text, is 0.
`begin_debug_event` hands these 512 bytes to `BeginEvent`. -/
theorem pix3blob_fully_determined (pix3blob : Nat → Option Nat) (label : List Nat)
    (color : Option (Nat × Nat × Nat)) (t : translator) :
    (∀ a, 512 ≤ a → encode_pix3blob pix3blob label color a = pix3blob a) ∧
    (∀ a, a < 512 → (encode_pix3blob pix3blob label color a).isSome = true) ∧
    load_UINT64 (encode_pix3blob pix3blob label color) 0 = some (0x2 <<< 10) ∧
    (load_UINT64 (encode_pix3blob pix3blob label color) 1 =
        some (0xFF000000 + pix3blob_rgb color) ∧
      pix3blob_rgb color < 2 ^ 24 ∧ pix3blob_rgb none = 0) ∧
    load_UINT64 (encode_pix3blob pix3blob label color) 2 = some ((8 <<< 55) ||| (1 <<< 54)) ∧
    (∀ i, i < 480 → i < (c_string label).length →
      encode_pix3blob pix3blob label color (24 + i) = (c_string label)[i]?) ∧
    (∀ i, i < 480 → (c_string label).length ≤ i →
      encode_pix3blob pix3blob label color (24 + i) = some 0) ∧
    load_UINT64 (encode_pix3blob pix3blob label color) 63 = some 0 ∧
    encode_pix3blob pix3blob label color 504 = some 0 ∧
    issued t (begin_debug_event t label color) =
      [native_call.BeginEvent 2
        ((List.range 512).map (encode_pix3blob (fun _ => none) label color)) 512] := by
  have hb := encode_pix3blob_bytes pix3blob label color
  have htext : ∀ i, i < 480 → encode_pix3blob pix3blob label color (24 + i) =
      ((c_string label).take 480 ++ List.replicate (480 - (c_string label).length) 0)[i]? := by
    intro i hi
    rw [hb, if_neg (by omega), if_neg (by omega), if_neg (by omega), if_pos (by omega),
      Nat.add_sub_cancel_left, strncpy_bytes_eq]
  refine ⟨?_, ?_, ?_, ⟨?_, pix3blob_rgb_lt color, rfl⟩, ?_, ?_, ?_, ?_, ?_, ?_⟩
  · intro a ha
    rw [hb, if_neg (by omega), if_neg (by omega), if_neg (by omega), if_neg (by omega),
      if_neg (by omega)]
  · intro a ha
    rw [hb]
    split_ifs with h1 h2 h3 h4
    · rfl
    · rfl
    · rfl
    · rw [List.getElem?_eq_getElem (by rw [strncpy_bytes_length]; omega)]
      rfl
    · rfl
  · apply load_UINT64_of_bytes _ _ _ (by decide)
    intro i hi
    rw [hb, if_pos (by omega)]
    have e : (0x2 <<< 10) % 2 ^ 64 = 0x2 <<< 10 := by decide
    have e2 : 8 * 0 + i = i := by omega
    rw [e, e2]
  · rw [← pix3blob_word1_eq]
    apply load_UINT64_of_bytes _ _ _
      (lt_of_lt_of_le (Nat.or_lt_two_pow (show 0xFF000000 < 2 ^ 32 by norm_num)
        (lt_of_lt_of_le (pix3blob_rgb_lt color) (by norm_num))) (by norm_num))
    intro i hi
    rw [hb, if_neg (by omega), if_pos (by omega)]
    have e : 8 * 1 + i - 8 = i := by omega
    rw [e]
  · apply load_UINT64_of_bytes _ _ _ (by decide)
    intro i hi
    rw [hb, if_neg (by omega), if_neg (by omega), if_pos (by omega)]
    have e : 8 * 2 + i - 16 = i := by omega
    have e2 : ((8 <<< 55) ||| (1 <<< 54)) % 2 ^ 64 = (8 <<< 55) ||| (1 <<< 54) := by decide
    rw [e, e2]
  · intro i hi hlen
    rw [htext i hi, List.getElem?_append_left (by rw [List.length_take]; omega),
      List.getElem?_take, if_pos hi]
  · intro i hi hlen
    rw [htext i hi, List.getElem?_append_right (by rw [List.length_take]; omega),
      List.getElem?_replicate, if_pos (by rw [List.length_take]; omega)]
  · apply load_UINT64_of_bytes _ _ _ (by norm_num)
    intro i hi
    rw [hb, if_neg (by omega), if_neg (by omega), if_neg (by omega), if_neg (by omega),
      if_pos (by omega)]
    simp
  · rw [hb]
    rfl
  · cases t
    simp [issued, begin_debug_event, translator.call]

end reshade

namespace reshade

/-! ## Interleaved calls on the allocator -/

/-- A thread that runs alone does what the sequential `allocate` does: the first call
on the fresh allocator, made access by access, returns the same pointer and leaves
the same `next` fields in the head nodes, the block and its sub-blocks. -/
theorem single_thread_matches_sequential_allocate :
    ((example_threads.run (example_params 4) (List.replicate 17 0)).threads.map
      fun th => th.returned) =
      [(example_fresh.run (example_params 4) [alloc_call.allocate 1000]).returned, [], []] ∧
    [100, 200, 1000, 1008, 1016, 1024, 1032].map
        (example_threads.run (example_params 4) (List.replicate 17 0)).self.next =
      [100, 200, 1000, 1008, 1016, 1024, 1032].map
        (example_fresh.run (example_params 4) [alloc_call.allocate 1000]).self.next := by
  decide

/-- C24. With `BlockSize = 4`, thread 0 loads the head 1024 of the free list and its
successor 1032 and is then overtaken by thread 1, which takes 1024 and 1032 and gives
1024 back. The compare-exchange of thread 0 still finds 1024 at the head, succeeds,
and makes 1032 the head although thread 1 holds it; thread 2 is then handed 1032
too. At the end every call has returned, threads 1 and 2 both hold 1032 without
either having freed it, and the free list is empty. -/
theorem interleaved_pop_hands_out_live_slot :
    ((example_threads.run (example_params 4) example_schedule).threads.map
      fun th => (th.calls, th.pc)) =
      [([], call_pc.idle), ([], call_pc.idle), ([], call_pc.idle)] ∧
    ((example_threads.run (example_params 4) example_schedule).threads.map
      fun th => th.returned) = [[1024, 1016], [1032, 1024], [1032]] ∧
    ((example_threads.run (example_params 4) example_schedule).threads.map
      fun th => th.live) = [[1024, 1016], [1032], [1032]] ∧
    (example_threads.run (example_params 4) example_schedule).self.next 200 = 0 ∧
    ((example_threads.run (example_params 4) (example_schedule.take 19)).threads.map
      fun th => th.pc) =
      [call_pc.allocate_pop 2000 (atomic_pc.pop_cas 1024 1032), call_pc.idle, call_pc.idle] := by
  decide

end reshade

namespace reshade

/-! ## The cache of bound descriptor heaps -/

theorem native_descriptor_heaps_append (xs ys : List native_call) :
    native_descriptor_heaps (xs ++ ys) = ys.foldl heaps_after (native_descriptor_heaps xs) := by
  unfold native_descriptor_heaps
  rw [List.foldl_append]

theorem foldl_heaps_after_none (ys : List native_call) :
    ∀ bound : List Nat, (∀ c ∈ ys, sets_descriptor_heaps c = false) →
      ys.foldl heaps_after bound = bound := by
  induction ys with
  | nil => intro bound _; rfl
  | cons c ys ih =>
    intro bound h
    rw [List.foldl_cons]
    have hc := h c (List.mem_cons_self _ _)
    have e : heaps_after bound c = bound := by
      cases c <;> first | rfl | simp [sets_descriptor_heaps] at hc
    rw [e]
    exact ih bound (fun c hcm => h c (List.mem_cons_of_mem _ hcm))

/-- A command that leaves the cache alone and records no `SetDescriptorHeaps` keeps the
invariant. -/
theorem heaps_inv_frame (t t2 : translator) (X : List native_call) (h : heaps_inv t)
    (hc : t2._current_descriptor_heaps = t._current_descriptor_heaps)
    (ho : t2.orig_calls = t.orig_calls ++ X)
    (hX : ∀ c ∈ X, sets_descriptor_heaps c = false) : heaps_inv t2 := by
  unfold heaps_inv cached_descriptor_heaps at *
  rw [hc, ho, native_descriptor_heaps_append, foldl_heaps_after_none X _ hX]
  exact h

/-- A command that records `SetDescriptorHeaps` with what it caches, and no other
afterwards, establishes the invariant. -/
theorem heaps_inv_rebind (t t2 : translator) (X Y : List native_call) (n : Nat)
    (hz : t2._current_descriptor_heaps.1 = 0 → t2._current_descriptor_heaps.2 = 0)
    (ho : t2.orig_calls = t.orig_calls ++ X ++
      [native_call.SetDescriptorHeaps n (cached_descriptor_heaps t2)] ++ Y)
    (hY : ∀ c ∈ Y, sets_descriptor_heaps c = false) : heaps_inv t2 := by
  refine ⟨hz, fun _ => ?_⟩
  rw [ho, native_descriptor_heaps_append, foldl_heaps_after_none Y _ hY,
    native_descriptor_heaps_append]
  rfl

/-- A command that binds the view heap for a while, as the two clears and
`generate_mipmaps` do, keeps the invariant. -/
theorem heaps_inv_temporary (t t2 : translator) (view_heap : Nat) (M : List native_call)
    (h : heaps_inv t)
    (hc : t2._current_descriptor_heaps = t._current_descriptor_heaps)
    (ho : t2.orig_calls = t.orig_calls ++
      (if t._current_descriptor_heaps.1 ≠ view_heap ∧ t._current_descriptor_heaps.2 ≠ view_heap
        then [native_call.SetDescriptorHeaps 1 [view_heap]] else []) ++ M ++
      (if t._current_descriptor_heaps.1 ≠ view_heap ∧
          t._current_descriptor_heaps.2 ≠ view_heap ∧ t._current_descriptor_heaps.1 ≠ 0
        then [native_call.SetDescriptorHeaps
          (if t._current_descriptor_heaps.2 ≠ 0 then 2 else 1)
          ([t._current_descriptor_heaps.1, t._current_descriptor_heaps.2].take
            (if t._current_descriptor_heaps.2 ≠ 0 then 2 else 1))]
        else []))
    (hM : ∀ c ∈ M, sets_descriptor_heaps c = false) : heaps_inv t2 := by
  obtain ⟨h1, h2⟩ := h
  refine ⟨by rw [hc]; exact h1, fun hne => ?_⟩
  rw [hc] at hne
  have hcached : cached_descriptor_heaps t2 = cached_descriptor_heaps t := by
    unfold cached_descriptor_heaps; rw [hc]
  rw [hcached]
  by_cases hb : t._current_descriptor_heaps.1 ≠ view_heap ∧
      t._current_descriptor_heaps.2 ≠ view_heap
  · rw [ho, if_pos hb, if_pos ⟨hb.1, hb.2, hne⟩, native_descriptor_heaps_append]
    rfl
  · rw [ho, if_neg hb, if_neg (fun hh => hb ⟨hh.1, hh.2.1⟩), List.append_nil, List.append_nil,
      native_descriptor_heaps_append, foldl_heaps_after_none M _ hM]
    exact h2 hne

theorem barrier_heaps_inv (E : resource_usage_values) (conv : Nat → Nat) (t : translator)
    (count : Nat) (resources old_states new_states : Nat → Nat) (h : heaps_inv t) :
    heaps_inv (t.barrier E conv count resources old_states new_states) := by
  refine heaps_inv_frame t _
    (issued t (t.barrier E conv count resources old_states new_states)) h rfl ?_ ?_ <;>
  cases t <;> by_cases hc : count = 0 <;>
  simp [issued, translator.barrier, barrier, hc, sets_descriptor_heaps]

theorem push_constants_heaps_inv (E : api_values) (t : translator)
    (stages layout layout_param first count values : Nat) (h : heaps_inv t) :
    heaps_inv (push_constants E t stages layout layout_param first count values) := by
  refine heaps_inv_frame t _
    (issued t (push_constants E t stages layout layout_param first count values)) h ?_ ?_ ?_ <;>
  rcases t with ⟨hc, oc, ⟨g, cc⟩, dh, dc, tr⟩ <;>
  by_cases h1 : stages &&& E.shader_stage_all_compute = 0 <;>
  by_cases h2 : stages &&& E.shader_stage_all_graphics = 0 <;>
  by_cases h3 : cc = layout <;> by_cases h4 : g = layout <;>
  simp [issued, push_constants, translator.set_compute_root_signature,
    translator.set_graphics_root_signature, translator.call, sets_descriptor_heaps,
    h1, h2, h3, h4]

theorem clear_unordered_access_view_uint_heaps_inv (D : device_impl)
    (alloc : Option (Nat × Nat)) (t : translator) (uav values rect_count rects : Nat)
    (h : heaps_inv t) :
    heaps_inv (clear_unordered_access_view_uint D alloc t uav values rect_count rects) := by
  rcases alloc with _ | a
  · refine heaps_inv_frame t _ [] h ?_ ?_ ?_
    · cases t; rfl
    · cases t; simp [clear_unordered_access_view_uint, translator.request]
    · intro c hcm; cases hcm
  · rw [clear_unordered_access_view_uint_eq]
    refine heaps_inv_temporary t _ D._gpu_view_heap
      [native_call.ClearUnorderedAccessViewUint a.2 uav (D.get_resource_from_view uav) values
        rect_count rects] h rfl rfl ?_
    intro c hcm
    rw [List.mem_singleton] at hcm
    rw [hcm]; rfl

theorem clear_unordered_access_view_float_heaps_inv (D : device_impl)
    (alloc : Option (Nat × Nat)) (t : translator) (uav values rect_count rects : Nat)
    (h : heaps_inv t) :
    heaps_inv (clear_unordered_access_view_float D alloc t uav values rect_count rects) := by
  rcases alloc with _ | a
  · refine heaps_inv_frame t _ [] h ?_ ?_ ?_
    · cases t; rfl
    · cases t; simp [clear_unordered_access_view_float, translator.request]
    · intro c hcm; cases hcm
  · rw [clear_unordered_access_view_float_eq]
    refine heaps_inv_temporary t _ D._gpu_view_heap
      [native_call.ClearUnorderedAccessViewFloat a.2 uav (D.get_resource_from_view uav) values
        rect_count rects] h rfl rfl ?_
    intro c hcm
    rw [List.mem_singleton] at hcm
    rw [hcm]; rfl

theorem generate_mipmaps_heaps_inv (D : device_impl) (alloc : Option (Nat × Nat))
    (t : translator) (srv : Nat) (h : heaps_inv t) :
    heaps_inv (generate_mipmaps D alloc t srv) := by
  by_cases hp : D._mipmap_pipeline = 0
  · unfold generate_mipmaps
    rw [if_pos hp]
    exact h
  rcases alloc with _ | a
  · refine heaps_inv_frame t _ [] h ?_ ?_ ?_
    · unfold generate_mipmaps
      rw [if_neg hp]
      cases t; rfl
    · unfold generate_mipmaps
      rw [if_neg hp]
      cases t; simp [translator.request]
    · intro c hcm; cases hcm
  · rw [generate_mipmaps_eq D a t srv _ _ hp rfl rfl]
    refine heaps_inv_temporary t _ D._gpu_view_heap
      ([native_call.SetComputeRootSignature D._mipmap_signature,
          native_call.SetPipelineState D._mipmap_pipeline,
          native_call.ResourceBarrier 1 [mip_transition (D.get_resource_from_view srv)]] ++
        ((List.range' 1 ((D.resource_GetDesc (D.get_resource_from_view srv)).MipLevels - 1)).flatMap
          fun level =>
            [native_call.SetComputeRoot32BitConstants 0 2
              (root_constants.inverse_dimensions
                (mip_extent (D.resource_GetDesc (D.get_resource_from_view srv)).Width level)
                (mip_extent (D.resource_GetDesc (D.get_resource_from_view srv)).Height level)) 0,
             native_call.SetComputeRootDescriptorTable 1
              (D.offset_descriptor_handle a.2 ((level - 1) % 2 ^ 32)
                D3D12_DESCRIPTOR_HEAP_TYPE_CBV_SRV_UAV),
             native_call.SetComputeRootDescriptorTable 2
              (D.offset_descriptor_handle a.2
                (((D.resource_GetDesc (D.get_resource_from_view srv)).MipLevels + level - 1) %
                  2 ^ 32)
                D3D12_DESCRIPTOR_HEAP_TYPE_CBV_SRV_UAV),
             native_call.Dispatch
              (mip_thread_groups
                (mip_extent (D.resource_GetDesc (D.get_resource_from_view srv)).Width level))
              (mip_thread_groups
                (mip_extent (D.resource_GetDesc (D.get_resource_from_view srv)).Height level)) 1,
             native_call.ResourceBarrier 1
              [mip_uav_barrier (D.get_resource_from_view srv)]]) ++
        [native_call.ResourceBarrier 1
          [swap_transition_states (mip_transition (D.get_resource_from_view srv))]])
      h rfl ?_ ?_
    · simp only [List.append_assoc]
    · intro c hcm
      simp only [List.mem_append, List.mem_flatMap, List.mem_cons, List.mem_singleton,
        List.not_mem_nil, or_false] at hcm
      rcases hcm with ((hcm | hcm | hcm) | ⟨L, _, hcm | hcm | hcm | hcm | hcm⟩) | hcm <;>
        (rw [hcm]; rfl)

theorem push_descriptors_heaps_inv (E : api_values) (D : device_impl)
    (alloc : Option (Nat × Nat)) (t : translator) (stages layout layout_param : Nat)
    (update : descriptor_set_update) (hs : D._gpu_sampler_heap ≠ 0) (hv : D._gpu_view_heap ≠ 0)
    (h : heaps_inv t) :
    heaps_inv (push_descriptors E D alloc t stages layout layout_param update) := by
  rcases alloc with _ | ⟨b, bg⟩
  · refine heaps_inv_frame t _ [] h ?_ ?_ ?_
    · cases t; rfl
    · cases t; simp [push_descriptors, translator.request]
    · intro c hcm; cases hcm
  · by_cases h0 : t._current_descriptor_heaps.1 ≠ D._gpu_sampler_heap ∨
        t._current_descriptor_heaps.2 ≠ D._gpu_view_heap
    · refine heaps_inv_rebind t _ []
        ((issued t (push_descriptors E D (some (b, bg)) t stages layout layout_param
          update)).drop 1) 2 ?_ ?_ ?_ <;>
      rcases t with ⟨hc, oc, ⟨g, cc⟩, ⟨d0, d1⟩, dc, tr⟩ <;>
      by_cases h1 : stages &&& E.shader_stage_all_compute = 0 <;>
      by_cases h2 : stages &&& E.shader_stage_all_graphics = 0 <;>
      by_cases h3 : cc = layout <;> by_cases h4 : g = layout <;>
      simp [issued, push_descriptors, push_descriptors_write_eq, cached_descriptor_heaps,
        translator.request, translator.set_compute_root_signature,
        translator.set_graphics_root_signature, translator.call, sets_descriptor_heaps,
        h0, h1, h2, h3, h4, hs, hv]
    · refine heaps_inv_frame t _
        (issued t (push_descriptors E D (some (b, bg)) t stages layout layout_param update))
        h ?_ ?_ ?_ <;>
      rcases t with ⟨hc, oc, ⟨g, cc⟩, ⟨d0, d1⟩, dc, tr⟩ <;>
      by_cases h1 : stages &&& E.shader_stage_all_compute = 0 <;>
      by_cases h2 : stages &&& E.shader_stage_all_graphics = 0 <;>
      by_cases h3 : cc = layout <;> by_cases h4 : g = layout <;>
      simp [issued, push_descriptors, push_descriptors_write_eq,
        translator.request, translator.set_compute_root_signature,
        translator.set_graphics_root_signature, translator.call, sets_descriptor_heaps,
        h0, h1, h2, h3, h4]

theorem bind_descriptor_sets_place_inv (D : device_impl) (heaps : Nat × Nat) (heap : Nat)
    (hh : heap ≠ 0) (h : heaps.1 = 0 → heaps.2 = 0) :
    (bind_descriptor_sets_place D heaps heap).1 = 0 →
      (bind_descriptor_sets_place D heaps heap).2 = 0 := by
  unfold bind_descriptor_sets_place
  split_ifs with h1 h2 h3 h4
  · exact h
  · intro h0; exact absurd h0 hh
  · exact h
  · intro h0
    exact absurd (Or.inl h0) h2
  · exact h

theorem bind_descriptor_sets_heaps_fold_inv (D : device_impl) (sets : Nat → Nat)
    (l : List Nat) :
    ∀ heaps : Nat × Nat, (heaps.1 = 0 → heaps.2 = 0) →
      ((l.foldl (bind_descriptor_sets_heap D sets) heaps).1 = 0 →
        (l.foldl (bind_descriptor_sets_heap D sets) heaps).2 = 0) := by
  induction l with
  | nil => intro heaps h; exact h
  | cons i l ih =>
    intro heaps h
    rw [List.foldl_cons]
    apply ih
    unfold bind_descriptor_sets_heap
    dsimp only
    split_ifs with h0
    · exact h
    · exact bind_descriptor_sets_place_inv D heaps _ h0 h

theorem bind_descriptor_sets_heaps_inv (E : api_values) (D : device_impl) (t : translator)
    (stages layout first count : Nat) (sets : Nat → Nat) (h : heaps_inv t) :
    heaps_inv (bind_descriptor_sets E D t stages layout first count sets) := by
  by_cases hc0 : count = 0
  · unfold bind_descriptor_sets
    rw [if_pos hc0]
    exact h
  have hfold := bind_descriptor_sets_heaps_fold_inv D sets (List.range count)
    t._current_descriptor_heaps h.1
  by_cases h0 : t._current_descriptor_heaps.1 ≠
        ((List.range count).foldl (bind_descriptor_sets_heap D sets)
          t._current_descriptor_heaps).1 ∨
      t._current_descriptor_heaps.2 ≠
        ((List.range count).foldl (bind_descriptor_sets_heap D sets)
          t._current_descriptor_heaps).2
  · refine heaps_inv_rebind t _ []
      ((issued t (bind_descriptor_sets E D t stages layout first count sets)).drop 1)
      (if ((List.range count).foldl (bind_descriptor_sets_heap D sets)
          t._current_descriptor_heaps).2 ≠ 0 then 2 else 1) ?_ ?_ ?_ <;>
    rcases t with ⟨hc, oc, ⟨g, cc⟩, ⟨d0, d1⟩, dc, tr⟩ <;>
    unfold bind_descriptor_sets <;>
    rw [if_neg hc0] <;>
    dsimp only at h0 hfold ⊢ <;>
    generalize (List.range count).foldl (bind_descriptor_sets_heap D sets) (d0, d1) = heaps
      at h0 hfold ⊢ <;>
    simp only [foldl_call] <;>
    by_cases h1 : stages &&& E.shader_stage_all_compute = 0 <;>
    by_cases h2 : stages &&& E.shader_stage_all_graphics = 0 <;>
    by_cases h3 : cc = layout <;> by_cases h4 : g = layout <;>
    simp [issued, cached_descriptor_heaps, translator.set_compute_root_signature,
      translator.set_graphics_root_signature, translator.call, sets_descriptor_heaps,
      h0, h1, h2, h3, h4] <;>
    first
      | exact hfold
      | (rintro c (⟨a, -, rfl⟩ | ⟨a, -, rfl⟩) <;> rfl)
      | (rintro c (⟨a, -, rfl⟩ | rfl | ⟨a, -, rfl⟩) <;> rfl)
  · refine heaps_inv_frame t _
      (issued t (bind_descriptor_sets E D t stages layout first count sets)) h ?_ ?_ ?_ <;>
    rcases t with ⟨hc, oc, ⟨g, cc⟩, ⟨d0, d1⟩, dc, tr⟩ <;>
    unfold bind_descriptor_sets <;>
    rw [if_neg hc0] <;>
    dsimp only at h0 ⊢ <;>
    generalize (List.range count).foldl (bind_descriptor_sets_heap D sets) (d0, d1) = heaps
      at h0 ⊢ <;>
    simp only [foldl_call] <;>
    by_cases h1 : stages &&& E.shader_stage_all_compute = 0 <;>
    by_cases h2 : stages &&& E.shader_stage_all_graphics = 0 <;>
    by_cases h3 : cc = layout <;> by_cases h4 : g = layout <;>
    simp [issued, translator.set_compute_root_signature,
      translator.set_graphics_root_signature, translator.call, sets_descriptor_heaps,
      h0, h1, h2, h3, h4] <;>
    first
      | (rintro c (⟨a, -, rfl⟩ | ⟨a, -, rfl⟩) <;> rfl)
      | (rintro c (⟨a, -, rfl⟩ | rfl | ⟨a, -, rfl⟩) <;> rfl)

theorem begin_render_pass_heaps_inv (E : api_values) (D : device_impl) (has_cmd_list4 : Bool)
    (t : translator) (count : Nat) (rts : Nat → render_pass_render_target_desc)
    (ds : Option render_pass_depth_stencil_desc) (h : heaps_inv t) :
    heaps_inv (begin_render_pass E D has_cmd_list4 t count rts ds) := by
  cases has_cmd_list4
  · unfold begin_render_pass
    rw [if_neg (by decide)]
    dsimp only
    rw [begin_render_pass_fallback_fold]
    rcases hds : depth_stencil_given ds with _ | d
    · refine heaps_inv_frame t _
        (((List.range count).filter
            (fun i => decide ((rts i).load_op = E.render_pass_load_op_clear))).map
          (fun i => native_call.ClearRenderTargetView (rts i).view (rts i).clear_color 0 0) ++
          [native_call.OMSetRenderTargets count
            (((List.range count).foldl (fun (m : temp_mem (Option Nat)) i =>
              m.assign i (some (rts i).view)) (temp_mem.create 8 none count)).p.take count)
            false none]) h ?_ ?_ ?_
      · cases t; rfl
      · cases t; simp [translator.call]
      · intro c hcm
        rw [List.mem_append, List.mem_map, List.mem_singleton] at hcm
        rcases hcm with ⟨i, -, rfl⟩ | rfl <;> rfl
    · refine heaps_inv_frame t _
        (((List.range count).filter
            (fun i => decide ((rts i).load_op = E.render_pass_load_op_clear))).map
          (fun i => native_call.ClearRenderTargetView (rts i).view (rts i).clear_color 0 0) ++
          (if begin_render_pass_clear_flags E d ≠ 0 then
            [native_call.ClearDepthStencilView d.view (begin_render_pass_clear_flags E d)
              d.clear_depth d.clear_stencil 0 0]
           else []) ++
          [native_call.OMSetRenderTargets count
            (((List.range count).foldl (fun (m : temp_mem (Option Nat)) i =>
              m.assign i (some (rts i).view)) (temp_mem.create 8 none count)).p.take count)
            false (some d.view)]) h ?_ ?_ ?_
      · cases t
        by_cases hf : begin_render_pass_clear_flags E d = 0 <;> simp [translator.call, hf]
      · cases t
        by_cases hf : begin_render_pass_clear_flags E d = 0 <;> simp [translator.call, hf]
      · intro c hcm
        rw [List.mem_append, List.mem_append, List.mem_map, List.mem_singleton] at hcm
        rcases hcm with (⟨i, -, rfl⟩ | hcm) | rfl
        · rfl
        · split at hcm
          · rw [List.mem_singleton] at hcm
            rw [hcm]; rfl
          · cases hcm
        · rfl
  · refine heaps_inv_frame t _
      (issued t (begin_render_pass E D true t count rts ds)) h ?_ ?_ ?_ <;>
    cases t <;>
    simp [issued, begin_render_pass, translator.call, sets_descriptor_heaps]

theorem heaps_inv_step (V : translator_env) (hs : V.device._gpu_sampler_heap ≠ 0)
    (hv : V.device._gpu_view_heap ≠ 0) (t : translator) (op : translator_op)
    (h : heaps_inv t) : heaps_inv (t.step V op) := by
  cases op with
  | barrier count resources old_states new_states => exact barrier_heaps_inv _ _ _ _ _ _ _ h
  | push_constants stages layout layout_param first count values =>
    exact push_constants_heaps_inv _ _ _ _ _ _ _ _ h
  | push_descriptors alloc stages layout layout_param update =>
    exact push_descriptors_heaps_inv _ _ _ _ _ _ _ _ hs hv h
  | bind_descriptor_sets stages layout first count sets =>
    exact bind_descriptor_sets_heaps_inv _ _ _ _ _ _ _ _ h
  | clear_unordered_access_view_uint alloc uav values rect_count rects =>
    exact clear_unordered_access_view_uint_heaps_inv _ _ _ _ _ _ _ h
  | clear_unordered_access_view_float alloc uav values rect_count rects =>
    exact clear_unordered_access_view_float_heaps_inv _ _ _ _ _ _ _ h
  | generate_mipmaps alloc srv => exact generate_mipmaps_heaps_inv _ _ _ _ h
  | begin_render_pass has_cmd_list4 count rts ds =>
    exact begin_render_pass_heaps_inv _ _ _ _ _ _ _ h

theorem heaps_inv_run (V : translator_env) (hs : V.device._gpu_sampler_heap ≠ 0)
    (hv : V.device._gpu_view_heap ≠ 0) (ops : List translator_op) :
    ∀ t : translator, heaps_inv t → heaps_inv (t.run V ops) := by
  induction ops with
  | nil => intro t h; exact h
  | cons op ops ih =>
    intro t h
    exact ih _ (heaps_inv_step V hs hv t op h)

theorem heaps_inv_fresh : heaps_inv translator.fresh :=
  ⟨fun _ => rfl, fun hne => absurd rfl hne⟩

theorem clear_unordered_access_view_uint_heaps (D : device_impl) (alloc : Option (Nat × Nat))
    (t : translator) (uav values rect_count rects : Nat) :
    (clear_unordered_access_view_uint D alloc t uav values rect_count
      rects)._current_descriptor_heaps = t._current_descriptor_heaps := by
  rcases alloc with _ | a
  · cases t; rfl
  · rw [clear_unordered_access_view_uint_eq]

theorem clear_unordered_access_view_float_heaps (D : device_impl) (alloc : Option (Nat × Nat))
    (t : translator) (uav values rect_count rects : Nat) :
    (clear_unordered_access_view_float D alloc t uav values rect_count
      rects)._current_descriptor_heaps = t._current_descriptor_heaps := by
  rcases alloc with _ | a
  · cases t; rfl
  · rw [clear_unordered_access_view_float_eq]

theorem generate_mipmaps_heaps (D : device_impl) (alloc : Option (Nat × Nat))
    (t : translator) (srv : Nat) :
    (generate_mipmaps D alloc t srv)._current_descriptor_heaps =
      t._current_descriptor_heaps := by
  by_cases hp : D._mipmap_pipeline = 0
  · unfold generate_mipmaps
    rw [if_pos hp]
  rcases alloc with _ | a
  · unfold generate_mipmaps
    rw [if_neg hp]
    cases t; rfl
  · rw [generate_mipmaps_eq D a t srv _ _ hp rfl rfl]

theorem heaps_inv_restored (t t2 : translator) (h2 : heaps_inv t2)
    (hc : t2._current_descriptor_heaps = t._current_descriptor_heaps)
    (hne : t._current_descriptor_heaps.1 ≠ 0) :
    native_descriptor_heaps t2.orig_calls = cached_descriptor_heaps t := by
  have := h2.2 (by rw [hc]; exact hne)
  rw [this]
  unfold cached_descriptor_heaps
  rw [hc]

/-- C25. With the two internal heaps of the device present, every state reached from a
fresh translator by a run of commands has slot 0 of the heap cache set whenever slot 1
is. If in such a state at least one heap is cached as bound, then slot 0 is set and
the heaps bound on the native command list are the cached ones; and each of
`clear_unordered_access_view_uint`, `clear_unordered_access_view_float` and
`generate_mipmaps`, whether its transient range is granted or not, leaves both cache
slots as they were and returns with the cached heaps bound on the native command
list. -/
theorem temporary_heap_bind_is_undone (V : translator_env) (ops : List translator_op)
    (alloc : Option (Nat × Nat)) (uav values rect_count rects srv : Nat)
    (hs : V.device._gpu_sampler_heap ≠ 0) (hv : V.device._gpu_view_heap ≠ 0)
    (hb : (translator.fresh.run V ops)._current_descriptor_heaps ≠ (0, 0)) :
    (∀ ops2 : List translator_op,
      (translator.fresh.run V ops2)._current_descriptor_heaps.1 = 0 →
        (translator.fresh.run V ops2)._current_descriptor_heaps.2 = 0) ∧
    (translator.fresh.run V ops)._current_descriptor_heaps.1 ≠ 0 ∧
    native_descriptor_heaps (translator.fresh.run V ops).orig_calls =
      cached_descriptor_heaps (translator.fresh.run V ops) ∧
    ((clear_unordered_access_view_uint V.device alloc (translator.fresh.run V ops) uav values
        rect_count rects)._current_descriptor_heaps =
        (translator.fresh.run V ops)._current_descriptor_heaps ∧
      native_descriptor_heaps (clear_unordered_access_view_uint V.device alloc
        (translator.fresh.run V ops) uav values rect_count rects).orig_calls =
        cached_descriptor_heaps (translator.fresh.run V ops)) ∧
    ((clear_unordered_access_view_float V.device alloc (translator.fresh.run V ops) uav values
        rect_count rects)._current_descriptor_heaps =
        (translator.fresh.run V ops)._current_descriptor_heaps ∧
      native_descriptor_heaps (clear_unordered_access_view_float V.device alloc
        (translator.fresh.run V ops) uav values rect_count rects).orig_calls =
        cached_descriptor_heaps (translator.fresh.run V ops)) ∧
    ((generate_mipmaps V.device alloc (translator.fresh.run V ops) srv)._current_descriptor_heaps =
        (translator.fresh.run V ops)._current_descriptor_heaps ∧
      native_descriptor_heaps
        (generate_mipmaps V.device alloc (translator.fresh.run V ops) srv).orig_calls =
        cached_descriptor_heaps (translator.fresh.run V ops)) := by
  have hinv := heaps_inv_run V hs hv ops translator.fresh heaps_inv_fresh
  have hne : (translator.fresh.run V ops)._current_descriptor_heaps.1 ≠ 0 := by
    intro h0
    exact hb (Prod.ext h0 (hinv.1 h0))
  refine ⟨fun ops2 => (heaps_inv_run V hs hv ops2 translator.fresh heaps_inv_fresh).1, hne,
    hinv.2 hne, ⟨?_, ?_⟩, ⟨?_, ?_⟩, ⟨?_, ?_⟩⟩
  · exact clear_unordered_access_view_uint_heaps _ _ _ _ _ _ _
  · exact heaps_inv_restored _ _
      (clear_unordered_access_view_uint_heaps_inv _ _ _ _ _ _ _ hinv)
      (clear_unordered_access_view_uint_heaps _ _ _ _ _ _ _) hne
  · exact clear_unordered_access_view_float_heaps _ _ _ _ _ _ _
  · exact heaps_inv_restored _ _
      (clear_unordered_access_view_float_heaps_inv _ _ _ _ _ _ _ hinv)
      (clear_unordered_access_view_float_heaps _ _ _ _ _ _ _) hne
  · exact generate_mipmaps_heaps _ _ _ _
  · exact heaps_inv_restored _ _ (generate_mipmaps_heaps_inv _ _ _ _ hinv)
      (generate_mipmaps_heaps _ _ _ _) hne

/-- One descriptor set of heap 12 is bound on a fresh translator of the sample device,
which caches heap 12 in slot 0; a clear with a transient range at hand then binds
nothing, heap 12 being the view heap, and heap 12 stays bound. -/
theorem temporary_heap_bind_is_undone_witness :
    (example_env.device._gpu_sampler_heap ≠ 0 ∧ example_env.device._gpu_view_heap ≠ 0 ∧
      (translator.fresh.run example_env
        [translator_op.bind_descriptor_sets 0x20 5 0 1 (fun _ => 300)])._current_descriptor_heaps
        ≠ (0, 0)) ∧
    native_descriptor_heaps (clear_unordered_access_view_uint example_env.device
      (some (1000, 2000))
      (translator.fresh.run example_env
        [translator_op.bind_descriptor_sets 0x20 5 0 1 (fun _ => 300)]) 40 0 0 0).orig_calls =
      [12] :=
  ⟨⟨by decide, by decide, by decide⟩,
    (temporary_heap_bind_is_undone example_env
      [translator_op.bind_descriptor_sets 0x20 5 0 1 (fun _ => 300)] (some (1000, 2000))
      40 0 0 0 41 (by decide) (by decide) (by decide)).2.2.2.1.2.trans (by decide)⟩

end reshade
